import Mathlib

/-!
# Zikr Reminder: the reminder scheduling engine

A shallow embedding of the scheduler of `public/main.js`: the master interval
armed by `startReminders`, its per-item callback (also under failing
presentation steps), the pause/resume and save handlers that restart it, and
the pending slot of the floating notification window, the shutdown
(`cleanup`) and the resolution of the sound file; and of the renderer code
that fills and submits the form, updates or adds a stored item and displays
the next show time (`AdkarForm.jsx`, `App.jsx`, `utils/storage.js`,
`AdkarList.jsx`).

Numbers.  Every number the scheduler computes with is an integer number of
milliseconds or minutes (`Date.now()`, `getTime()`, the `parseInt` results the
form stores), so a JavaScript number is modelled as an `Int`; the one
non-integer value that can reach the arithmetic is `NaN` (`getTime()` of a
missing or unparsable `createdAt`, `x % 0`), modelled as `none`.  The dates
the renderer builds with `new Date(...)` carry the range of a `Date`
(`newDate`): beyond 8.64e15 ms either side of the epoch they are invalid.
-/

namespace ZikrReminder

/-! ## JavaScript numbers -/

/-- A JavaScript number: an integer, or `none` for NaN. -/
abbrev JSNum := Option Int

/-- JavaScript `x + y`: NaN when an operand is NaN. -/
def jsAdd : JSNum → JSNum → JSNum
  | some a, some b => some (a + b)
  | _, _ => none

/-- JavaScript `x - y`: NaN when an operand is NaN. -/
def jsSub : JSNum → JSNum → JSNum
  | some a, some b => some (a - b)
  | _, _ => none

/-- JavaScript `x % y`: the remainder has the sign of the dividend; NaN when
an operand is NaN or the divisor is 0. -/
def jsRem : JSNum → JSNum → JSNum
  | some a, some b => if b = 0 then none else some (Int.tmod a b)
  | _, _ => none

/-- JavaScript `x < y`: false when an operand is NaN. -/
def jsLt : JSNum → JSNum → Bool
  | some a, some b => decide (a < b)
  | _, _ => false

/-- JavaScript `x >= y`: false when an operand is NaN. -/
def jsGe : JSNum → JSNum → Bool
  | some a, some b => decide (a ≥ b)
  | _, _ => false

/-! ## Data model -/

/-- One stored adhkar item.  The scheduler reads `id`, `text`,
`reminderInterval`, `delayMs` and `createdAt`.
`reminderInterval` is in minutes (`none`: the field is absent, read as
`?? 5`); `delayMs` is in milliseconds (`none`: absent, read as `?? 0`);
`createdAt` is `new Date(item.createdAt).getTime()`, `none` when the field is
absent or unparsable (NaN).  `category`, `repeats` (`-1`: unbounded) and
`infiniteRepeat` are stored by the renderer and not read by the scheduler
(`none`: absent). -/
structure Adhkar where
  id : Int
  text : String
  reminderInterval : Option Int
  delayMs : Option Int
  createdAt : JSNum
  category : Option String := none
  repeats : Option Int := none
  infiniteRepeat : Option Bool := none
deriving DecidableEq, Repr

/-- The settings fields read by the tick. -/
structure Settings where
  notificationType : Option String
  notificationSound : Option String
  customSoundPath : Option String
deriving DecidableEq, Repr

/-- Side effects of the tick that are visible outside the scheduler.
`playNotificationSound sound custom` records the call
`playNotificationSound(getNotificationSoundPath(sound, custom), volume)`;
`createNotificationWindow a sound custom` records the call
`createNotificationWindow(a, sound, getNotificationSoundPath(sound, custom), volume, theme)`;
`newReminder a` is `mainWindow.webContents.send("new-reminder", a)`. -/
inductive Event where
  | systemNotification (a : Adhkar)
  | playNotificationSound (sound : Option String) (custom : Option String)
  | createNotificationWindow (a : Adhkar) (sound : Option String) (custom : Option String)
  | newReminder (a : Adhkar)
deriving DecidableEq, Repr

/-- The item a presenter call shows, if the event is a presenter call
(system notification or floating window). -/
def Event.presented : Event → Option Adhkar
  | .systemNotification a => some a
  | .createNotificationWindow a _ _ => some a
  | _ => none

/-- The item a `new-reminder` event carries. -/
def Event.notified : Event → Option Adhkar
  | .newReminder a => some a
  | _ => none

/-- The map `lastReminderTime`: id to the time of the last firing. -/
abbrev LastReminderTime := Int → Option Int

/-- The empty map (`new Map()`, or after `clear()`). -/
def LastReminderTime.empty : LastReminderTime := fun _ => none

/-- The part of the process state a tick reads and writes, with the trace of
side effects (each stamped with the `now` of its tick). -/
structure TickState where
  lastReminderTime : LastReminderTime
  log : List (Int × Event)

/-! ## The master interval callback -/

/-- Milliseconds between occurrences: `(adhkarItem.reminderInterval ?? 5) * 60 * 1000`. -/
def intervalMs (adhkarItem : Adhkar) : Int :=
  (adhkarItem.reminderInterval.getD 5) * 60 * 1000

/-- The instant of the first occurrence: `createdAt + delayMs`. -/
def scheduledStartTime (adhkarItem : Adhkar) : JSNum :=
  jsAdd adhkarItem.createdAt (some (adhkarItem.delayMs.getD 0))

/-- The presentation of a due item: the branch on `settings.notificationType`,
then the `new-reminder` send when the main window exists. -/
def presentEvents (settings : Settings) (mainWindow : Bool) (adhkarItem : Adhkar) :
    List Event :=
  (if settings.notificationType = some "system" then
      [Event.systemNotification adhkarItem] ++
        (if settings.notificationSound ≠ some "none" then
          [Event.playNotificationSound settings.notificationSound settings.customSoundPath]
        else [])
    else
      [Event.createNotificationWindow adhkarItem settings.notificationSound
        settings.customSoundPath]) ++
  (if mainWindow then [Event.newReminder adhkarItem] else [])

/-- The body of `adhkar.forEach((adhkarItem) => ...)` inside the master
interval of `startReminders`, for the tick whose `Date.now()` is `now`. -/
def tickItem (settings : Settings) (mainWindow isPaused : Bool) (now : Int)
    (st : TickState) (adhkarItem : Adhkar) : TickState :=
  if isPaused then st
  else
    let adhkarId := adhkarItem.id
    let interval := intervalMs adhkarItem
    let start := scheduledStartTime adhkarItem
    if jsLt (some now) start then st
    else
      let timeSinceStart := jsSub (some now) start
      let cyclePosition := jsRem timeSinceStart (some interval)
      if jsLt cyclePosition (some 1000) then
        let lastTime : Int := (st.lastReminderTime adhkarId).getD (-1)
        if jsLt (some lastTime) start || jsGe (some (now - lastTime)) (some interval) then
          { lastReminderTime := Function.update st.lastReminderTime adhkarId (some now)
            log := st.log ++ (presentEvents settings mainWindow adhkarItem).map (fun e => (now, e)) }
        else st
      else st

/-- One run of the master interval callback: `adhkar.forEach` over the item
list captured by the timer. -/
def tick (settings : Settings) (mainWindow isPaused : Bool) (adhkar : List Adhkar)
    (now : Int) (st : TickState) : TickState :=
  adhkar.foldl (tickItem settings mainWindow isPaused now) st

/-- Successive runs of the callback of one armed timer, at the given times. -/
def runTicks (settings : Settings) (mainWindow isPaused : Bool) (adhkar : List Adhkar) :
    List Int → TickState → TickState
  | [], st => st
  | now :: rest, st =>
    runTicks settings mainWindow isPaused adhkar rest
      (tick settings mainWindow isPaused adhkar now st)

/-- The times at which the log records a presenter call for the item with the given id. -/
def firings (id : Int) (log : List (Int × Event)) : List Int :=
  (log.filter (fun p => match p.2.presented with
    | some a => decide (a.id = id)
    | none => false)).map Prod.fst

/-- Whether the callback fires the item: it records a presenter call. -/
def fires (settings : Settings) (mainWindow isPaused : Bool) (now : Int)
    (lastReminderTime : LastReminderTime) (adhkarItem : Adhkar) : Bool :=
  !(tickItem settings mainWindow isPaused now ⟨lastReminderTime, []⟩ adhkarItem).log.isEmpty

/-! ## The driver: timers, pause state, stores -/

/-- A JSON file of the data directory: absent, present but failing to read or
parse, or present with the given content. -/
inductive StoreFile (α : Type) where
  | missing
  | unreadable
  | content (value : α)

/-- The constant `defaultSettings` (the fields the tick reads). -/
def defaultSettings : Settings :=
  { notificationType := some "custom"
    notificationSound := some "default"
    customSoundPath := none }

/-- The constant `defaultAdhkar`: five items without `reminderInterval`,
`delayMs` or `createdAt`. -/
def defaultAdhkar : List Adhkar :=
  [ { id := 1, text := "Subhan Allah", reminderInterval := none, delayMs := none, createdAt := none,
      category := some "general", repeats := some 33 },
    { id := 2, text := "Alhamdulillah", reminderInterval := none, delayMs := none, createdAt := none,
      category := some "general", repeats := some 33 },
    { id := 3, text := "Allahu Akbar", reminderInterval := none, delayMs := none, createdAt := none,
      category := some "general", repeats := some 34 },
    { id := 4, text := "La ilaha illallah", reminderInterval := none, delayMs := none,
      createdAt := none, category := some "general", repeats := some 1 },
    { id := 5, text := "Astaghfirullah", reminderInterval := none, delayMs := none,
      createdAt := none, category := some "general", repeats := some 10 } ]

/-- An interval armed by `setInterval` in `startReminders`: its handle and the
`settings` and `adhkar` constants its callback closes over. -/
structure Timer where
  handle : Nat
  settings : Settings
  adhkar : List Adhkar

/-- The module-level state of `main.js` that the scheduler reads and writes,
with the event loop's armed intervals (`timers`), the trace of tick side
effects (`log`) and the trace of `reminder-status-changed` sends
(`statusSent`). -/
structure Driver where
  isPaused : Bool
  reminderInterval : Option Nat
  lastReminderTime : LastReminderTime
  notificationTimers : List (String × Nat)
  mainWindow : Bool
  settingsFile : StoreFile Settings
  adhkarFile : StoreFile (List Adhkar)
  timers : List Timer
  nextHandle : Nat
  log : List (Int × Event)
  statusSent : List Bool

/-- The function `loadSettings`: the parsed file (a legacy data-URL
`customSoundPath` is cleared and the cleaned settings saved), the defaults
(saved) when the file is absent, the defaults when reading fails. -/
def loadSettings (d : Driver) : Settings × Driver :=
  match d.settingsFile with
  | .content s =>
    if (s.customSoundPath.map (fun p => p.startsWith "data:")).getD false then
      let s1 := { s with customSoundPath := none }
      (s1, { d with settingsFile := .content s1 })
    else (s, d)
  | .missing => (defaultSettings, { d with settingsFile := .content defaultSettings })
  | .unreadable => (defaultSettings, d)

/-- The function `loadAdhkar`: the parsed file, the defaults (saved) when the
file is absent, the defaults when reading fails. -/
def loadAdhkar (d : Driver) : List Adhkar × Driver :=
  match d.adhkarFile with
  | .content l => (l, d)
  | .missing => (defaultAdhkar, { d with adhkarFile := .content defaultAdhkar })
  | .unreadable => (defaultAdhkar, d)

/-- `clearInterval(handle)`: the interval is no longer armed. -/
def clearInterval (handle : Nat) (timers : List Timer) : List Timer :=
  timers.filter (fun t => t.handle ≠ handle)

/-- The clean-up of `if (reminderInterval) { clearInterval(reminderInterval); reminderInterval = null; }`. -/
def clearReminderInterval (d : Driver) : Driver :=
  match d.reminderInterval with
  | some h => { d with timers := clearInterval h d.timers, reminderInterval := none }
  | none => d

/-- The loop of `startReminders` that deletes the per-item entries
`adhkar-<id>` and `first-reminder-<id>` from `notificationTimers`. -/
def clearItemTimers (adhkar : List Adhkar) (nt : List (String × Nat)) : List (String × Nat) :=
  adhkar.foldl (fun acc a =>
    (acc.filter (fun e => e.1 ≠ "adhkar-" ++ toString a.id)).filter
      (fun e => e.1 ≠ "first-reminder-" ++ toString a.id)) nt

/-- The function `startReminders`: load settings and items, cancel the armed
master interval, and arm a new one when the item list is not empty. -/
def startReminders (d : Driver) : Driver :=
  let (settings, d1) := loadSettings d
  let (adhkar, d2) := loadAdhkar d1
  let d3 := clearReminderInterval d2
  let d4 := { d3 with notificationTimers := clearItemTimers adhkar d3.notificationTimers }
  if adhkar.length > 0 then
    { d4 with
      reminderInterval := some d4.nextHandle
      timers := d4.timers ++ [{ handle := d4.nextHandle, settings := settings, adhkar := adhkar }]
      nextHandle := d4.nextHandle + 1 }
  else d4

/-- The event loop runs the callback of the interval with the given handle, if
it is still armed, with `Date.now() = now`. -/
def timerFire (handle : Nat) (now : Int) (d : Driver) : Driver :=
  match d.timers.find? (fun t => t.handle = handle) with
  | some t =>
    let st := tick t.settings d.mainWindow d.isPaused t.adhkar now
      { lastReminderTime := d.lastReminderTime, log := d.log }
    { d with lastReminderTime := st.lastReminderTime, log := st.log }
  | none => d

/-- The handler `ipcMain.on("toggle-reminder", (event, paused) => ...)`. -/
def toggleReminder (paused : Bool) (d : Driver) : Driver :=
  let d1 := { d with isPaused := paused }
  if !paused then startReminders d1
  else clearReminderInterval d1

/-- The `click` of the pause/resume entry of the tray menu built by `updateTrayMenu`. -/
def trayPauseClick (d : Driver) : Driver :=
  let d1 := { d with isPaused := !d.isPaused }
  let d2 := if d1.mainWindow then { d1 with statusSent := d1.statusSent ++ [!d1.isPaused] } else d1
  if !d2.isPaused then startReminders d2
  else clearReminderInterval d2

/-- The handler `ipcMain.on("save-adhkar", (event, adhkar) => ...)`: write the
file, then restart the reminders. -/
def saveAdhkarHandler (adhkar : List Adhkar) (d : Driver) : Driver :=
  startReminders { d with adhkarFile := .content adhkar }

/-- The tasks the event loop can run against the scheduler. -/
inductive Action where
  | timer (handle : Nat) (now : Int)
  | toggleReminder (paused : Bool)
  | trayPauseClick
  | saveAdhkar (adhkar : List Adhkar)

/-- One task of the event loop. -/
def step (d : Driver) : Action → Driver
  | .timer h now => timerFire h now d
  | .toggleReminder paused => toggleReminder paused d
  | .trayPauseClick => trayPauseClick d
  | .saveAdhkar adhkar => saveAdhkarHandler adhkar d

/-- A sequence of tasks, in order. -/
def run (d : Driver) (actions : List Action) : Driver :=
  actions.foldl step d

/-- The process state at start-up, before `app.on("ready")` runs. -/
def Driver.initial (mainWindow : Bool) (settingsFile : StoreFile Settings)
    (adhkarFile : StoreFile (List Adhkar)) : Driver :=
  { isPaused := false
    reminderInterval := none
    lastReminderTime := LastReminderTime.empty
    notificationTimers := []
    mainWindow := mainWindow
    settingsFile := settingsFile
    adhkarFile := adhkarFile
    timers := []
    nextHandle := 1
    log := []
    statusSent := [] }

/-! ## Derived notions used to state the properties -/

/-- The decision of the callback written on plain integers: the start has been
reached, the position in the cycle is below 1000 ms, and the last firing (or
`-1`) is before the start or at least one interval old.  `tickItem_eq` proves
that the callback fires exactly when this holds. -/
def due (adhkarItem : Adhkar) (last : Option Int) (now : Int) : Bool :=
  match adhkarItem.createdAt with
  | none => false
  | some createdAt =>
    let start := createdAt + adhkarItem.delayMs.getD 0
    let interval := intervalMs adhkarItem
    decide (start ≤ now) && decide (interval ≠ 0) &&
      decide (Int.tmod (now - start) interval < 1000) &&
      (decide (last.getD (-1) < start) || decide (now - last.getD (-1) ≥ interval))

/-- The due rule in the words of the specification, for a tick at `now` at or
after the start `S` whose position in the cycle is below the tolerance: the
item is due when `lastFiredAt` is unset, or before the cycle boundary of `now`,
`now - (now - S) mod I`, or at least `I` old.  It is not taken from the code;
it is what the decision of the callback is compared with. -/
def dueBySpec (S I : Int) (lastFiredAt : Option Int) (now : Int) : Bool :=
  match lastFiredAt with
  | none => true
  | some t => decide (t < now - (now - S) % I) || decide (now - t ≥ I)

/-- What a run of ticks does to one item: its entry of `lastReminderTime` and
the times of its firings. -/
def itemStep (adhkarItem : Adhkar) (p : Option Int × List Int) (now : Int) :
    Option Int × List Int :=
  if due adhkarItem p.1 now then (some now, p.2 ++ [now]) else p

/-- The view of a tick state from one item: its entry of `lastReminderTime`
and the times of its firings in the log. -/
def proj (id : Int) (st : TickState) : Option Int × List Int :=
  (st.lastReminderTime id, firings id st.log)

/-! ## Concrete items used in the evaluations -/

/-- An item repeating every minute, created at 2023-11-14T22:13:20Z
(1700000000000 ms), without delay. -/
def minuteItem : Adhkar :=
  { id := 1, text := "Subhan Allah", reminderInterval := some 1, delayMs := some 0,
    createdAt := some 1700000000000 }

/-- An item repeating every minute whose `createdAt` is 1969-12-31T23:59:55Z
(-5000 ms). -/
def preEpochItem : Adhkar :=
  { id := 1, text := "Subhan Allah", reminderInterval := some 1, delayMs := some 0,
    createdAt := some (-5000) }

/-- An item repeating every minute, created at 1700000000500, without delay. -/
def halfSecondItem : Adhkar :=
  { id := 1, text := "Subhan Allah", reminderInterval := some 1, delayMs := some 0,
    createdAt := some 1700000000500 }

/-- Ticks of a timer whose callbacks run 3 ms late from 1700000000003 to
1700000060003 and then on time at 1700000061000 and 1700000062000. -/
def lateThenOnTimeTicks : List Int :=
  (List.range 61).map (fun (j : Nat) => 1700000000003 + 1000 * (j : Int)) ++
    [1700000061000, 1700000062000]

/-- The item of the delay scenario,
`{id: 2, intervalMinutes: 1, delayMs: 30000, createdAt: T}`. -/
def delayScenarioItem (T : Int) : Adhkar :=
  { id := 2, text := "Alhamdulillah", reminderInterval := some 1, delayMs := some 30000,
    createdAt := some T }

/-- The item of the delay scenario with T = 1700000000000. -/
def delayedItem : Adhkar := delayScenarioItem 1700000000000

/-- Ticks at an exact 1-second cadence: `T`, `T + 1000`, ..., `T + 1000 * N`. -/
def secondTicks (T : Int) (N : Nat) : List Int :=
  (List.range (N + 1)).map (fun (j : Nat) => T + 1000 * (j : Int))

/-- The boundaries `S`, `S + I`, ..., `S + K * I`. -/
def boundaries (S I : Int) (K : Nat) : List Int :=
  (List.range (K + 1)).map (fun (k : Nat) => S + (k : Int) * I)

/-- The item of the periodicity scenario,
`{id: 1, intervalMinutes: 5, delayMs: 0, createdAt: T}` with T = 1700000000000. -/
def fiveMinuteItem : Adhkar :=
  { id := 1, text := "Subhan Allah", reminderInterval := some 5, delayMs := some 0,
    createdAt := some 1700000000000 }

/-- The state `d1` is the state `d` paused with the master interval cancelled:
the pause flag is set, `reminderInterval` is null, the interval it named is no
longer armed (and no interval is added), and the log and `lastReminderTime`
are those of `d`. -/
def PausedFrom (d d1 : Driver) : Prop :=
  d1.isPaused = true ∧ d1.reminderInterval = none ∧
  (∀ t ∈ d1.timers, t ∈ d.timers ∧ d.reminderInterval ≠ some t.handle) ∧
  ((∀ t ∈ d.timers, d.reminderInterval = some t.handle) → d1.timers = []) ∧
  d1.log = d.log ∧ d1.lastReminderTime = d.lastReminderTime

/-- The timer callbacks `(handle, now)` as tasks of the event loop. -/
def timerActions (ts : List (Nat × Int)) : List Action :=
  ts.map (fun p => Action.timer p.1 p.2)

/-- The process after `app.on("ready")` with the every-minute item stored and
the main window open. -/
def minuteDriver : Driver :=
  startReminders (Driver.initial true (.content defaultSettings) (.content [minuteItem]))

/-- The pause scenario on the every-minute item created at T = 1700000000000:
ticks at T + 0.5 s and T + 1.5 s, pause from the renderer, a callback of the
cancelled interval at T + 60.5 s, resume, a callback of the old handle at
T + 120.5 s, and a tick of the new interval at T + 180 s. -/
def pauseScenario : List Action :=
  [ .timer 1 1700000000500, .timer 1 1700000001500, .toggleReminder true,
    .timer 1 1700000060500, .toggleReminder false, .timer 1 1700000120500,
    .timer 2 1700000180000 ]

/-- The items of the presenter calls recorded in a log, in order. -/
def presentedItems (log : List (Int × Event)) : List Adhkar :=
  log.filterMap (fun p => p.2.presented)

/-- A second every-minute item, with id 2, created at 1700000000000. -/
def secondMinuteItem : Adhkar :=
  { id := 2, text := "Alhamdulillah", reminderInterval := some 1, delayMs := some 0,
    createdAt := some 1700000000000 }

/-- Every interval armed in the event loop is the one `reminderInterval` holds:
no interval is armed when it is null, exactly that one otherwise. -/
def Tracked (d : Driver) : Prop :=
  d.timers.map Timer.handle = d.reminderInterval.toList

/-- The process at start-up with the every-minute item stored, the main window
open, and `startReminders` called three times in succession. -/
def thriceStarted : Driver :=
  Nat.iterate startReminders 3
    (Driver.initial true (.content defaultSettings) (.content [minuteItem]))

/-- The handler `ipcMain.on("save-settings", (event, settings) => ...)`, as far
as the scheduler is concerned.  `duplicate` is the outcome of the test
`lastSavedSettings && JSON.stringify(lastSavedSettings) === JSON.stringify(cleanedSettings)`
(it compares all saved fields, also those the tick does not read): the handler
then returns at once.  Otherwise it loads the previous settings, writes the
cleaned ones and restarts the reminders. -/
def saveSettingsHandler (duplicate : Bool) (cleanedSettings : Settings) (d : Driver) : Driver :=
  if duplicate then d
  else
    let d1 := (loadSettings d).2
    startReminders { d1 with settingsFile := .content cleanedSettings }

/-- An item with id 1 created at 1700000000000 whose interval is 0 minutes. -/
def zeroIntervalItem : Adhkar :=
  { id := 1, text := "Subhan Allah", reminderInterval := some 0, delayMs := some 0,
    createdAt := some 1700000000000 }

/-- An item with id 1 created at 1700000000000 whose interval is -1 minute. -/
def negativeIntervalItem : Adhkar :=
  { id := 1, text := "Subhan Allah", reminderInterval := some (-1), delayMs := some 0,
    createdAt := some 1700000000000 }

/-- An every-minute item with id 1 created at 1700000000000 whose delay is
-30000 ms. -/
def negativeDelayItem : Adhkar :=
  { id := 1, text := "Subhan Allah", reminderInterval := some 1, delayMs := some (-30000),
    createdAt := some 1700000000000 }

/-! ## The renderer: the form and the storage helpers -/

/-- The state of the form in `AdkarForm` when it is submitted.  Each numeric
input holds the result of `parseInt` on its text (`none`: NaN). -/
structure FormState where
  text : String
  repeats : Option Int
  infiniteRepeat : Bool
  reminderInterval : Option Int
  delayHours : Option Int
  delayMinutes : Option Int
  delaySeconds : Option Int

/-- JavaScript `parseInt(x) || d`: `d` when the parse is NaN or 0. -/
def orDefault (x : Option Int) (d : Int) : Int :=
  match x with
  | some v => if v = 0 then d else v
  | none => d

/-- The code points `String.prototype.trim` strips, the WhiteSpace and
LineTerminator productions of ECMAScript: tab (U+0009), line feed (U+000A),
vertical tab (U+000B), form feed (U+000C), carriage return (U+000D), space
(U+0020), no-break space (U+00A0), the other space separators of Unicode
(U+1680, U+2000 to U+200A, U+202F, U+205F, U+3000), line separator (U+2028),
paragraph separator (U+2029) and the byte order mark (U+FEFF). -/
def isTrimWhiteSpace (c : Char) : Bool :=
  c.toNat == 0x0009 || c.toNat == 0x000A || c.toNat == 0x000B || c.toNat == 0x000C ||
  c.toNat == 0x000D || c.toNat == 0x0020 || c.toNat == 0x00A0 || c.toNat == 0x1680 ||
  (decide (0x2000 ≤ c.toNat) && decide (c.toNat ≤ 0x200A)) ||
  c.toNat == 0x2028 || c.toNat == 0x2029 || c.toNat == 0x202F || c.toNat == 0x205F ||
  c.toNat == 0x3000 || c.toNat == 0xFEFF

/-- JavaScript `text.trim()`: the text without its leading and trailing
white space and line terminators.  A text is its sequence of code points; the
stripped characters are all single UTF-16 units, so this is the same cut as on
the units of the JavaScript string. -/
def jsTrim (text : String) : String :=
  String.mk (((text.data.dropWhile isTrimWhiteSpace).reverse.dropWhile
    isTrimWhiteSpace).reverse)

/-- The object `handleSubmit` passes to `onSubmit`. -/
structure FormData where
  text : String
  repeats : Int
  infiniteRepeat : Bool
  reminderInterval : Int
  delayMs : Int
deriving DecidableEq, Repr

/-- The function `handleSubmit` of `AdkarForm`: nothing is submitted when the
trimmed text is empty; when editing the delay is reset to 0, otherwise it is
composed from the hours, minutes and seconds inputs. -/
def handleSubmit (editing : Bool) (f : FormState) : Option FormData :=
  if jsTrim f.text ≠ "" then
    some
      { text := jsTrim f.text
        repeats := if f.infiniteRepeat then -1 else orDefault f.repeats 1
        infiniteRepeat := f.infiniteRepeat
        reminderInterval := orDefault f.reminderInterval 5
        delayMs :=
          if editing then 0
          else orDefault f.delayHours 0 * 3600000 + orDefault f.delayMinutes 0 * 60000 +
            orDefault f.delaySeconds 0 * 1000 }
  else none

/-- The object spread `{ ...old, ...updates }` of `updateAdhkar` for the
updates `{ ...data, createdAt: new Date().toISOString() }` built by
`handleAddAdhkar` at time `createdAt`: the keys of the form data and
`createdAt` are overwritten, `id` and `category` are kept. -/
def applyUpdates (old : Adhkar) (data : FormData) (createdAt : Int) : Adhkar :=
  { old with
    text := data.text
    repeats := some data.repeats
    infiniteRepeat := some data.infiniteRepeat
    reminderInterval := some data.reminderInterval
    delayMs := some data.delayMs
    createdAt := some createdAt }

/-- The function `updateAdhkar` of `storage.js` on the list `getAdhkar()`
returned: the list passed to `saveAdhkar`, or `none` when no item has the id
(`findIndex` gives -1) and nothing is saved. -/
def updateAdhkar (id : Int) (data : FormData) (createdAt : Int) (adhkar : List Adhkar) :
    Option (List Adhkar) :=
  match adhkar.findIdx? (fun a => decide (a.id = id)) with
  | some index =>
    match adhkar[index]? with
    | some old => some (adhkar.set index (applyUpdates old data createdAt))
    | none => none
  | none => none

/-- The value `Math.max(...adhkar.map((a) => a.id))` for a non-empty list. -/
def maxId : List Adhkar → Int
  | [] => 0
  | a :: rest => rest.foldl (fun m x => max m x.id) a.id

/-- The function `addAdhkar` of `storage.js` at time `createdAt` on the list
`getAdhkar()` returned: the new item and the list passed to `saveAdhkar`. -/
def addAdhkar (text : String) (category : Option String) (repeats reminderInterval : Int)
    (infiniteRepeat : Bool) (delayMs : Int) (createdAt : Int) (adhkar : List Adhkar) :
    Adhkar × List Adhkar :=
  let newId := if adhkar.length > 0 then maxId adhkar + 1 else 1
  let newAdhkar : Adhkar :=
    { id := newId
      text := text
      category := some (category.getD "general")
      repeats := some repeats
      reminderInterval := some reminderInterval
      infiniteRepeat := some infiniteRepeat
      delayMs := some delayMs
      createdAt := some createdAt }
  (newAdhkar, adhkar ++ [newAdhkar])

/-- The function `handleAddAdhkar` of `App`, run at time `now` with the form
data, on the list `getAdhkar()` returns: the list passed to `saveAdhkar`, if
any.  In edit mode the item `editingItem` is updated with a fresh `createdAt`;
otherwise a new item is added (the form data has no `category`). -/
def handleAddAdhkar (editingItem : Option Adhkar) (data : FormData) (now : Int)
    (adhkar : List Adhkar) : Option (List Adhkar) :=
  match editingItem with
  | some item => updateAdhkar item.id data now adhkar
  | none =>
    some (addAdhkar data.text none data.repeats data.reminderInterval data.infiniteRepeat
      data.delayMs now adhkar).2

/-- The form when the every-minute item is edited to repeat every 10 minutes. -/
def editForm : FormState :=
  { text := " \u00a0Subhan Allah\u3000\n", repeats := some 33, infiniteRepeat := false,
    reminderInterval := some 10, delayHours := some 0, delayMinutes := some 5,
    delaySeconds := some 0 }

/-- The data `handleSubmit` produces from `editForm` in edit mode. -/
def editData : FormData :=
  { text := "Subhan Allah", repeats := 33, infiniteRepeat := false, reminderInterval := 10,
    delayMs := 0 }

/-! ## The callback with failing presentation steps -/

/-- Which presentation steps throw for which item: `notification` inside
`try { new Notification(...); notification.show() }`, `soundPath` inside
`getNotificationSoundPath`, `playSound` inside `playNotificationSound`,
`notificationWindow` inside `createNotificationWindow` (each of these three
functions wraps its body in `try`/`catch`), and `send` in
`mainWindow.webContents.send("new-reminder", adhkarItem)`, which stands in the
callback outside any `try`. -/
structure Faults where
  notification : Adhkar → Bool
  soundPath : Adhkar → Bool
  playSound : Adhkar → Bool
  notificationWindow : Adhkar → Bool
  send : Adhkar → Bool

/-- No step throws. -/
def Faults.none : Faults :=
  { notification := fun _ => false, soundPath := fun _ => false, playSound := fun _ => false,
    notificationWindow := fun _ => false, send := fun _ => false }

/-- The presenter branch of the callback under faults: the events of the steps
that complete.  A throwing notification is caught by the `catch` of the branch;
a throwing `getNotificationSoundPath` returns null, so that
`playNotificationSound(null)` returns at once and the floating window is
created without sound; `playNotificationSound` and `createNotificationWindow`
catch what their bodies throw.  No exception leaves this branch. -/
def presenterEventsFaulty (faults : Faults) (settings : Settings) (adhkarItem : Adhkar) :
    List Event :=
  if settings.notificationType = some "system" then
    (if faults.notification adhkarItem then [] else [Event.systemNotification adhkarItem]) ++
      (if settings.notificationSound ≠ some "none" then
        (if faults.soundPath adhkarItem || faults.playSound adhkarItem then []
          else [Event.playNotificationSound settings.notificationSound settings.customSoundPath])
      else [])
  else
    (if faults.notificationWindow adhkarItem then []
      else [Event.createNotificationWindow adhkarItem settings.notificationSound
        settings.customSoundPath])

/-- The state of a tick under faults: the tick state, and whether an exception
has left the `forEach` callback (which ends the `forEach`). -/
structure FaultyTickState where
  state : TickState
  thrown : Bool

/-- The body of `adhkar.forEach((adhkarItem) => ...)` under faults.  When
`send` throws, the exception leaves the callback before
`lastReminderTime.set(adhkarId, now)`. -/
def tickItemFaulty (faults : Faults) (settings : Settings) (mainWindow isPaused : Bool)
    (now : Int) (st : FaultyTickState) (adhkarItem : Adhkar) : FaultyTickState :=
  if st.thrown then st
  else if isPaused then st
  else
    let adhkarId := adhkarItem.id
    let interval := intervalMs adhkarItem
    let start := scheduledStartTime adhkarItem
    if jsLt (some now) start then st
    else
      let timeSinceStart := jsSub (some now) start
      let cyclePosition := jsRem timeSinceStart (some interval)
      if jsLt cyclePosition (some 1000) then
        let lastTime : Int := (st.state.lastReminderTime adhkarId).getD (-1)
        if jsLt (some lastTime) start || jsGe (some (now - lastTime)) (some interval) then
          let presented := presenterEventsFaulty faults settings adhkarItem
          if mainWindow && faults.send adhkarItem then
            { state :=
                { lastReminderTime := st.state.lastReminderTime
                  log := st.state.log ++ presented.map (fun e => (now, e)) }
              thrown := true }
          else
            { state :=
                { lastReminderTime :=
                    Function.update st.state.lastReminderTime adhkarId (some now)
                  log := st.state.log ++
                    (presented ++ (if mainWindow then [Event.newReminder adhkarItem] else [])).map
                      (fun e => (now, e)) }
              thrown := false }
        else st
      else st

/-- One run of the master interval callback under faults. -/
def tickFaulty (faults : Faults) (settings : Settings) (mainWindow isPaused : Bool)
    (adhkar : List Adhkar) (now : Int) (st : TickState) : FaultyTickState :=
  adhkar.foldl (tickItemFaulty faults settings mainWindow isPaused now)
    { state := st, thrown := false }

/-- Every caught step fails for the item with id 1: the notification, the sound
path, the sound playback and the floating window. -/
def caughtFaults : Faults :=
  { notification := fun a => decide (a.id = 1), soundPath := fun a => decide (a.id = 1),
    playSound := fun a => decide (a.id = 1), notificationWindow := fun a => decide (a.id = 1),
    send := fun _ => false }

/-- The `new-reminder` send throws for the item with id 1. -/
def sendFault : Faults :=
  { Faults.none with send := fun a => decide (a.id = 1) }

/-- The default settings with system notifications. -/
def systemSettings : Settings :=
  { defaultSettings with notificationType := some "system" }

/-! ## The floating notification window: the single pending slot -/

/-- The module-level state `notificationReady`, `pendingNotification` of the
floating window, with the trace `shown` of the occurrences loaded into the
window, in order.  An occurrence is the argument record
`{ adhkar, soundType, soundPath, volume, theme }`, of any type `α`. -/
structure Notifier (α : Type) where
  notificationReady : Bool
  pendingNotification : Option α
  shown : List α

/-- The function `createNotificationWindow`, as far as the slot is concerned:
while a notification is showing the occurrence is stored in
`pendingNotification`; otherwise the slot is taken and the occurrence loaded
into the window.  `throws`: an exception inside the `try` after the slot was
taken; the `catch` releases the slot. -/
def createNotificationWindow {α : Type} (throws : Bool) (occurrence : α) (n : Notifier α) :
    Notifier α :=
  if !n.notificationReady then { n with pendingNotification := some occurrence }
  else if throws then { n with notificationReady := true }
  else { n with notificationReady := false, shown := n.shown ++ [occurrence] }

/-- The `closed` listener of the notification window: release the slot and
show the pending occurrence, if there is one. -/
def notificationClosed {α : Type} (throws : Bool) (n : Notifier α) : Notifier α :=
  let n1 := { n with notificationReady := true }
  match n1.pendingNotification with
  | some pending =>
    createNotificationWindow throws pending { n1 with pendingNotification := none }
  | none => n1

/-- The state of the floating window at start-up. -/
def Notifier.initial (α : Type) : Notifier α :=
  { notificationReady := true, pendingNotification := none, shown := [] }

/-! ## Shutdown -/

/-- The module-level state of `main.js`: the scheduler state, the flag
`isCleaningUp`, and whether the notification window and the tray exist. -/
structure Process where
  driver : Driver
  isCleaningUp : Bool
  notificationWindow : Bool
  tray : Bool

/-- The function `cleanup`: a second call returns at once; the first one
cancels the master interval and every timer of `notificationTimers`, empties
`notificationTimers` and `lastReminderTime`, and destroys the windows and the
tray. -/
def cleanup (p : Process) : Process :=
  if p.isCleaningUp then p
  else
    let d1 := clearReminderInterval p.driver
    { driver :=
        { d1 with
          timers := d1.notificationTimers.foldl (fun ts e => clearInterval e.2 ts) d1.timers
          notificationTimers := []
          lastReminderTime := LastReminderTime.empty
          mainWindow := false }
      isCleaningUp := true
      notificationWindow := false
      tray := false }

/-- The running process of the every-minute item after one firing. -/
def minuteProcess : Process :=
  { driver := run minuteDriver [.timer 1 1700000000500]
    isCleaningUp := false
    notificationWindow := true
    tray := true }

/-- No item the driver evaluates or would load has a `createdAt`: neither the
items captured by the armed intervals nor the items `loadAdhkar` returns. -/
def NoCreatedAt (d : Driver) : Prop :=
  (∀ t ∈ d.timers, ∀ a ∈ t.adhkar, a.createdAt = none) ∧
  ∀ a ∈ (loadAdhkar d).1, a.createdAt = none

/-- The tasks that do not save an item list: timer callbacks, pause and
resume. -/
def Action.savesNothing : Action → Bool
  | .saveAdhkar _ => false
  | _ => true

/-- The decomposition of a delay into the hours, minutes and seconds inputs in
the `useEffect` of `AdkarForm`: `Math.floor(delayMs / 3600000)`,
`Math.floor((delayMs % 3600000) / 60000)`, `Math.floor((delayMs % 60000) / 1000)`. -/
def delayFields (delayMs : Int) : Int × Int × Int :=
  (Int.fdiv delayMs 3600000, Int.fdiv (Int.tmod delayMs 3600000) 60000,
    Int.fdiv (Int.tmod delayMs 60000) 1000)

/-- The `useEffect` of `AdkarForm` that fills the form: from the item being
edited, or with the defaults.  A number written into an input with
`toString()` is read back by `parseInt` as the same number.  (The legacy field
`count`, read when `repeats` is absent, is not modelled.) -/
def initForm (editingItem : Option Adhkar) : FormState :=
  match editingItem with
  | some item =>
    let isInfinite := item.infiniteRepeat.getD false || decide (item.repeats = some (-1))
    let fields := delayFields (orDefault item.delayMs 0)
    { text := item.text
      repeats := some (if isInfinite then 1 else item.repeats.getD 1)
      infiniteRepeat := isInfinite
      reminderInterval := some (item.reminderInterval.getD 5)
      delayHours := some fields.1
      delayMinutes := some fields.2.1
      delaySeconds := some fields.2.2 }
  | none =>
    { text := "", repeats := some 1, infiniteRepeat := false, reminderInterval := some 5,
      delayHours := some 0, delayMinutes := some 0, delaySeconds := some 0 }

/-- The largest time value of a `Date`: 8.64e15 ms either side of the epoch. -/
def maxTimeValue : Int := 8640000000000000

/-- The time value of `new Date(value)`: the value itself when it lies within
`maxTimeValue` of the epoch, and NaN (an invalid date) for NaN and beyond. -/
def newDate (value : JSNum) : JSNum :=
  match value with
  | some t => if decide (-maxTimeValue ≤ t) && decide (t ≤ maxTimeValue) then some t else none
  | none => none

/-- The function `getNextShowTime` of `AdkarList` when `new Date()` is `now`:
the time value of the date it returns (`none`: an invalid date).  Each
`new Date(...)` of the function is a `newDate`. -/
def getNextShowTime (adhkarItem : Adhkar) (now : Int) : JSNum :=
  let createdAt := newDate adhkarItem.createdAt
  let delayMs := orDefault adhkarItem.delayMs 0
  let interval := (adhkarItem.reminderInterval.getD 5) * 60 * 1000
  let start := newDate (jsAdd createdAt (some delayMs))
  if jsLt (some now) start then start
  else
    let timeSinceStart := jsSub (some now) start
    let cyclePosition := jsRem timeSinceStart (some interval)
    let msUntilNextShow :=
      if cyclePosition = some 0 then some 0 else jsSub (some interval) cyclePosition
    newDate (jsAdd (some now) msUntilNextShow)

/-- An every-minute item created one second before the largest time value,
with a delay of two seconds: its start is beyond every `Date`. -/
def endOfTimeItem : Adhkar :=
  { id := 1, text := "Subhan Allah", reminderInterval := some 1, delayMs := some 2000,
    createdAt := some 8639999999999000 }

/-- A form for a new item with a delay of 1 h 2 min 3 s. -/
def delayForm : FormState :=
  { text := "Subhan Allah", repeats := some 1, infiniteRepeat := false,
    reminderInterval := some 5, delayHours := some 1, delayMinutes := some 2,
    delaySeconds := some 3 }

/-! ## Sound files -/

/-- A path built by `join` in `getNotificationSoundPath`:
`join(__dirname, "sounds", file)`, `join(app.getPath("userData"), "custom-sounds", name)`,
or `join(app.getPath("userData"), "temp", "custom-notification.wav")`. -/
inductive SoundPath where
  | bundled (file : String)
  | customSound (name : String)
  | tempCustom
deriving DecidableEq, Repr

/-- A JavaScript value that reaches the parameter `customSoundPath`:
`undefined`, `null`, a string, or a number. -/
inductive JSValue where
  | undefined
  | null
  | string (s : String)
  | number (x : Rat)
deriving DecidableEq

/-- JavaScript truthiness of a value. -/
def JSValue.truthy : JSValue → Bool
  | .undefined => false
  | .null => false
  | .string s => decide (s ≠ "")
  | .number x => decide (x ≠ 0)

/-- The value of `settings.customSoundPath` (a string or null). -/
def JSValue.ofSetting : Option String → JSValue
  | some s => .string s
  | none => .null

/-- The files the sound code can see: which sound paths exist, and whether the
directory `temp` of the user data exists. -/
structure FileSystem where
  fileExists : SoundPath → Bool
  tempDirExists : Bool

/-- Which file-system writes of `getNotificationSoundPath` throw. -/
structure IoFaults where
  mkdir : Bool
  write : Bool

/-- What a property read `soundMap[soundType]` yields: a file name, `null`
(the key `none`), `undefined` (no such property), or a value inherited from
`Object.prototype` (a function or an object). -/
inductive MapValue where
  | file (name : String)
  | null
  | undefined
  | inherited
deriving DecidableEq, Repr

/-- The property names every object inherits from `Object.prototype`. -/
def objectPrototypeKeys : List String :=
  ["constructor", "toString", "toLocaleString", "valueOf", "hasOwnProperty", "isPrototypeOf",
    "propertyIsEnumerable", "__proto__", "__defineGetter__", "__defineSetter__",
    "__lookupGetter__", "__lookupSetter__"]

/-- The read `soundMap[key]` of the object
`{ default: "notification-default.wav", bell: "notification-bell.wav",
chime: "notification-chime.wav", none: null }`. -/
def soundMap (key : String) : MapValue :=
  if key = "default" then .file "notification-default.wav"
  else if key = "bell" then .file "notification-bell.wav"
  else if key = "chime" then .file "notification-chime.wav"
  else if key = "none" then .null
  else if key ∈ objectPrototypeKeys then .inherited
  else .undefined

/-- JavaScript truthiness of a value read from `soundMap`. -/
def MapValue.truthy : MapValue → Bool
  | .file name => decide (name ≠ "")
  | .inherited => true
  | _ => false

/-- JavaScript `s.startsWith(p)`. -/
def jsStartsWith (s p : String) : Bool :=
  p.data.isPrefixOf s.data

/-- Whether `s.split(",")[1]` is defined: the string holds a comma. -/
def hasSecondPart (s : String) : Bool :=
  s.data.contains ','

/-- The end of `getNotificationSoundPath`:
`if (!existsSync(soundPath)) return null; return soundPath;`. -/
def checkedPath (fs : FileSystem) (soundPath : SoundPath) : Option SoundPath × FileSystem :=
  if !fs.fileExists soundPath then (none, fs) else (some soundPath, fs)

/-- The function `getNotificationSoundPath(soundType = "default", customSoundPath = null)`:
the path it returns (`none`: null) and the file system it leaves.  Every
exception inside its `try` ends in the `catch`, which returns null: a truthy
`customSoundPath` that is not a string has no `startsWith`, `Buffer.from` of an
undefined second part throws, `mkdirSync` and `writeFileSync` can fail, and
`join` throws on a value inherited from `Object.prototype`. -/
def getNotificationSoundPath (faults : IoFaults) (fs : FileSystem) (soundType : Option String)
    (customSoundPath : JSValue) : Option SoundPath × FileSystem :=
  let soundType := soundType.getD "default"
  let customSoundPath := if customSoundPath = .undefined then JSValue.null else customSoundPath
  if soundType = "custom" && customSoundPath.truthy then
    match customSoundPath with
    | .string s =>
      if !jsStartsWith s "data:" then checkedPath fs (.customSound s)
      else
        if !fs.tempDirExists && faults.mkdir then (none, fs)
        else
          let fs1 : FileSystem := { fs with tempDirExists := true }
          if !hasSecondPart s then (none, fs1)
          else if faults.write then (none, fs1)
          else
            checkedPath
              { fs1 with fileExists := Function.update fs1.fileExists .tempCustom true }
              .tempCustom
    | _ => (none, fs)
  else
    let soundFile :=
      if (soundMap soundType).truthy then soundMap soundType else soundMap "default"
    if !soundFile.truthy then (none, fs)
    else
      match soundFile with
      | .file name => checkedPath fs (.bundled name)
      | _ => (none, fs)

/-- The path computed by the handler of `test-notification-sound`, which calls
`getNotificationSoundPath(soundType, volume, customSoundPath)`: the volume
arrives in the parameter `customSoundPath`, the third argument is dropped. -/
def testNotificationSoundPath (faults : IoFaults) (fs : FileSystem) (soundType : Option String)
    (volume : JSValue) (_customSoundPath : JSValue) : Option SoundPath × FileSystem :=
  getNotificationSoundPath faults fs soundType volume

/-- The path the tick resolves for the settings:
`getNotificationSoundPath(settings.notificationSound, settings.customSoundPath)`. -/
def tickSoundPath (faults : IoFaults) (fs : FileSystem) (settings : Settings) :
    Option SoundPath × FileSystem :=
  getNotificationSoundPath faults fs settings.notificationSound
    (JSValue.ofSetting settings.customSoundPath)

/-- Whether the notification content built by `createNotificationWindow` holds
the `<audio>` element: the sound type is not "none" and the sound file was read
into a data URL (`readable`: `readFileSync` succeeds). -/
def hasAudioElement (soundType : Option String) (soundPath : Option SoundPath)
    (readable : SoundPath → Bool) : Bool :=
  let soundType := soundType.getD "default"
  let audioLoaded :=
    match soundPath with
    | some path => decide (soundType ≠ "none") && readable path
    | none => false
  decide (soundType ≠ "none") && audioLoaded

/-- A file system in which the three bundled sounds and the custom sound
`my.wav` exist. -/
def soundsInstalled : FileSystem :=
  { fileExists := fun p =>
      decide (p = .bundled "notification-default.wav" ∨ p = .bundled "notification-bell.wav" ∨
        p = .bundled "notification-chime.wav" ∨ p = .customSound "my.wav")
    tempDirExists := false }

/-- No file-system write fails. -/
def IoFaults.none : IoFaults := { mkdir := false, write := false }

/-- The default settings with the sound switched off. -/
def silentSettings : Settings :=
  { defaultSettings with notificationSound := some "none" }

/-- The settings with the custom sound `my.wav` selected. -/
def customSoundSettings : Settings :=
  { defaultSettings with notificationSound := some "custom", customSoundPath := some "my.wav" }

/-- A result of `getNotificationSoundPath` called in the file system `fs` is
null or a path that exists in the file system it leaves, and a path other than
the temporary copy of a data URL exists in `fs` already. -/
def SoundResultOk (fs : FileSystem) (r : Option SoundPath × FileSystem) : Prop :=
  (r.1 = none ∨ ∃ p, r.1 = some p ∧ r.2.fileExists p = true) ∧
  (∀ p, r.1 = some p → p = .tempCustom ∨ fs.fileExists p = true)

end ZikrReminder

/-! # Properties -/

namespace ZikrReminder

theorem tickItem_paused (settings : Settings) (mainWindow : Bool) (now : Int)
    (st : TickState) (a : Adhkar) :
    tickItem settings mainWindow true now st a = st := by
  simp [tickItem]

theorem tickItem_eq (settings : Settings) (mainWindow : Bool) (now : Int)
    (st : TickState) (a : Adhkar) :
    tickItem settings mainWindow false now st a =
      if due a (st.lastReminderTime a.id) now then
        { lastReminderTime := Function.update st.lastReminderTime a.id (some now)
          log := st.log ++ (presentEvents settings mainWindow a).map (fun e => (now, e)) }
      else st := by
  unfold tickItem due scheduledStartTime
  cases hc : a.createdAt with
  | none => simp [jsAdd, jsSub, jsRem, jsLt]
  | some c =>
    simp only [jsAdd, jsSub, jsRem, jsLt, jsGe]
    by_cases h1 : now < c + a.delayMs.getD 0
    · have : ¬ (c + a.delayMs.getD 0 ≤ now) := by omega
      simp [h1, this]
    · have h1b : c + a.delayMs.getD 0 ≤ now := by omega
      by_cases h2 : intervalMs a = 0
      · simp [h1, h2, jsLt]
      · by_cases h3 : Int.tmod (now - (c + a.delayMs.getD 0)) (intervalMs a) < 1000
        · simp [h1, h1b, h2, h3, jsLt]
        · simp [h1, h1b, h2, h3, jsLt]

theorem presentEvents_ne_nil (settings : Settings) (mainWindow : Bool) (a : Adhkar) :
    presentEvents settings mainWindow a ≠ [] := by
  unfold presentEvents
  split <;> simp

theorem firings_append (id : Int) (l1 l2 : List (Int × Event)) :
    firings id (l1 ++ l2) = firings id l1 ++ firings id l2 := by
  simp [firings]

theorem firings_presentEvents (settings : Settings) (mainWindow : Bool) (a : Adhkar)
    (now id : Int) :
    firings id ((presentEvents settings mainWindow a).map (fun e => (now, e))) =
      if a.id = id then [now] else [] := by
  unfold presentEvents firings
  by_cases h : a.id = id <;> by_cases hs : settings.notificationType = some "system" <;>
    by_cases hn : settings.notificationSound = some "none" <;>
    cases mainWindow <;> simp [h, hs, hn, Event.presented]

theorem fires_eq_due (settings : Settings) (mainWindow : Bool) (now : Int)
    (lrt : LastReminderTime) (a : Adhkar) :
    fires settings mainWindow false now lrt a = due a (lrt a.id) now := by
  unfold fires
  rw [tickItem_eq]
  by_cases h : due a (lrt a.id) now = true
  · have := presentEvents_ne_nil settings mainWindow a
    simp [h, List.isEmpty_iff, this]
  · simp [h]

theorem fires_paused (settings : Settings) (mainWindow : Bool) (now : Int)
    (lrt : LastReminderTime) (a : Adhkar) :
    fires settings mainWindow true now lrt a = false := by
  simp [fires, tickItem_paused]

theorem proj_tickItem_self (settings : Settings) (mainWindow : Bool) (now : Int)
    (st : TickState) (a : Adhkar) :
    proj a.id (tickItem settings mainWindow false now st a) = itemStep a (proj a.id st) now := by
  rw [tickItem_eq]
  unfold itemStep proj
  by_cases h : due a (st.lastReminderTime a.id) now = true
  · simp [h, firings_append, firings_presentEvents]
  · simp [h]

theorem proj_tickItem_other (settings : Settings) (mainWindow isPaused : Bool) (now : Int)
    (st : TickState) (x : Adhkar) (id : Int) (hx : x.id ≠ id) :
    proj id (tickItem settings mainWindow isPaused now st x) = proj id st := by
  cases isPaused with
  | true => rw [tickItem_paused]
  | false =>
    rw [tickItem_eq]
    unfold proj
    by_cases h : due x (st.lastReminderTime x.id) now = true
    · simp [h, firings_append, firings_presentEvents, hx, Function.update_noteq (Ne.symm hx)]
    · simp [h]

theorem proj_tick_others (settings : Settings) (mainWindow isPaused : Bool) (now : Int)
    (id : Int) (l : List Adhkar) (hl : ∀ x ∈ l, x.id ≠ id) (st : TickState) :
    proj id (tick settings mainWindow isPaused l now st) = proj id st := by
  unfold tick
  induction l generalizing st with
  | nil => rfl
  | cons x l ih =>
    rw [List.foldl_cons, ih (fun y hy => hl y (List.mem_cons_of_mem _ hy))]
    exact proj_tickItem_other settings mainWindow isPaused now st x id
      (hl x (List.mem_cons_self _ _))

/-- In a tick over a list with pairwise distinct ids, the view from an item of
the list changes as by the callback on that item alone. -/
theorem proj_tick (settings : Settings) (mainWindow : Bool) (now : Int) (a : Adhkar)
    (l : List Adhkar) (hd : l.Pairwise (fun x y => x.id ≠ y.id)) (ha : a ∈ l)
    (st : TickState) :
    proj a.id (tick settings mainWindow false l now st) = itemStep a (proj a.id st) now := by
  induction l generalizing st with
  | nil => cases ha
  | cons x l ih =>
    rw [List.pairwise_cons] at hd
    by_cases hxa : x = a
    · subst hxa
      have := proj_tick_others settings mainWindow false now x.id l
        (fun y hy => Ne.symm (hd.1 y hy)) (tickItem settings mainWindow false now st x)
      unfold tick at this ⊢
      rw [List.foldl_cons, this, proj_tickItem_self]
    · have ha2 : a ∈ l := by
        rcases List.mem_cons.mp ha with h | h
        · exact absurd h.symm hxa
        · exact h
      have h1 := ih hd.2 ha2 (tickItem settings mainWindow false now st x)
      unfold tick at h1 ⊢
      rw [List.foldl_cons, h1, proj_tickItem_other _ _ _ _ _ _ _ (hd.1 a ha2)]

/-- A run of ticks over a list with pairwise distinct ids, seen from one item
of the list, is the run of that item alone. -/
theorem proj_runTicks (settings : Settings) (mainWindow : Bool) (a : Adhkar)
    (l : List Adhkar) (hd : l.Pairwise (fun x y => x.id ≠ y.id)) (ha : a ∈ l)
    (ticks : List Int) (st : TickState) :
    proj a.id (runTicks settings mainWindow false l ticks st) =
      ticks.foldl (itemStep a) (proj a.id st) := by
  induction ticks generalizing st with
  | nil => rfl
  | cons now rest ih =>
    rw [runTicks, ih, List.foldl_cons, proj_tick settings mainWindow now a l hd ha]

theorem emod_le_self_of_nonneg (x i : Int) (hx : 0 ≤ x) (hi : 0 < i) : x % i ≤ x := by
  have h1 := Int.emod_add_ediv x i
  have h2 : 0 ≤ x / i := Int.ediv_nonneg hx (le_of_lt hi)
  have h3 : 0 ≤ i * (x / i) := Int.mul_nonneg (le_of_lt hi) h2
  omega

/-! ## C1: the due decision of the tick -/

/-- The callback fires only when the rule of the specification says due: for
an item with positive interval I and start S, at a tick at now >= S whose cycle
position is below 1000. -/
theorem fires_imp_dueBySpec (settings : Settings) (mainWindow : Bool) (a : Adhkar)
    (c now : Int) (lrt : LastReminderTime)
    (hI : 0 < intervalMs a) (hc : a.createdAt = some c)
    (hnow : c + a.delayMs.getD 0 ≤ now)
    (hf : fires settings mainWindow false now lrt a = true) :
    dueBySpec (c + a.delayMs.getD 0) (intervalMs a) (lrt a.id) now = true := by
  have hle : (now - (c + a.delayMs.getD 0)) % intervalMs a ≤ now - (c + a.delayMs.getD 0) :=
    emod_le_self_of_nonneg _ _ (by omega) hI
  rw [fires_eq_due] at hf
  unfold due at hf
  simp only [hc, Bool.and_eq_true, Bool.or_eq_true, decide_eq_true_eq] at hf
  unfold dueBySpec
  cases hl : lrt a.id with
  | none => rfl
  | some t =>
    rw [hl] at hf
    simp only [Option.getD_some] at hf
    simp only [Bool.or_eq_true, decide_eq_true_eq]
    rcases hf.2 with h2 | h2
    · left; omega
    · right; exact h2

/-- An unset entry is read as -1, which is not below a start before the epoch:
the every-minute item with `createdAt = -5000` and no last firing is not fired
by a tick on its boundary 55000.  Such a start is outside the time stamps the
program writes (`new Date().toISOString()`). -/
theorem unset_entry_pre_epoch_start :
    scheduledStartTime preEpochItem = some (-5000) ∧
    (55000 - (-5000) : Int) % intervalMs preEpochItem = 0 ∧
    LastReminderTime.empty preEpochItem.id = none ∧
    fires defaultSettings true false 55000 LastReminderTime.empty preEpochItem = false := by
  decide

/-- C1 fails on the code.  The every-minute item created at 1700000000000
(I = 60000, S = 1700000000000) is ticked from the empty map at 1700000000900,
which fires it and records 1700000000900, and then at now = 1700000060400:
now >= S, the cycle position is 400 < 1000, the cycle boundary of now is
1700000060000 and the last firing is before it, so the rule of the claim says
due.  The callback does not fire: the last firing is not before S and is only
59500 ms old.  The run has the single firing 1700000000900. -/
theorem C1_due_decision_misses_boundary :
    0 < intervalMs minuteItem ∧
    scheduledStartTime minuteItem = some 1700000000000 ∧
    (1700000000000 : Int) ≤ 1700000060400 ∧
    (1700000060400 - 1700000000000 : Int) % intervalMs minuteItem = 400 ∧
    (tick defaultSettings true false [minuteItem] 1700000000900
      ⟨LastReminderTime.empty, []⟩).lastReminderTime minuteItem.id = some 1700000000900 ∧
    dueBySpec 1700000000000 (intervalMs minuteItem) (some 1700000000900) 1700000060400 = true ∧
    fires defaultSettings true false 1700000060400
      (tick defaultSettings true false [minuteItem] 1700000000900
        ⟨LastReminderTime.empty, []⟩).lastReminderTime minuteItem = false ∧
    firings minuteItem.id (runTicks defaultSettings true false [minuteItem]
      [1700000000900, 1700000060400] ⟨LastReminderTime.empty, []⟩).log = [1700000000900] := by
  decide

theorem due_true_iff (a : Adhkar) (last : Option Int) (now : Int) :
    due a last now = true ↔
      ∃ c, a.createdAt = some c ∧ c + a.delayMs.getD 0 ≤ now ∧ intervalMs a ≠ 0 ∧
        Int.tmod (now - (c + a.delayMs.getD 0)) (intervalMs a) < 1000 ∧
        (last.getD (-1) < c + a.delayMs.getD 0 ∨ now - last.getD (-1) ≥ intervalMs a) := by
  unfold due
  cases hc : a.createdAt with
  | none => simp
  | some c =>
    simp only [Bool.and_eq_true, Bool.or_eq_true, decide_eq_true_eq, Option.some.injEq,
      exists_eq_left', and_assoc]

theorem tick_paused (settings : Settings) (mainWindow : Bool) (l : List Adhkar) (now : Int)
    (st : TickState) : tick settings mainWindow true l now st = st := by
  unfold tick
  induction l generalizing st with
  | nil => rfl
  | cons x l ih => rw [List.foldl_cons, tickItem_paused, ih]

theorem runTicks_paused (settings : Settings) (mainWindow : Bool) (l : List Adhkar)
    (ticks : List Int) (st : TickState) :
    runTicks settings mainWindow true l ticks st = st := by
  induction ticks generalizing st with
  | nil => rfl
  | cons now rest ih => rw [runTicks, tick_paused, ih]

/-- Invariant of the run of one item: its firings are pairwise at least one
interval apart, and the map entry is the latest firing, not before the start. -/
theorem itemStep_foldl_separated (a : Adhkar) (c : Int) (hc : a.createdAt = some c)
    (hI : 0 < intervalMs a) (ticks : List Int) (p : Option Int × List Int)
    (hp1 : p.2.Pairwise (fun t1 t2 => t1 + intervalMs a ≤ t2))
    (hp2 : p.2 ≠ [] → ∃ t, p.1 = some t ∧ c + a.delayMs.getD 0 ≤ t ∧ ∀ x ∈ p.2, x ≤ t) :
    (ticks.foldl (itemStep a) p).2.Pairwise (fun t1 t2 => t1 + intervalMs a ≤ t2) := by
  induction ticks generalizing p with
  | nil => exact hp1
  | cons now rest ih =>
    rw [List.foldl_cons]
    unfold itemStep
    by_cases hdue : due a p.1 now = true
    · rw [if_pos hdue]
      obtain ⟨c2, hc2, hstart, _, _, hlast⟩ := (due_true_iff a p.1 now).mp hdue
      have hcc : c2 = c := by rw [hc] at hc2; exact (Option.some.inj hc2).symm
      subst hcc
      have hsep : ∀ x ∈ p.2, x + intervalMs a ≤ now := by
        intro x hx
        obtain ⟨t, ht, hst, hmax⟩ := hp2 (List.ne_nil_of_mem hx)
        have hxt := hmax x hx
        rw [ht] at hlast
        simp only [Option.getD_some] at hlast
        omega
      apply ih
      · rw [List.pairwise_append]
        refine ⟨hp1, List.pairwise_singleton _ _, ?_⟩
        intro x hx y hy
        rw [List.mem_singleton] at hy
        subst hy
        exact hsep x hx
      · intro _
        refine ⟨now, rfl, hstart, ?_⟩
        intro x hx
        rcases List.mem_append.mp hx with h | h
        · have := hsep x h
          omega
        · rw [List.mem_singleton] at h
          omega
    · rw [if_neg hdue]
      exact ih p hp1 hp2

theorem length_le_one_of_pairwise {R : Int → Int → Prop} (l : List Int)
    (hp : l.Pairwise R) (hno : ∀ x ∈ l, ∀ y ∈ l, ¬ R x y) : l.length ≤ 1 := by
  match l, hp, hno with
  | [], _, _ => simp
  | [_], _, _ => simp
  | x :: y :: rest, hp, hno =>
    exfalso
    rw [List.pairwise_cons] at hp
    exact hno x (by simp) y (by simp) (hp.1 y (by simp))

/-! ## C2: an item does not fire twice for one boundary -/

/-- C2: for an item with positive interval I in a list with pairwise distinct
ids, and any sequence of ticks at any times from any lastReminderTime map, the
firing times of the item recorded by the ticks are at least I apart (each later
firing is at least I after each earlier one); so when I >= 1000 at most one
firing falls in a window [S + k*I, S + k*I + 1000). -/
theorem C2_no_double_fire (settings : Settings) (mainWindow isPaused : Bool) (a : Adhkar)
    (c : Int) (l : List Adhkar) (hd : l.Pairwise (fun x y => x.id ≠ y.id)) (ha : a ∈ l)
    (hc : a.createdAt = some c) (hI : 0 < intervalMs a)
    (ticks : List Int) (lrt : LastReminderTime) :
    (firings a.id (runTicks settings mainWindow isPaused l ticks ⟨lrt, []⟩).log).Pairwise
        (fun t1 t2 => t1 + intervalMs a ≤ t2) ∧
    (1000 ≤ intervalMs a → ∀ k : Int,
      ((firings a.id (runTicks settings mainWindow isPaused l ticks ⟨lrt, []⟩).log).filter
        (fun t => decide (c + a.delayMs.getD 0 + k * intervalMs a ≤ t ∧
          t < c + a.delayMs.getD 0 + k * intervalMs a + 1000))).length ≤ 1) := by
  have key : (firings a.id (runTicks settings mainWindow isPaused l ticks ⟨lrt, []⟩).log).Pairwise
      (fun t1 t2 => t1 + intervalMs a ≤ t2) := by
    cases isPaused with
    | true => rw [runTicks_paused]; simp [firings]
    | false =>
      have h := proj_runTicks settings mainWindow a l hd ha ticks ⟨lrt, []⟩
      have h2 : firings a.id (runTicks settings mainWindow false l ticks ⟨lrt, []⟩).log =
          (ticks.foldl (itemStep a) (proj a.id ⟨lrt, []⟩)).2 := by
        rw [← h]; rfl
      rw [h2]
      apply itemStep_foldl_separated a c hc hI
      · simp [proj, firings]
      · intro hne
        exact absurd rfl hne
  refine ⟨key, ?_⟩
  intro h1000 k
  apply length_le_one_of_pairwise _ (key.sublist (List.filter_sublist _))
  intro x hx y hy hxy
  simp only [List.mem_filter, decide_eq_true_eq] at hx hy
  omega

/-- C2, at the every-minute item alone in the list, ticked at its start, 900 ms
later and one minute later: the firings are the first and the last tick. -/
theorem C2_no_double_fire_witness :
    [minuteItem].Pairwise (fun x y => x.id ≠ y.id) ∧ minuteItem ∈ [minuteItem] ∧
    minuteItem.createdAt = some 1700000000000 ∧ 0 < intervalMs minuteItem ∧
    firings minuteItem.id (runTicks defaultSettings true false [minuteItem]
      [1700000000000, 1700000000900, 1700000060000] ⟨LastReminderTime.empty, []⟩).log =
        [1700000000000, 1700000060000] ∧
    (firings minuteItem.id (runTicks defaultSettings true false [minuteItem]
      [1700000000000, 1700000000900, 1700000060000] ⟨LastReminderTime.empty, []⟩).log).Pairwise
        (fun t1 t2 => t1 + intervalMs minuteItem ≤ t2) :=
  ⟨List.pairwise_singleton _ _, List.mem_singleton.mpr rfl, rfl, by decide, by decide,
    (C2_no_double_fire defaultSettings true false minuteItem 1700000000000 [minuteItem]
      (List.pairwise_singleton _ _) (List.mem_singleton.mpr rfl) rfl (by decide)
      [1700000000000, 1700000000900, 1700000060000] LastReminderTime.empty).1⟩

/-! ## C3: a cycle can be skipped -/

set_option maxRecDepth 100000 in
/-- C3 fails on the code.  The every-minute item with start S = 1700000000500 is
ticked from the empty map at 1700000000003, 1700000001003, ..., 1700000060003,
1700000061000, 1700000062000: strictly increasing, consecutive ticks at most
1000 ms apart, first tick before S, last tick after b + 1000 for the boundary
b = S + I = 1700000060500.  The only firing is at 1700000001003: the tick at
1700000061000 lies in [b, b + 1000) but is only 59997 ms after the last
firing, so no firing falls in that window. -/
theorem C3_skipped_cycle :
    intervalMs halfSecondItem = 60000 ∧
    scheduledStartTime halfSecondItem = some 1700000000500 ∧
    (∀ p ∈ lateThenOnTimeTicks.zip lateThenOnTimeTicks.tail, p.1 < p.2 ∧ p.2 ≤ p.1 + 1000) ∧
    lateThenOnTimeTicks.head? = some 1700000000003 ∧
    lateThenOnTimeTicks.getLast? = some 1700000062000 ∧
    (1700000061000 : Int) ∈ lateThenOnTimeTicks ∧
    firings halfSecondItem.id (runTicks defaultSettings true false [halfSecondItem]
      lateThenOnTimeTicks ⟨LastReminderTime.empty, []⟩).log = [1700000001003] ∧
    ∀ t ∈ firings halfSecondItem.id (runTicks defaultSettings true false [halfSecondItem]
      lateThenOnTimeTicks ⟨LastReminderTime.empty, []⟩).log,
      ¬ (1700000000500 + 1 * 60000 ≤ t ∧ t < 1700000000500 + 1 * 60000 + 1000) := by
  decide

theorem mem_presentEvents (settings : Settings) (mainWindow : Bool) (x : Adhkar)
    (e : Event) (he : e ∈ presentEvents settings mainWindow x) :
    e = Event.systemNotification x ∨
    e = Event.playNotificationSound settings.notificationSound settings.customSoundPath ∨
    e = Event.createNotificationWindow x settings.notificationSound settings.customSoundPath ∨
    e = Event.newReminder x := by
  unfold presentEvents at he
  simp only [List.mem_append] at he
  rcases he with he | he
  · split at he
    · simp only [List.mem_append, List.mem_singleton] at he
      rcases he with he | he
      · exact Or.inl he
      · split at he
        · simp only [List.mem_singleton] at he
          exact Or.inr (Or.inl he)
        · cases he
    · simp only [List.mem_singleton] at he
      exact Or.inr (Or.inr (Or.inl he))
  · split at he
    · simp only [List.mem_singleton] at he
      exact Or.inr (Or.inr (Or.inr he))
    · cases he

theorem presentEvents_item (settings : Settings) (mainWindow : Bool) (x a : Adhkar)
    (e : Event) (he : e ∈ presentEvents settings mainWindow x)
    (h : e.presented = some a ∨ e.notified = some a) : x = a := by
  rcases mem_presentEvents settings mainWindow x e he with rfl | rfl | rfl | rfl <;>
    simp [Event.presented, Event.notified] at h <;> exact h

/-- What the callback adds to the log: nothing, or the presentation of the
item, which is then due and the driver not paused. -/
theorem tickItem_log (settings : Settings) (mainWindow isPaused : Bool) (now : Int)
    (st : TickState) (x : Adhkar) :
    ∃ added, (tickItem settings mainWindow isPaused now st x).log = st.log ++ added ∧
      ∀ e ∈ added, e.1 = now ∧ e.2 ∈ presentEvents settings mainWindow x ∧
        due x (st.lastReminderTime x.id) now = true ∧ isPaused = false := by
  cases isPaused with
  | true => exact ⟨[], by simp [tickItem_paused], by simp⟩
  | false =>
    rw [tickItem_eq]
    by_cases h : due x (st.lastReminderTime x.id) now = true
    · refine ⟨(presentEvents settings mainWindow x).map (fun e => (now, e)), by simp [h], ?_⟩
      intro e he
      obtain ⟨e2, he2, rfl⟩ := List.mem_map.mp he
      exact ⟨rfl, he2, h, rfl⟩
    · exact ⟨[], by simp [h], by simp⟩

/-- What a tick adds to the log: presentations, stamped with the tick's time,
of items of the list that were due at that time for some last firing. -/
theorem tick_log (settings : Settings) (mainWindow isPaused : Bool) (l : List Adhkar)
    (now : Int) (st : TickState) :
    ∃ added, (tick settings mainWindow isPaused l now st).log = st.log ++ added ∧
      ∀ e ∈ added, e.1 = now ∧ isPaused = false ∧
        ∃ x ∈ l, e.2 ∈ presentEvents settings mainWindow x ∧
          ∃ last, due x last now = true := by
  unfold tick
  induction l generalizing st with
  | nil => exact ⟨[], by simp, by simp⟩
  | cons x l ih =>
    obtain ⟨add1, h1, h1p⟩ := tickItem_log settings mainWindow isPaused now st x
    obtain ⟨add2, h2, h2p⟩ := ih (tickItem settings mainWindow isPaused now st x)
    refine ⟨add1 ++ add2, ?_, ?_⟩
    · rw [List.foldl_cons, h2, h1, List.append_assoc]
    · intro e he
      rcases List.mem_append.mp he with h | h
      · obtain ⟨ha, hb, hc, hp⟩ := h1p e h
        exact ⟨ha, hp, x, List.mem_cons_self _ _, hb, _, hc⟩
      · obtain ⟨ha, hp, y, hy, hb, hc⟩ := h2p e h
        exact ⟨ha, hp, y, List.mem_cons_of_mem _ hy, hb, hc⟩

theorem due_false_before_start (a : Adhkar) (c now : Int) (hc : a.createdAt = some c)
    (h : now < c + a.delayMs.getD 0) (last : Option Int) : due a last now = false := by
  cases hd : due a last now with
  | false => rfl
  | true =>
    obtain ⟨c2, hc2, hstart, _⟩ := (due_true_iff a last now).mp hd
    rw [hc] at hc2
    have := Option.some.inj hc2
    omega

/-- The effect of a tick on one item of a list with pairwise distinct ids when
the item is not due whatever its last firing: its map entry stays and the log
gains no event presenting or notifying it. -/
theorem tick_not_due (settings : Settings) (mainWindow isPaused : Bool) (a : Adhkar)
    (now : Int) (hnd : ∀ last, due a last now = false)
    (l : List Adhkar) (hd : l.Pairwise (fun x y => x.id ≠ y.id)) (ha : a ∈ l)
    (st : TickState) :
    (tick settings mainWindow isPaused l now st).lastReminderTime a.id =
        st.lastReminderTime a.id ∧
    ∃ added, (tick settings mainWindow isPaused l now st).log = st.log ++ added ∧
      ∀ e ∈ added, e.2.presented ≠ some a ∧ e.2.notified ≠ some a := by
  constructor
  · cases isPaused with
    | true => rw [tick_paused]
    | false =>
      have h := proj_tick settings mainWindow now a l hd ha st
      unfold itemStep at h
      rw [hnd] at h
      exact congrArg Prod.fst h
  · obtain ⟨added, h1, h2⟩ := tick_log settings mainWindow isPaused l now st
    refine ⟨added, h1, ?_⟩
    intro e he
    obtain ⟨_, _, x, _, hx, last, hlast⟩ := h2 e he
    constructor
    · intro hp
      have := presentEvents_item settings mainWindow x a e.2 hx (Or.inl hp)
      subst this
      rw [hnd] at hlast
      cases hlast
    · intro hp
      have := presentEvents_item settings mainWindow x a e.2 hx (Or.inr hp)
      subst this
      rw [hnd] at hlast
      cases hlast

/-! ## C4: delay gating -/

/-- C4: for every item with a numeric createdAt, every state and every tick
time now < createdAt + delayMs, the callback on the item changes nothing (no
presenter call, no new-reminder event, lastReminderTime unchanged), and a tick
over a list with pairwise distinct ids that holds the item leaves its
lastReminderTime entry unchanged and adds no event presenting or notifying it;
in particular this holds when delayMs >= 0 and now < createdAt. -/
theorem C4_delay_gating (settings : Settings) (mainWindow isPaused : Bool) (a : Adhkar)
    (c now : Int) (hc : a.createdAt = some c)
    (hnow : now < c + a.delayMs.getD 0 ∨ (0 ≤ a.delayMs.getD 0 ∧ now < c)) :
    (∀ st : TickState, tickItem settings mainWindow isPaused now st a = st) ∧
    (∀ lrt, fires settings mainWindow isPaused now lrt a = false) ∧
    (∀ (l : List Adhkar) (st : TickState), l.Pairwise (fun x y => x.id ≠ y.id) → a ∈ l →
      (tick settings mainWindow isPaused l now st).lastReminderTime a.id =
          st.lastReminderTime a.id ∧
      ∃ added, (tick settings mainWindow isPaused l now st).log = st.log ++ added ∧
        ∀ e ∈ added, e.2.presented ≠ some a ∧ e.2.notified ≠ some a) := by
  have hlt : now < c + a.delayMs.getD 0 := by
    rcases hnow with h | ⟨h1, h2⟩
    · exact h
    · omega
  have hnd : ∀ last, due a last now = false := due_false_before_start a c now hc hlt
  refine ⟨?_, ?_, ?_⟩
  · intro st
    cases isPaused with
    | true => rw [tickItem_paused]
    | false => rw [tickItem_eq, hnd]; simp
  · intro lrt
    cases isPaused with
    | true => rw [fires_paused]
    | false => rw [fires_eq_due, hnd]
  · intro l st hd ha
    exact tick_not_due settings mainWindow isPaused a now hnd l hd ha st

/-- C4, at the item created at 1700000000000 with a 30 s delay, ticked 29 s
after its creation. -/
theorem C4_delay_gating_witness :
    delayedItem.createdAt = some 1700000000000 ∧
    ((1700000029000 : Int) < 1700000000000 + delayedItem.delayMs.getD 0 ∨
      (0 ≤ delayedItem.delayMs.getD 0 ∧ (1700000029000 : Int) < 1700000000000)) ∧
    fires defaultSettings true false 1700000029000 LastReminderTime.empty delayedItem = false :=
  ⟨rfl, Or.inl (by decide),
    (C4_delay_gating defaultSettings true false delayedItem 1700000000000 1700000029000 rfl
      (Or.inl (by decide))).2.1 LastReminderTime.empty⟩

/-! ## Runs at an exact 1-second cadence -/

theorem secondTicks_succ (T : Int) (N : Nat) :
    secondTicks T (N + 1) = secondTicks T N ++ [T + 1000 * ((N + 1 : Nat) : Int)] := by
  unfold secondTicks
  rw [List.range_succ, List.map_append]
  rfl

theorem boundaries_succ (S I : Int) (K : Nat) :
    boundaries S I (K + 1) = boundaries S I K ++ [S + ((K + 1 : Nat) : Int) * I] := by
  unfold boundaries
  rw [List.range_succ, List.map_append]
  rfl

theorem tmod_thousand (n M : Nat) :
    Int.tmod (1000 * (n : Int)) (1000 * (M : Int)) = 1000 * ((n % M : Nat) : Int) := by
  rw [Int.tmod_eq_emod (by positivity) (by positivity)]
  have : (1000 * (n : Int)) % (1000 * (M : Int)) = (((1000 * n) % (1000 * M) : Nat) : Int) := by
    push_cast
    rfl
  rw [this, Nat.mul_mod_mul_left]
  push_cast
  rfl

/-- The decision at the tick `S + 1000 * (N + 1)` of an exact cadence, when the
last firing was at the boundary `S + (N / M) * I` and `I = 1000 * M`. -/
theorem due_cadence (a : Adhkar) (c : Int) (hc : a.createdAt = some c) (M : Nat) (hM : 0 < M)
    (hI : intervalMs a = 1000 * (M : Int)) (N : Nat) :
    due a (some (c + a.delayMs.getD 0 + ((N / M : Nat) : Int) * intervalMs a))
      (c + a.delayMs.getD 0 + 1000 * ((N + 1 : Nat) : Int)) = decide ((N + 1) % M = 0) := by
  have hdiv := Nat.div_add_mod (N + 1) M
  have hsucc := Nat.succ_div N M
  have hmodlt := Nat.mod_lt (N + 1) hM
  have hprod : ((N / M : Nat) : Int) * (1000 * (M : Int)) = 1000 * ((M * (N / M) : Nat) : Int) := by
    push_cast; ring
  have hle : M * (N / M) ≤ N := Nat.mul_div_le N M
  by_cases hz : (N + 1) % M = 0
  · rw [decide_eq_true hz]
    rw [due_true_iff]
    refine ⟨c, hc, ?_, ?_, ?_, ?_⟩
    · push_cast; omega
    · rw [hI]; omega
    · have : c + a.delayMs.getD 0 + 1000 * ((N + 1 : Nat) : Int) - (c + a.delayMs.getD 0) =
          1000 * ((N + 1 : Nat) : Int) := by ring
      rw [this, hI, tmod_thousand, hz]
      decide
    · right
      simp only [Option.getD_some]
      rw [hI, hprod]
      have hdvd : M ∣ N + 1 := Nat.dvd_of_mod_eq_zero hz
      rw [if_pos hdvd] at hsucc
      rw [hz, Nat.add_zero] at hdiv
      have h3 : M * (N / M) + M = N + 1 := by
        have : M * ((N + 1) / M) = M * (N / M) + M := by
          rw [show (N + 1) / M = N / M + 1 from hsucc, Nat.mul_add, Nat.mul_one]
        omega
      have h4 : ((M * (N / M) : Nat) : Int) + (M : Int) = ((N + 1 : Nat) : Int) := by
        exact_mod_cast h3
      omega
  · rw [decide_eq_false hz]
    cases hd : due a (some (c + a.delayMs.getD 0 + ((N / M : Nat) : Int) * intervalMs a))
      (c + a.delayMs.getD 0 + 1000 * ((N + 1 : Nat) : Int)) with
    | false => rfl
    | true =>
      exfalso
      obtain ⟨c2, hc2, _, _, hcyc, _⟩ := (due_true_iff _ _ _).mp hd
      rw [hc] at hc2
      have hcc := Option.some.inj hc2
      subst hcc
      have : c + a.delayMs.getD 0 + 1000 * ((N + 1 : Nat) : Int) - (c + a.delayMs.getD 0) =
          1000 * ((N + 1 : Nat) : Int) := by ring
      rw [this, hI, tmod_thousand] at hcyc
      have hpos : 0 < (N + 1) % M := Nat.pos_of_ne_zero hz
      have : (1 : Int) ≤ (((N + 1) % M : Nat) : Int) := by exact_mod_cast hpos
      omega

/-- The run of one item under an exact 1-second cadence that starts at its
start `S >= 0`, from an unset map entry, when its interval is `I = 1000 * M`:
after the ticks `S, ..., S + 1000 * N` it has fired at the boundaries
`S, S + I, ..., S + (N / M) * I` and at no other tick. -/
theorem itemStep_cadence (a : Adhkar) (c : Int) (hc : a.createdAt = some c) (M : Nat)
    (hM : 0 < M) (hI : intervalMs a = 1000 * (M : Int)) (hS : 0 ≤ c + a.delayMs.getD 0)
    (N : Nat) :
    (secondTicks (c + a.delayMs.getD 0) N).foldl (itemStep a) (none, []) =
      (some (c + a.delayMs.getD 0 + ((N / M : Nat) : Int) * intervalMs a),
        boundaries (c + a.delayMs.getD 0) (intervalMs a) (N / M)) := by
  induction N with
  | zero =>
    have hdue : due a none (c + a.delayMs.getD 0) = true := by
      rw [due_true_iff]
      refine ⟨c, hc, le_refl _, ?_, ?_, ?_⟩
      · rw [hI]; omega
      · simp
      · left
        simp only [Option.getD_none]
        omega
    simp [secondTicks, boundaries, itemStep, hdue, List.range_succ]
  | succ N ih =>
    rw [secondTicks_succ, List.foldl_append, ih, List.foldl_cons, List.foldl_nil]
    unfold itemStep
    simp only
    rw [due_cadence a c hc M hM hI N]
    have hsucc := Nat.succ_div N M
    by_cases hz : (N + 1) % M = 0
    · have hdvd : M ∣ N + 1 := Nat.dvd_of_mod_eq_zero hz
      rw [if_pos hdvd] at hsucc
      have hK : (N + 1) / M = N / M + 1 := hsucc
      have hdiv := Nat.div_add_mod (N + 1) M
      rw [hz, Nat.add_zero, hK] at hdiv
      have hnow : c + a.delayMs.getD 0 + 1000 * ((N + 1 : Nat) : Int) =
          c + a.delayMs.getD 0 + ((N / M + 1 : Nat) : Int) * intervalMs a := by
        rw [hI, ← hdiv]
        push_cast
        ring
      simp only [hz, decide_True, if_true]
      rw [hK, boundaries_succ, hnow]
    · have hdvd : ¬ M ∣ N + 1 := fun h => hz (Nat.mod_eq_zero_of_dvd h)
      rw [if_neg hdvd] at hsucc
      have hK : (N + 1) / M = N / M := hsucc
      simp only [hz, decide_False, Bool.false_eq_true, if_false]
      rw [hK]

theorem itemStep_before_start (a : Adhkar) (c : Int) (hc : a.createdAt = some c)
    (ticks : List Int) (hlt : ∀ t ∈ ticks, t < c + a.delayMs.getD 0)
    (p : Option Int × List Int) : ticks.foldl (itemStep a) p = p := by
  induction ticks with
  | nil => rfl
  | cons now rest ih =>
    rw [List.foldl_cons]
    unfold itemStep
    rw [due_false_before_start a c now hc (hlt now (List.mem_cons_self _ _))]
    exact ih (fun t ht => hlt t (List.mem_cons_of_mem _ ht))

theorem secondTicks_split (T : Int) (p q : Nat) :
    secondTicks T (p + 1 + q) =
      secondTicks T p ++ secondTicks (T + 1000 * ((p + 1 : Nat) : Int)) q := by
  induction q with
  | zero =>
    rw [Nat.add_zero, secondTicks_succ]
    simp [secondTicks, List.range_succ]
  | succ q ih =>
    rw [← Nat.add_assoc, secondTicks_succ, ih, secondTicks_succ, List.append_assoc]
    congr 2
    simp only [List.cons.injEq, and_true]
    push_cast
    ring

theorem mem_secondTicks (T : Int) (N : Nat) (t : Int) :
    t ∈ secondTicks T N ↔ ∃ j : Nat, j ≤ N ∧ t = T + 1000 * (j : Int) := by
  unfold secondTicks
  simp only [List.mem_map, List.mem_range]
  constructor
  · rintro ⟨j, hj, rfl⟩
    exact ⟨j, by omega, rfl⟩
  · rintro ⟨j, hj, rfl⟩
    exact ⟨j, by omega, rfl⟩

/-! ## C5: the first occurrence after the delay -/

/-- C5: for every item with positive interval and non-negative start
S = createdAt + delayMs that has not fired before (lastReminderTime unset, or
below S), with the driver not paused, a tick at any now with
S <= now < S + 1000 fires the item.  Scenario: the item
{id: 2, intervalMinutes: 1, delayMs: 30000, createdAt: T} with T + 30000 >= 0,
alone in the list and ticked from the empty map at T, T + 1 s, ..., T + 40 s,
fires exactly once, at the tick T + 30 s. -/
theorem C5_first_occurrence (settings : Settings) (mainWindow : Bool) :
    (∀ (a : Adhkar) (c now : Int) (lrt : LastReminderTime),
      a.createdAt = some c → 0 < intervalMs a → 0 ≤ c + a.delayMs.getD 0 →
      (lrt a.id = none ∨ ∃ t, lrt a.id = some t ∧ t < c + a.delayMs.getD 0) →
      c + a.delayMs.getD 0 ≤ now → now < c + a.delayMs.getD 0 + 1000 →
      fires settings mainWindow false now lrt a = true) ∧
    (∀ T : Int, 0 ≤ T + 30000 →
      firings 2 (runTicks settings mainWindow false [delayScenarioItem T] (secondTicks T 40)
        ⟨LastReminderTime.empty, []⟩).log = [T + 30000]) := by
  constructor
  · intro a c now lrt hc hI hS hlast h1 h2
    rw [fires_eq_due, due_true_iff]
    refine ⟨c, hc, h1, by omega, ?_, ?_⟩
    · rw [Int.tmod_eq_emod (by omega) (by omega)]
      have := emod_le_self_of_nonneg (now - (c + a.delayMs.getD 0)) (intervalMs a) (by omega) hI
      omega
    · left
      rcases hlast with h | ⟨t, ht, hlt⟩
      · rw [h]
        simp only [Option.getD_none]
        omega
      · rw [ht]
        exact hlt
  · intro T hT
    have hproj := proj_runTicks settings mainWindow (delayScenarioItem T) [delayScenarioItem T]
      (List.pairwise_singleton _ _) (List.mem_singleton.mpr rfl) (secondTicks T 40)
      ⟨LastReminderTime.empty, []⟩
    have hfir : firings 2 (runTicks settings mainWindow false [delayScenarioItem T]
        (secondTicks T 40) ⟨LastReminderTime.empty, []⟩).log =
        ((secondTicks T 40).foldl (itemStep (delayScenarioItem T)) (none, [])).2 := by
      have := congrArg Prod.snd hproj
      exact this
    rw [hfir]
    have hsplit : secondTicks T 40 = secondTicks T 29 ++ secondTicks (T + 30000) 10 := by
      have := secondTicks_split T 29 10
      simpa using this
    have hpre : (secondTicks T 29).foldl (itemStep (delayScenarioItem T)) (none, []) =
        (none, []) := by
      apply itemStep_before_start (delayScenarioItem T) T rfl
      intro t ht
      obtain ⟨j, hj, rfl⟩ := (mem_secondTicks T 29 t).mp ht
      show T + 1000 * (j : Int) < T + 30000
      omega
    have hcad := itemStep_cadence (delayScenarioItem T) T rfl 60 (by decide)
      (by norm_num [intervalMs, delayScenarioItem]) hT 10
    have hcad2 : (secondTicks (T + 30000) 10).foldl (itemStep (delayScenarioItem T)) (none, []) =
        (some (T + 30000 + ((10 / 60 : Nat) : Int) * 60000),
          boundaries (T + 30000) 60000 (10 / 60)) := hcad
    rw [hsplit, List.foldl_append, hpre, hcad2]
    simp [boundaries, List.range_succ]

/-- C5, at the delay-scenario item with T = 1700000000000 (start
1700000030000), never fired, ticked 400 ms after its start. -/
theorem C5_first_occurrence_witness :
    delayedItem.createdAt = some 1700000000000 ∧ 0 < intervalMs delayedItem ∧
    (0 : Int) ≤ 1700000000000 + delayedItem.delayMs.getD 0 ∧
    LastReminderTime.empty delayedItem.id = none ∧
    fires defaultSettings true false 1700000030400 LastReminderTime.empty delayedItem = true ∧
    firings 2 (runTicks defaultSettings true false [delayScenarioItem 1700000000000]
      (secondTicks 1700000000000 40) ⟨LastReminderTime.empty, []⟩).log =
        [1700000000000 + 30000] :=
  ⟨rfl, by decide, by decide, rfl,
    (C5_first_occurrence defaultSettings true).1 delayedItem 1700000000000 1700000030400
      LastReminderTime.empty rfl (by decide) (by decide) (Or.inl rfl) (by decide) (by decide),
    (C5_first_occurrence defaultSettings true).2 1700000000000 (by decide)⟩

theorem mem_boundaries (S I : Int) (K : Nat) (t : Int) :
    t ∈ boundaries S I K ↔ ∃ k : Nat, k ≤ K ∧ t = S + (k : Int) * I := by
  unfold boundaries
  simp only [List.mem_map, List.mem_range]
  constructor
  · rintro ⟨k, hk, rfl⟩
    exact ⟨k, by omega, rfl⟩
  · rintro ⟨k, hk, rfl⟩
    exact ⟨k, by omega, rfl⟩

/-! ## C6: periodicity under an exact 1-second cadence -/

/-- C6: for every item with delayMs = 0, an integer interval of m >= 1 minutes
(I = 60000 * m) and createdAt = T, a time stamp at or after the epoch (T >= 0),
in a list with pairwise distinct ids, an initially empty lastReminderTime map
and ticks at exactly T, T + 1000, ..., T + 1000 * N, the ticks at which the
item fires are exactly the ticks at T + k * I with k >= 0 and
k * I <= 1000 * N, each once and in order. -/
theorem C6_periodicity (settings : Settings) (mainWindow : Bool) (a : Adhkar) (T : Int)
    (m N : Nat) (l : List Adhkar) (hd : l.Pairwise (fun x y => x.id ≠ y.id)) (ha : a ∈ l)
    (hc : a.createdAt = some T) (hdelay : a.delayMs.getD 0 = 0) (hm : 1 ≤ m)
    (hint : a.reminderInterval = some (m : Int)) (hT : 0 ≤ T) :
    firings a.id (runTicks settings mainWindow false l (secondTicks T N)
        ⟨LastReminderTime.empty, []⟩).log =
      boundaries T (60000 * (m : Int)) (N / (60 * m)) ∧
    ∀ t, t ∈ firings a.id (runTicks settings mainWindow false l (secondTicks T N)
        ⟨LastReminderTime.empty, []⟩).log ↔
      ∃ k : Nat, (k : Int) * (60000 * (m : Int)) ≤ 1000 * (N : Int) ∧
        t = T + (k : Int) * (60000 * (m : Int)) := by
  have hI : intervalMs a = 1000 * ((60 * m : Nat) : Int) := by
    unfold intervalMs
    rw [hint]
    simp only [Option.getD_some]
    push_cast
    ring
  have hI2 : intervalMs a = 60000 * (m : Int) := by
    rw [hI]; push_cast; ring
  have hproj := proj_runTicks settings mainWindow a l hd ha (secondTicks T N)
    ⟨LastReminderTime.empty, []⟩
  have hcad := itemStep_cadence a T hc (60 * m) (by omega) hI (by omega) N
  rw [hdelay, Int.add_zero, hI2] at hcad
  have hfir : firings a.id (runTicks settings mainWindow false l (secondTicks T N)
      ⟨LastReminderTime.empty, []⟩).log = boundaries T (60000 * (m : Int)) (N / (60 * m)) := by
    have h1 := congrArg Prod.snd hproj
    have h2 := congrArg Prod.snd hcad
    exact h1.trans h2
  refine ⟨hfir, ?_⟩
  intro t
  rw [hfir, mem_boundaries]
  have hpos : 0 < 60 * m := by omega
  constructor
  · rintro ⟨k, hk, rfl⟩
    refine ⟨k, ?_, rfl⟩
    have h1 : k * (60 * m) ≤ N := (Nat.le_div_iff_mul_le hpos).mp hk
    have h2 : ((k * (60 * m) : Nat) : Int) ≤ (N : Int) := by exact_mod_cast h1
    push_cast at h2
    nlinarith
  · rintro ⟨k, hk, rfl⟩
    refine ⟨k, ?_, rfl⟩
    apply (Nat.le_div_iff_mul_le hpos).mpr
    have h2 : ((k * (60 * m) : Nat) : Int) ≤ (N : Int) := by
      push_cast
      nlinarith
    exact_mod_cast h2

/-- C6, at m = 5, N = 302 and T = 1700000000000: ticking from T to
T + 5 min + 2 s gives exactly two firings, at T and T + 300000. -/
theorem C6_periodicity_witness :
    [fiveMinuteItem].Pairwise (fun x y => x.id ≠ y.id) ∧ fiveMinuteItem ∈ [fiveMinuteItem] ∧
    fiveMinuteItem.createdAt = some 1700000000000 ∧ fiveMinuteItem.delayMs.getD 0 = 0 ∧
    1 ≤ 5 ∧ fiveMinuteItem.reminderInterval = some ((5 : Nat) : Int) ∧
    (0 : Int) ≤ 1700000000000 ∧
    firings fiveMinuteItem.id (runTicks defaultSettings true false [fiveMinuteItem]
        (secondTicks 1700000000000 302) ⟨LastReminderTime.empty, []⟩).log =
      [1700000000000, 1700000300000] :=
  ⟨List.pairwise_singleton _ _, List.mem_singleton.mpr rfl, rfl, rfl, by decide, rfl,
    by decide,
    (C6_periodicity defaultSettings true fiveMinuteItem 1700000000000 5 302 [fiveMinuteItem]
      (List.pairwise_singleton _ _) (List.mem_singleton.mpr rfl) rfl rfl (by decide) rfl
      (by decide)).1.trans (by decide)⟩

/-! ## Firings happen at due ticks -/

theorem itemStep_foldl_mem (a : Adhkar) (ticks : List Int) (p : Option Int × List Int)
    (t : Int) (ht : t ∈ (ticks.foldl (itemStep a) p).2) :
    t ∈ p.2 ∨ (t ∈ ticks ∧ ∃ last, due a last t = true) := by
  induction ticks generalizing p with
  | nil => exact Or.inl ht
  | cons now rest ih =>
    rw [List.foldl_cons] at ht
    rcases ih _ ht with h | ⟨h1, h2⟩
    · unfold itemStep at h
      by_cases hdue : due a p.1 now = true
      · rw [if_pos hdue] at h
        rcases List.mem_append.mp h with h3 | h3
        · exact Or.inl h3
        · rw [List.mem_singleton] at h3
          subst h3
          exact Or.inr ⟨List.mem_cons_self _ _, p.1, hdue⟩
      · rw [if_neg hdue] at h
        exact Or.inl h
    · exact Or.inr ⟨List.mem_cons_of_mem _ h1, h2⟩

/-- Every firing of an item recorded by a run of ticks from an empty log is
at one of the tick times, at which the item was due for some last firing. -/
theorem firings_runTicks_due (settings : Settings) (mainWindow isPaused : Bool) (a : Adhkar)
    (l : List Adhkar) (hd : l.Pairwise (fun x y => x.id ≠ y.id)) (ha : a ∈ l)
    (ticks : List Int) (lrt : LastReminderTime) (t : Int)
    (ht : t ∈ firings a.id (runTicks settings mainWindow isPaused l ticks ⟨lrt, []⟩).log) :
    t ∈ ticks ∧ ∃ last, due a last t = true := by
  cases isPaused with
  | true =>
    rw [runTicks_paused] at ht
    simp [firings] at ht
  | false =>
    have hproj := proj_runTicks settings mainWindow a l hd ha ticks ⟨lrt, []⟩
    have h2 : firings a.id (runTicks settings mainWindow false l ticks ⟨lrt, []⟩).log =
        (ticks.foldl (itemStep a) (proj a.id ⟨lrt, []⟩)).2 := congrArg Prod.snd hproj
    rw [h2] at ht
    rcases itemStep_foldl_mem a ticks _ t ht with h | h
    · simp [proj, firings] at h
    · exact h

/-! ## C7: a new or edited item is not shown at its creation instant -/

/-- C7 fails on the code.  For an item with createdAt = t0, delayMs = 0 and
positive interval I, in a list with pairwise distinct ids, when the timer armed
at s >= t0 ticks at s + 1000, s + 2000, ..., s + 1000 * (N + 1), from any
lastReminderTime map: every firing of the item is at a time t >= t0 + 1000 and
t >= t0 + I, so none is in [t0, t0 + 1000). -/
theorem C7_no_firing_at_creation (settings : Settings) (mainWindow isPaused : Bool)
    (a : Adhkar) (t0 s : Int) (N : Nat) (l : List Adhkar)
    (hd : l.Pairwise (fun x y => x.id ≠ y.id)) (ha : a ∈ l)
    (hc : a.createdAt = some t0) (hdelay : a.delayMs.getD 0 = 0) (hI : 0 < intervalMs a)
    (hs : t0 ≤ s) (lrt : LastReminderTime) :
    ∀ t ∈ firings a.id (runTicks settings mainWindow isPaused l (secondTicks (s + 1000) N)
        ⟨lrt, []⟩).log,
      t0 + 1000 ≤ t ∧ t0 + intervalMs a ≤ t ∧ ¬ (t0 ≤ t ∧ t < t0 + 1000) := by
  intro t ht
  obtain ⟨hmem, last, hdue⟩ :=
    firings_runTicks_due settings mainWindow isPaused a l hd ha _ lrt t ht
  obtain ⟨j, _, rfl⟩ := (mem_secondTicks _ _ _).mp hmem
  obtain ⟨c2, hc2, _, _, hcyc, _⟩ := (due_true_iff _ _ _).mp hdue
  rw [hc] at hc2
  have hcc := Option.some.inj hc2
  subst hcc
  rw [hdelay, Int.add_zero] at hcyc
  have hj : (0 : Int) ≤ (j : Int) := Int.ofNat_nonneg j
  refine ⟨by omega, ?_, by omega⟩
  by_contra hlt
  have hsmall : s + 1000 + 1000 * (j : Int) - t0 < intervalMs a := by omega
  rw [Int.tmod_eq_emod (by omega) (by omega), Int.emod_eq_of_lt (by omega) hsmall] at hcyc
  omega

/-- C7 at the failing input: the five-minute item created at
t0 = 1700000000000, in a driver restarted 5 ms later (s = 1700000000005) that
ticks at s + 1000, ..., s + 10000, has no firing at all. -/
theorem C7_no_firing_at_creation_witness :
    [fiveMinuteItem].Pairwise (fun x y => x.id ≠ y.id) ∧ fiveMinuteItem ∈ [fiveMinuteItem] ∧
    fiveMinuteItem.createdAt = some 1700000000000 ∧ fiveMinuteItem.delayMs.getD 0 = 0 ∧
    0 < intervalMs fiveMinuteItem ∧ (1700000000000 : Int) ≤ 1700000000005 ∧
    firings fiveMinuteItem.id (runTicks defaultSettings true false [fiveMinuteItem]
      (secondTicks (1700000000005 + 1000) 9) ⟨LastReminderTime.empty, []⟩).log = [] ∧
    ∀ t ∈ firings fiveMinuteItem.id (runTicks defaultSettings true false [fiveMinuteItem]
        (secondTicks (1700000000005 + 1000) 9) ⟨LastReminderTime.empty, []⟩).log,
      1700000000000 + 1000 ≤ t ∧ 1700000000000 + intervalMs fiveMinuteItem ≤ t ∧
        ¬ (1700000000000 ≤ t ∧ t < 1700000000000 + 1000) :=
  ⟨List.pairwise_singleton _ _, List.mem_singleton.mpr rfl, rfl, rfl, by decide, by decide,
    by decide,
    C7_no_firing_at_creation defaultSettings true false fiveMinuteItem 1700000000000
      1700000000005 9 [fiveMinuteItem] (List.pairwise_singleton _ _)
      (List.mem_singleton.mpr rfl) rfl rfl (by decide) (by decide) LastReminderTime.empty⟩

/-! ## C8: firings lie within one tick-period after an occurrence instant -/

theorem due_window (a : Adhkar) (c now : Int) (last : Option Int) (hc : a.createdAt = some c)
    (hI : 0 < intervalMs a) (hdue : due a last now = true) :
    ∃ k : Int, 0 ≤ k ∧ c + a.delayMs.getD 0 + k * intervalMs a ≤ now ∧
      now < c + a.delayMs.getD 0 + k * intervalMs a + 1000 := by
  obtain ⟨c2, hc2, hstart, _, hcyc, _⟩ := (due_true_iff _ _ _).mp hdue
  rw [hc] at hc2
  have hcc := Option.some.inj hc2
  subst hcc
  rw [Int.tmod_eq_emod (by omega) (by omega)] at hcyc
  refine ⟨(now - (c + a.delayMs.getD 0)) / intervalMs a,
    Int.ediv_nonneg (by omega) (by omega), ?_, ?_⟩
  · have h1 := Int.emod_add_ediv (now - (c + a.delayMs.getD 0)) (intervalMs a)
    have h2 := Int.emod_nonneg (now - (c + a.delayMs.getD 0)) (show intervalMs a ≠ 0 by omega)
    have h3 : (now - (c + a.delayMs.getD 0)) / intervalMs a * intervalMs a =
        intervalMs a * ((now - (c + a.delayMs.getD 0)) / intervalMs a) := Int.mul_comm _ _
    omega
  · have h1 := Int.emod_add_ediv (now - (c + a.delayMs.getD 0)) (intervalMs a)
    have h3 : (now - (c + a.delayMs.getD 0)) / intervalMs a * intervalMs a =
        intervalMs a * ((now - (c + a.delayMs.getD 0)) / intervalMs a) := Int.mul_comm _ _
    omega

/-- C8: for every item with positive interval I and start
S = createdAt + delayMs, whenever the callback at time now fires the item
there is an integer k >= 0 with S + k * I <= now < S + k * I + 1000; and every
firing of the item recorded by a run of ticks (item in a list with pairwise
distinct ids) is at such a time. -/
theorem C8_firing_window (settings : Settings) (mainWindow isPaused : Bool) (a : Adhkar)
    (c : Int) (hc : a.createdAt = some c) (hI : 0 < intervalMs a) :
    (∀ (now : Int) (lrt : LastReminderTime),
      fires settings mainWindow isPaused now lrt a = true →
      ∃ k : Int, 0 ≤ k ∧ c + a.delayMs.getD 0 + k * intervalMs a ≤ now ∧
        now < c + a.delayMs.getD 0 + k * intervalMs a + 1000) ∧
    (∀ (l : List Adhkar) (ticks : List Int) (lrt : LastReminderTime),
      l.Pairwise (fun x y => x.id ≠ y.id) → a ∈ l →
      ∀ t ∈ firings a.id (runTicks settings mainWindow isPaused l ticks ⟨lrt, []⟩).log,
        t ∈ ticks ∧ ∃ k : Int, 0 ≤ k ∧ c + a.delayMs.getD 0 + k * intervalMs a ≤ t ∧
          t < c + a.delayMs.getD 0 + k * intervalMs a + 1000) := by
  constructor
  · intro now lrt hf
    cases isPaused with
    | true => rw [fires_paused] at hf; cases hf
    | false =>
      rw [fires_eq_due] at hf
      exact due_window a c now _ hc hI hf
  · intro l ticks lrt hd ha t ht
    obtain ⟨hmem, last, hdue⟩ :=
      firings_runTicks_due settings mainWindow isPaused a l hd ha ticks lrt t ht
    exact ⟨hmem, due_window a c t last hc hI hdue⟩

/-- C8, at the every-minute item created at 1700000000000, last fired at
1700000000900 and fired again by the tick at 1700000060900 (k = 1). -/
theorem C8_firing_window_witness :
    minuteItem.createdAt = some 1700000000000 ∧ 0 < intervalMs minuteItem ∧
    fires defaultSettings true false 1700000060900
      (Function.update LastReminderTime.empty 1 (some 1700000000900)) minuteItem = true ∧
    ∃ k : Int, 0 ≤ k ∧
      1700000000000 + minuteItem.delayMs.getD 0 + k * intervalMs minuteItem ≤ 1700000060900 ∧
      1700000060900 < 1700000000000 + minuteItem.delayMs.getD 0 + k * intervalMs minuteItem + 1000 :=
  ⟨rfl, by decide, by decide,
    (C8_firing_window defaultSettings true false minuteItem 1700000000000 rfl (by decide)).1
      1700000060900 (Function.update LastReminderTime.empty 1 (some 1700000000900))
      (by decide)⟩

/-! ## The driver: pause and resume -/

theorem timerFire_paused (d : Driver) (h : Nat) (now : Int) (hp : d.isPaused = true) :
    timerFire h now d = d := by
  unfold timerFire
  cases d.timers.find? (fun t => decide (t.handle = h)) with
  | none => rfl
  | some t =>
    simp only [hp, tick_paused]
    cases d
    simp only at hp
    subst hp
    rfl

theorem run_timers_paused (d : Driver) (ts : List (Nat × Int)) (hp : d.isPaused = true) :
    run d (timerActions ts) = d := by
  unfold run timerActions
  induction ts with
  | nil => rfl
  | cons p rest ih =>
    rw [List.map_cons, List.foldl_cons]
    show List.foldl step (timerFire p.1 p.2 d) _ = d
    rw [timerFire_paused d p.1 p.2 hp]
    exact ih

theorem loadSettings_frame (d : Driver) :
    (loadSettings d).2.log = d.log ∧ (loadSettings d).2.lastReminderTime = d.lastReminderTime ∧
    (loadSettings d).2.isPaused = d.isPaused ∧ (loadSettings d).2.timers = d.timers ∧
    (loadSettings d).2.reminderInterval = d.reminderInterval ∧
    (loadSettings d).2.adhkarFile = d.adhkarFile ∧
    (loadSettings d).2.mainWindow = d.mainWindow := by
  unfold loadSettings
  split
  · split <;> simp
  · simp
  · simp

theorem loadAdhkar_frame (d : Driver) :
    (loadAdhkar d).2.log = d.log ∧ (loadAdhkar d).2.lastReminderTime = d.lastReminderTime ∧
    (loadAdhkar d).2.isPaused = d.isPaused ∧ (loadAdhkar d).2.timers = d.timers ∧
    (loadAdhkar d).2.reminderInterval = d.reminderInterval ∧
    (loadAdhkar d).2.mainWindow = d.mainWindow := by
  unfold loadAdhkar
  split <;> simp

theorem clearReminderInterval_frame (d : Driver) :
    (clearReminderInterval d).log = d.log ∧
    (clearReminderInterval d).lastReminderTime = d.lastReminderTime ∧
    (clearReminderInterval d).isPaused = d.isPaused ∧
    (clearReminderInterval d).mainWindow = d.mainWindow ∧
    (clearReminderInterval d).reminderInterval = none := by
  unfold clearReminderInterval
  split
  · simp
  · rename_i h
    simp [h]

/-- The function `startReminders` presents nothing and leaves the pause flag and
the map of last firings as they are. -/
theorem startReminders_frame (d : Driver) :
    (startReminders d).log = d.log ∧
    (startReminders d).lastReminderTime = d.lastReminderTime ∧
    (startReminders d).isPaused = d.isPaused := by
  have h1 := loadSettings_frame d
  have h2 := loadAdhkar_frame (loadSettings d).2
  have h3 := clearReminderInterval_frame (loadAdhkar (loadSettings d).2).2
  unfold startReminders
  simp only
  split <;> simp [h1, h2, h3]

theorem clearReminderInterval_timers (d : Driver) :
    (∀ t ∈ (clearReminderInterval d).timers, t ∈ d.timers ∧ d.reminderInterval ≠ some t.handle) ∧
    ((∀ t ∈ d.timers, d.reminderInterval = some t.handle) →
      (clearReminderInterval d).timers = []) := by
  unfold clearReminderInterval clearInterval
  cases hr : d.reminderInterval with
  | none =>
    refine ⟨fun t ht => ⟨ht, by simp⟩, ?_⟩
    intro hall
    cases hts : d.timers with
    | nil => rfl
    | cons t rest =>
      have := hall t (by rw [hts]; exact List.mem_cons_self _ _)
      cases this
  | some h =>
    constructor
    · intro t ht
      simp only [List.mem_filter, decide_eq_true_eq] at ht
      refine ⟨ht.1, ?_⟩
      intro heq
      exact ht.2 (Option.some.inj heq).symm
    · intro hall
      simp only
      rw [List.filter_eq_nil_iff]
      intro t ht
      have := hall t ht
      simp [(Option.some.inj this).symm]

theorem pausedFrom_clear (d d0 : Driver) (hp : d.isPaused = true) (hl : d.log = d0.log)
    (hm : d.lastReminderTime = d0.lastReminderTime) (ht : d.timers = d0.timers)
    (hr : d.reminderInterval = d0.reminderInterval) :
    PausedFrom d0 (clearReminderInterval d) := by
  have h1 := clearReminderInterval_frame d
  have h2 := clearReminderInterval_timers d
  rw [ht, hr] at h2
  exact ⟨h1.2.2.1.trans hp, h1.2.2.2.2, h2.1, h2.2, h1.1.trans hl, h1.2.1.trans hm⟩

/-! ## C9: pause correctness -/

/-- C9: while isPaused is true a tick of the master interval changes nothing,
whatever the item list, the time and lastReminderTime (no presenter call, no
new-reminder event, lastReminderTime unchanged); pausing by
toggle-reminder(true) or by the tray click sets the flag and cancels the armed
master interval; so from the pause on, any callbacks of any intervals at any
times leave the whole state, and hence the log, as the pause left it. -/
theorem C9_pause_correctness :
    (∀ (settings : Settings) (mainWindow : Bool) (l : List Adhkar) (now : Int)
      (st : TickState), tick settings mainWindow true l now st = st) ∧
    (∀ (d : Driver) (h : Nat) (now : Int), d.isPaused = true → timerFire h now d = d) ∧
    (∀ d : Driver, PausedFrom d (toggleReminder true d)) ∧
    (∀ d : Driver, d.isPaused = false → PausedFrom d (trayPauseClick d)) ∧
    (∀ (d : Driver) (ts : List (Nat × Int)),
      run (toggleReminder true d) (timerActions ts) = toggleReminder true d) ∧
    (∀ (d : Driver) (ts : List (Nat × Int)), d.isPaused = false →
      run (trayPauseClick d) (timerActions ts) = trayPauseClick d) := by
  have hA : ∀ d : Driver, PausedFrom d (toggleReminder true d) := by
    intro d
    exact pausedFrom_clear { d with isPaused := true } d rfl rfl rfl rfl rfl
  have hB : ∀ d : Driver, d.isPaused = false → PausedFrom d (trayPauseClick d) := by
    intro d hp
    unfold trayPauseClick
    simp only [hp, Bool.not_false, Bool.not_true]
    cases hm : d.mainWindow with
    | true =>
      simp only [if_true, Bool.false_eq_true, if_false]
      exact pausedFrom_clear _ d rfl rfl rfl rfl rfl
    | false =>
      simp only [Bool.false_eq_true, if_false]
      exact pausedFrom_clear _ d rfl rfl rfl rfl rfl
  refine ⟨tick_paused, timerFire_paused, hA, hB, ?_, ?_⟩
  · intro d ts
    exact run_timers_paused _ ts (hA d).1
  · intro d ts hp
    exact run_timers_paused _ ts (hB d hp).1

/-- C9, on the every-minute item created at T = 1700000000000 and first fired
at T + 0.5 s: paused at T + 1.5 s and resumed after T + 60.5 s, the log records
no firing in between although the boundaries T + 60 s and T + 120 s were
crossed; the firings are at T + 0.5 s and, after the resume, at T + 180 s. -/
theorem C9_pause_correctness_witness :
    minuteDriver.isPaused = false ∧
    firings 1 (run minuteDriver pauseScenario).log = [1700000000500, 1700000180000] ∧
    run (toggleReminder true (run minuteDriver [.timer 1 1700000000500, .timer 1 1700000001500]))
        (timerActions [(1, 1700000060500), (1, 1700000120500)]) =
      toggleReminder true (run minuteDriver [.timer 1 1700000000500, .timer 1 1700000001500]) ∧
    run (trayPauseClick minuteDriver) (timerActions [(1, 1700000060500)]) =
      trayPauseClick minuteDriver :=
  ⟨by decide, by decide,
    C9_pause_correctness.2.2.2.2.1 _ [(1, 1700000060500), (1, 1700000120500)],
    C9_pause_correctness.2.2.2.2.2 minuteDriver [(1, 1700000060500)] (by decide)⟩

/-! ## One tick over a list with pairwise distinct ids -/

theorem firings_eq_nil (id : Int) (added : List (Int × Event))
    (h : ∀ e ∈ added, ∀ z, e.2.presented = some z → z.id ≠ id) : firings id added = [] := by
  unfold firings
  rw [List.map_eq_nil_iff, List.filter_eq_nil_iff]
  intro e he
  cases hz : e.2.presented with
  | none => simp
  | some z => simp [h e he z hz]

/-- What a tick over a list with pairwise distinct ids adds to the log: events
stamped with the tick's time, each from the presentation of an item of the list
that is due at that time with respect to the map before the tick; and at most
one presenter call per id. -/
theorem tick_log_distinct (settings : Settings) (mainWindow isPaused : Bool)
    (l : List Adhkar) (hd : l.Pairwise (fun x y => x.id ≠ y.id)) (now : Int)
    (st : TickState) :
    ∃ added, (tick settings mainWindow isPaused l now st).log = st.log ++ added ∧
      (∀ e ∈ added, e.1 = now ∧ ∃ x ∈ l, e.2 ∈ presentEvents settings mainWindow x ∧
        due x (st.lastReminderTime x.id) now = true) ∧
      ∀ id, (firings id added).length ≤ 1 := by
  unfold tick
  induction l generalizing st with
  | nil => exact ⟨[], by simp, by simp, by simp [firings]⟩
  | cons x l ih =>
    rw [List.pairwise_cons] at hd
    obtain ⟨add1, h1, h1p⟩ := tickItem_log settings mainWindow isPaused now st x
    obtain ⟨add2, h2, h2p, h2l⟩ := ih hd.2 (tickItem settings mainWindow isPaused now st x)
    have hkeep : ∀ y ∈ l, (tickItem settings mainWindow isPaused now st x).lastReminderTime y.id =
        st.lastReminderTime y.id := by
      intro y hy
      exact congrArg Prod.fst
        (proj_tickItem_other settings mainWindow isPaused now st x y.id (hd.1 y hy))
    have h2x : ∀ e ∈ add2, ∀ z, e.2.presented = some z → z.id ≠ x.id := by
      intro e he z hz
      obtain ⟨_, y, hy, hmem, _⟩ := h2p e he
      have := presentEvents_item settings mainWindow y z e.2 hmem (Or.inl hz)
      subst this
      exact Ne.symm (hd.1 y hy)
    refine ⟨add1 ++ add2, ?_, ?_, ?_⟩
    · rw [List.foldl_cons, h2, h1, List.append_assoc]
    · intro e he
      rcases List.mem_append.mp he with h | h
      · obtain ⟨ha, hb, hc, _⟩ := h1p e h
        exact ⟨ha, x, List.mem_cons_self _ _, hb, hc⟩
      · obtain ⟨ha, y, hy, hb, hc⟩ := h2p e h
        rw [hkeep y hy] at hc
        exact ⟨ha, y, List.mem_cons_of_mem _ hy, hb, hc⟩
    · intro id
      rw [firings_append, List.length_append]
      by_cases hid : x.id = id
      · subst hid
        rw [firings_eq_nil x.id add2 h2x]
        have hsub : (firings x.id add1).length ≤ 1 := by
          have hlog := congrArg (firings x.id) h1
          rw [firings_append] at hlog
          cases isPaused with
          | true =>
            rw [tickItem_paused] at hlog
            have : (firings x.id add1).length = 0 := by
              have := congrArg List.length hlog
              rw [List.length_append] at this
              omega
            omega
          | false =>
            rw [tickItem_eq] at hlog
            split at hlog
            · rw [firings_append, firings_presentEvents, if_pos rfl] at hlog
              have := congrArg List.length hlog
              simp only [List.length_append, List.length_singleton] at this
              omega
            · have := congrArg List.length hlog
              rw [List.length_append] at this
              omega
        simpa using hsub
      · have h1nil : firings id add1 = [] := by
          apply firings_eq_nil
          intro e he z hz
          obtain ⟨_, hb, _, _⟩ := h1p e he
          have := presentEvents_item settings mainWindow x z e.2 hb (Or.inl hz)
          subst this
          exact hid
        rw [h1nil]
        simpa using h2l id

/-! ## C10: resume does not fire retroactively -/

/-- C10: handling a resume (toggle-reminder with paused = false, or the tray
click in the paused state) adds nothing to the log of presenter calls and
new-reminder events, leaves lastReminderTime unchanged and clears the pause
flag; and a later callback of an armed interval whose item list has pairwise
distinct ids adds only events stamped with its own time, each for an item due
at that time with respect to the map before the tick, with at most one
presenter call per item. -/
theorem C10_resume_no_backlog :
    (∀ d : Driver, (toggleReminder false d).log = d.log ∧
      (toggleReminder false d).lastReminderTime = d.lastReminderTime ∧
      (toggleReminder false d).isPaused = false) ∧
    (∀ d : Driver, d.isPaused = true → (trayPauseClick d).log = d.log ∧
      (trayPauseClick d).lastReminderTime = d.lastReminderTime ∧
      (trayPauseClick d).isPaused = false) ∧
    (∀ (d : Driver) (h : Nat) (now : Int) (t : Timer),
      d.timers.find? (fun t => decide (t.handle = h)) = some t →
      t.adhkar.Pairwise (fun x y => x.id ≠ y.id) →
      ∃ added, (timerFire h now d).log = d.log ++ added ∧
        (∀ e ∈ added, e.1 = now ∧ ∃ x ∈ t.adhkar,
          e.2 ∈ presentEvents t.settings d.mainWindow x ∧
          due x (d.lastReminderTime x.id) now = true) ∧
        ∀ id, (firings id added).length ≤ 1) := by
  refine ⟨?_, ?_, ?_⟩
  · intro d
    exact startReminders_frame { d with isPaused := false }
  · intro d hp
    unfold trayPauseClick
    simp only [hp, Bool.not_true, Bool.not_false]
    cases hm : d.mainWindow with
    | true =>
      simp only [if_true]
      exact startReminders_frame _
    | false =>
      simp only [Bool.false_eq_true, if_false, if_true]
      exact startReminders_frame _
  · intro d h now t hfind hd
    unfold timerFire
    rw [hfind]
    exact tick_log_distinct t.settings d.mainWindow d.isPaused t.adhkar hd now
      ⟨d.lastReminderTime, d.log⟩

/-- C10, on the every-minute item created at T = 1700000000000 and fired at
T + 0.5 s: paused, then resumed after the boundaries T + 60 s and T + 120 s
have passed, the resume itself logs nothing, and the tick of the new interval
at T + 180 s fires the item once. -/
theorem C10_resume_no_backlog_witness :
    (run minuteDriver [.timer 1 1700000000500, .toggleReminder true]).isPaused = true ∧
    firings 1 (run minuteDriver
      [.timer 1 1700000000500, .toggleReminder true, .toggleReminder false]).log =
        [1700000000500] ∧
    firings 1 (run minuteDriver
      [.timer 1 1700000000500, .toggleReminder true, .toggleReminder false,
        .timer 2 1700000180000]).log = [1700000000500, 1700000180000] ∧
    (trayPauseClick (run minuteDriver [.timer 1 1700000000500, .toggleReminder true])).log =
      (run minuteDriver [.timer 1 1700000000500, .toggleReminder true]).log :=
  ⟨by decide, by decide, by decide,
    (C10_resume_no_backlog.2.1
      (run minuteDriver [.timer 1 1700000000500, .toggleReminder true]) (by decide)).1⟩

/-! ## C11: the bookkeeping of one tick -/

/-- C11: in a tick (not paused) at time now over an item list with pairwise
distinct ids, from any lastReminderTime map: for every item of the list, if it
fired then its entry is now and its firing is recorded once at now, otherwise
its entry is unchanged and nothing is recorded for it; and for every id that no
item of the list has, the entry is unchanged. -/
theorem C11_last_fired_bookkeeping (settings : Settings) (mainWindow : Bool)
    (l : List Adhkar) (hd : l.Pairwise (fun x y => x.id ≠ y.id)) (now : Int)
    (lrt : LastReminderTime) :
    (∀ a ∈ l,
      ((tick settings mainWindow false l now ⟨lrt, []⟩).lastReminderTime a.id,
        firings a.id (tick settings mainWindow false l now ⟨lrt, []⟩).log) =
      if fires settings mainWindow false now lrt a then (some now, [now])
      else (lrt a.id, [])) ∧
    (∀ id, (∀ x ∈ l, x.id ≠ id) →
      (tick settings mainWindow false l now ⟨lrt, []⟩).lastReminderTime id = lrt id ∧
      firings id (tick settings mainWindow false l now ⟨lrt, []⟩).log = []) := by
  constructor
  · intro a ha
    have h := proj_tick settings mainWindow now a l hd ha ⟨lrt, []⟩
    rw [fires_eq_due]
    unfold proj at h
    rw [h]
    unfold itemStep
    by_cases hdue : due a (lrt a.id) now = true
    · simp [hdue, firings]
    · simp [hdue, firings]
  · intro id hid
    have h := proj_tick_others settings mainWindow false now id l hid ⟨lrt, []⟩
    unfold proj at h
    exact ⟨congrArg Prod.fst h, (congrArg Prod.snd h).trans (by simp [firings])⟩

/-- C11, at the tick 1700000060000 over the two every-minute items with ids 1
and 2, where item 1 last fired 100 ms earlier and item 2 one minute earlier:
only item 2 fires; its entry becomes the tick time, the entry of item 1 and the
entry of the unused id 3 stay. -/
theorem C11_last_fired_bookkeeping_witness :
    [minuteItem, secondMinuteItem].Pairwise (fun x y => x.id ≠ y.id) ∧
    (tick defaultSettings true false [minuteItem, secondMinuteItem] 1700000060000
        ⟨Function.update (Function.update LastReminderTime.empty 1 (some 1700000059900))
          2 (some 1700000000000), []⟩).lastReminderTime 2 = some 1700000060000 ∧
    (tick defaultSettings true false [minuteItem, secondMinuteItem] 1700000060000
        ⟨Function.update (Function.update LastReminderTime.empty 1 (some 1700000059900))
          2 (some 1700000000000), []⟩).lastReminderTime 1 = some 1700000059900 ∧
    (tick defaultSettings true false [minuteItem, secondMinuteItem] 1700000060000
        ⟨Function.update (Function.update LastReminderTime.empty 1 (some 1700000059900))
          2 (some 1700000000000), []⟩).lastReminderTime 3 =
      (Function.update (Function.update LastReminderTime.empty 1 (some 1700000059900))
          2 (some 1700000000000)) 3 :=
  ⟨by decide, by decide, by decide,
    ((C11_last_fired_bookkeeping defaultSettings true [minuteItem, secondMinuteItem]
      (by decide) 1700000060000
      (Function.update (Function.update LastReminderTime.empty 1 (some 1700000059900))
          2 (some 1700000000000))).2 3 (by decide)).1⟩

/-! ## C12: within one tick every due item is presented once, in list order -/

theorem presentedItems_append (l1 l2 : List (Int × Event)) :
    presentedItems (l1 ++ l2) = presentedItems l1 ++ presentedItems l2 := by
  simp [presentedItems]

theorem presentedItems_presentEvents (settings : Settings) (mainWindow : Bool) (a : Adhkar)
    (now : Int) :
    presentedItems ((presentEvents settings mainWindow a).map (fun e => (now, e))) = [a] := by
  unfold presentEvents presentedItems
  by_cases hs : settings.notificationType = some "system" <;>
    by_cases hn : settings.notificationSound = some "none" <;>
    cases mainWindow <;> simp [hs, hn, Event.presented]

theorem presentedItems_tick (settings : Settings) (mainWindow : Bool) (l : List Adhkar)
    (hd : l.Pairwise (fun x y => x.id ≠ y.id)) (now : Int) (st : TickState) :
    presentedItems (tick settings mainWindow false l now st).log =
      presentedItems st.log ++ l.filter (fun a => due a (st.lastReminderTime a.id) now) := by
  unfold tick
  induction l generalizing st with
  | nil => simp
  | cons x l ih =>
    rw [List.pairwise_cons] at hd
    rw [List.foldl_cons, ih hd.2]
    have hkeep : ∀ y ∈ l,
        (tickItem settings mainWindow false now st x).lastReminderTime y.id =
          st.lastReminderTime y.id := by
      intro y hy
      exact congrArg Prod.fst
        (proj_tickItem_other settings mainWindow false now st x y.id (hd.1 y hy))
    have hfilter : l.filter (fun a =>
        due a ((tickItem settings mainWindow false now st x).lastReminderTime a.id) now) =
        l.filter (fun a => due a (st.lastReminderTime a.id) now) := by
      apply List.filter_congr
      intro y hy
      rw [hkeep y hy]
    rw [hfilter, tickItem_eq]
    by_cases hdue : due x (st.lastReminderTime x.id) now = true
    · simp [hdue, presentedItems_append, presentedItems_presentEvents, List.filter_cons]
    · simp [hdue, List.filter_cons]

/-- C12: in a tick (not paused) at time now over an item list with pairwise
distinct ids, the items of the presenter calls the tick makes, in order, are
exactly the items of the list that fire with respect to the map before the
tick, in list order: each of them once, and no other item. -/
theorem C12_due_items_presented_once (settings : Settings) (mainWindow : Bool)
    (l : List Adhkar) (hd : l.Pairwise (fun x y => x.id ≠ y.id)) (now : Int)
    (lrt : LastReminderTime) :
    presentedItems (tick settings mainWindow false l now ⟨lrt, []⟩).log =
      l.filter (fun a => fires settings mainWindow false now lrt a) := by
  rw [presentedItems_tick settings mainWindow l hd now ⟨lrt, []⟩]
  simp only [presentedItems, List.filterMap_nil, List.nil_append]
  apply List.filter_congr
  intro a _
  rw [fires_eq_due]

/-- C12, at the tick 1700000060000 over the every-minute items with ids 2 and 1
(in that order) from the empty map: both fire, item 2 first. -/
theorem C12_due_items_presented_once_witness :
    [secondMinuteItem, minuteItem].Pairwise (fun x y => x.id ≠ y.id) ∧
    presentedItems (tick defaultSettings true false [secondMinuteItem, minuteItem]
      1700000060000 ⟨LastReminderTime.empty, []⟩).log = [secondMinuteItem, minuteItem] ∧
    presentedItems (tick defaultSettings true false [secondMinuteItem, minuteItem]
      1700000060000 ⟨LastReminderTime.empty, []⟩).log =
      [secondMinuteItem, minuteItem].filter
        (fun a => fires defaultSettings true false 1700000060000 LastReminderTime.empty a) :=
  ⟨by decide, by decide,
    C12_due_items_presented_once defaultSettings true [secondMinuteItem, minuteItem]
      (by decide) 1700000060000 LastReminderTime.empty⟩

/-! ## The driver: restarts -/

theorem loadAdhkar_of_file (d1 d2 : Driver) (h : d1.adhkarFile = d2.adhkarFile) :
    (loadAdhkar d1).1 = (loadAdhkar d2).1 := by
  unfold loadAdhkar
  rw [h]
  cases d2.adhkarFile <;> rfl

theorem loadAdhkar_content (d : Driver) (l : List Adhkar) (h : d.adhkarFile = .content l) :
    (loadAdhkar d).1 = l := by
  unfold loadAdhkar
  rw [h]

theorem loadAdhkar_unreadable (d : Driver) (h : d.adhkarFile = .unreadable) :
    (loadAdhkar d).1 = defaultAdhkar := by
  unfold loadAdhkar
  rw [h]

theorem loadAdhkar_file (d : Driver) :
    (loadAdhkar d).2.adhkarFile = .content (loadAdhkar d).1 ∨
    ((loadAdhkar d).2.adhkarFile = .unreadable ∧ d.adhkarFile = .unreadable) := by
  unfold loadAdhkar
  cases h : d.adhkarFile with
  | missing => left; rfl
  | unreadable => right; exact ⟨h, rfl⟩
  | content l => left; exact h

theorem loads_frame (d : Driver) :
    (loadAdhkar (loadSettings d).2).2.timers = d.timers ∧
    (loadAdhkar (loadSettings d).2).2.reminderInterval = d.reminderInterval ∧
    (loadAdhkar (loadSettings d).2).2.nextHandle = d.nextHandle ∧
    (loadAdhkar (loadSettings d).2).1 = (loadAdhkar d).1 := by
  have h1 := loadSettings_frame d
  have h2 := loadAdhkar_frame (loadSettings d).2
  refine ⟨h2.2.2.2.1.trans h1.2.2.2.1, h2.2.2.2.2.1.trans h1.2.2.2.2.1, ?_,
    loadAdhkar_of_file _ _ h1.2.2.2.2.2.1⟩
  have hn1 : (loadSettings d).2.nextHandle = d.nextHandle := by
    unfold loadSettings
    split
    · split <;> rfl
    · rfl
    · rfl
  have hn2 : (loadAdhkar (loadSettings d).2).2.nextHandle = (loadSettings d).2.nextHandle := by
    unfold loadAdhkar
    split <;> rfl
  exact hn2.trans hn1

theorem clearReminderInterval_tracked (d : Driver) (ht : Tracked d) :
    (clearReminderInterval d).timers = [] ∧ (clearReminderInterval d).reminderInterval = none ∧
    (clearReminderInterval d).nextHandle = d.nextHandle := by
  unfold Tracked at ht
  unfold clearReminderInterval clearInterval
  cases hr : d.reminderInterval with
  | none =>
    rw [hr] at ht
    simp only [Option.toList, List.map_eq_nil_iff] at ht
    exact ⟨ht, hr, rfl⟩
  | some h =>
    rw [hr] at ht
    refine ⟨?_, rfl, rfl⟩
    simp only
    rw [List.filter_eq_nil_iff]
    intro t hmem
    have : t.handle ∈ d.timers.map Timer.handle := List.mem_map_of_mem _ hmem
    rw [ht] at this
    simp only [Option.toList, List.mem_singleton] at this
    simp [this]

/-- What one call of `startReminders` leaves armed, from a state in which the
armed intervals are tracked: exactly the new interval, with the loaded settings
and items, when the loaded list is not empty; nothing when it is empty. -/
theorem startReminders_timers (d : Driver) (ht : Tracked d) :
    ((loadAdhkar d).1 ≠ [] →
      (startReminders d).timers =
        [{ handle := d.nextHandle, settings := (loadSettings d).1, adhkar := (loadAdhkar d).1 }] ∧
      (startReminders d).reminderInterval = some d.nextHandle) ∧
    ((loadAdhkar d).1 = [] →
      (startReminders d).timers = [] ∧ (startReminders d).reminderInterval = none) := by
  obtain ⟨f1, f2, f3, f4⟩ := loads_frame d
  have ht2 : Tracked (loadAdhkar (loadSettings d).2).2 := by
    unfold Tracked
    rw [f1, f2]
    exact ht
  obtain ⟨c1, c2, c3⟩ := clearReminderInterval_tracked _ ht2
  constructor
  · intro hne
    have hlen : ((loadAdhkar d).1).length > 0 := List.length_pos.mpr hne
    unfold startReminders
    simp only [f4, hlen, if_true, c1, c2, c3, f3, List.nil_append, and_self]
  · intro hnil
    have hlen : ¬ ((loadAdhkar d).1).length > 0 := by
      rw [hnil]
      simp
    unfold startReminders
    simp only [f4, hlen, if_false, c1, c2, and_self]

theorem startReminders_tracked (d : Driver) (ht : Tracked d) : Tracked (startReminders d) := by
  obtain ⟨h1, h2⟩ := startReminders_timers d ht
  unfold Tracked
  by_cases hl : (loadAdhkar d).1 = []
  · obtain ⟨a, b⟩ := h2 hl
    rw [a, b]
    rfl
  · obtain ⟨a, b⟩ := h1 hl
    rw [a, b]
    rfl

theorem startReminders_loaded (d : Driver) :
    (loadAdhkar (startReminders d)).1 = (loadAdhkar d).1 := by
  have hfile : (startReminders d).adhkarFile = (loadAdhkar (loadSettings d).2).2.adhkarFile := by
    unfold startReminders
    simp only
    split
    · simp only [clearReminderInterval]
      split <;> rfl
    · simp only [clearReminderInterval]
      split <;> rfl
  obtain ⟨_, _, _, f4⟩ := loads_frame d
  rcases loadAdhkar_file (loadSettings d).2 with h | ⟨h, h0⟩
  · rw [loadAdhkar_content _ _ (hfile.trans h), f4]
  · have h1 := (loadSettings_frame d).2.2.2.2.2.1
    rw [h1] at h0
    rw [loadAdhkar_unreadable _ (hfile.trans h), loadAdhkar_unreadable _ h0]

theorem iterate_startReminders (d : Driver) (ht : Tracked d) (N : Nat) :
    Tracked (Nat.iterate startReminders N d) ∧
    (loadAdhkar (Nat.iterate startReminders N d)).1 = (loadAdhkar d).1 := by
  induction N with
  | zero => exact ⟨ht, rfl⟩
  | succ N ih =>
    rw [Function.iterate_succ_apply']
    exact ⟨startReminders_tracked _ ih.1, (startReminders_loaded _).trans ih.2⟩

theorem timerFire_frame (h : Nat) (now : Int) (d : Driver) :
    (timerFire h now d).timers = d.timers ∧
    (timerFire h now d).reminderInterval = d.reminderInterval := by
  unfold timerFire
  split <;> exact ⟨rfl, rfl⟩

theorem clearReminderInterval_keeps_tracked (d : Driver) (ht : Tracked d) :
    Tracked (clearReminderInterval d) := by
  obtain ⟨c1, c2, _⟩ := clearReminderInterval_tracked d ht
  unfold Tracked
  rw [c1, c2]
  rfl

theorem step_tracked (d : Driver) (a : Action) (ht : Tracked d) : Tracked (step d a) := by
  cases a with
  | timer h now =>
    obtain ⟨h1, h2⟩ := timerFire_frame h now d
    show Tracked (timerFire h now d)
    unfold Tracked
    rw [h1, h2]
    exact ht
  | toggleReminder paused =>
    show Tracked (toggleReminder paused d)
    unfold toggleReminder
    cases paused with
    | true => exact clearReminderInterval_keeps_tracked _ ht
    | false => exact startReminders_tracked _ ht
  | trayPauseClick =>
    show Tracked (trayPauseClick d)
    unfold trayPauseClick
    simp only
    split <;> split <;>
      first
        | exact startReminders_tracked _ ht
        | exact clearReminderInterval_keeps_tracked _ ht
  | saveAdhkar adhkar =>
    show Tracked (saveAdhkarHandler adhkar d)
    exact startReminders_tracked _ ht

theorem timerFire_untracked_handle (d : Driver) (ht : Tracked d) (h : Nat) (now : Int)
    (hne : d.reminderInterval ≠ some h) : timerFire h now d = d := by
  unfold timerFire
  cases hf : d.timers.find? (fun t => decide (t.handle = h)) with
  | none => rfl
  | some t =>
    exfalso
    have hmem : t ∈ d.timers := List.mem_of_find?_eq_some hf
    have hh : t.handle = h := by
      have := List.find?_some hf
      simpa using this
    have : t.handle ∈ d.timers.map Timer.handle := List.mem_map_of_mem _ hmem
    unfold Tracked at ht
    rw [ht] at this
    cases hr : d.reminderInterval with
    | none => rw [hr] at this; simp at this
    | some h2 =>
      rw [hr] at this hne
      simp only [Option.toList, List.mem_singleton] at this
      exact hne (by rw [← this, hh])

theorem run_tracked (d : Driver) (acts : List Action) (ht : Tracked d) :
    Tracked (run d acts) := by
  unfold run
  induction acts generalizing d with
  | nil => exact ht
  | cons a rest ih =>
    rw [List.foldl_cons]
    exact ih _ (step_tracked d a ht)

/-! ## C13: idempotent restart -/

/-- C13: the armed intervals are tracked by reminderInterval at start-up and
after every task of the event loop; and from such a state, after N >= 1 calls
of startReminders exactly one master interval is armed, the one
reminderInterval holds, with the loaded item list, when that list is not
empty, and none when it is empty; a callback of any other handle changes
nothing. -/
theorem C13_idempotent_restart :
    (∀ (mainWindow : Bool) (sf : StoreFile Settings) (af : StoreFile (List Adhkar)),
      Tracked (Driver.initial mainWindow sf af)) ∧
    (∀ (d : Driver) (acts : List Action), Tracked d → Tracked (run d acts)) ∧
    (∀ (d : Driver) (N : Nat), Tracked d → 1 ≤ N →
      ((loadAdhkar d).1 ≠ [] →
        ∃ t, (Nat.iterate startReminders N d).timers = [t] ∧
          (Nat.iterate startReminders N d).reminderInterval = some t.handle ∧
          t.adhkar = (loadAdhkar d).1) ∧
      ((loadAdhkar d).1 = [] →
        (Nat.iterate startReminders N d).timers = [] ∧
        (Nat.iterate startReminders N d).reminderInterval = none)) ∧
    (∀ (d : Driver) (N : Nat) (h : Nat) (now : Int), Tracked d →
      (Nat.iterate startReminders N d).reminderInterval ≠ some h →
      timerFire h now (Nat.iterate startReminders N d) = Nat.iterate startReminders N d) := by
  refine ⟨?_, run_tracked, ?_, ?_⟩
  · intro mainWindow sf af
    rfl
  · intro d N ht hN
    obtain ⟨M, rfl⟩ : ∃ M, N = M + 1 := ⟨N - 1, by omega⟩
    rw [Function.iterate_succ_apply']
    obtain ⟨htM, hlM⟩ := iterate_startReminders d ht M
    obtain ⟨h1, h2⟩ := startReminders_timers _ htM
    rw [hlM] at h1 h2
    constructor
    · intro hne
      obtain ⟨a, b⟩ := h1 hne
      exact ⟨_, a, b, rfl⟩
    · exact h2
  · intro d N h now ht hne
    exact timerFire_untracked_handle _ (iterate_startReminders d ht N).1 h now hne

/-- C13, at the start-up state with the every-minute item stored and
startReminders called three times: one interval is armed, with handle 3; and
running the callbacks of the handles 1, 2 and 3 at the boundary 1700000060000
fires the item once. -/
theorem C13_idempotent_restart_witness :
    thriceStarted.timers.map Timer.handle = [3] ∧
    thriceStarted.reminderInterval = some 3 ∧
    firings 1 (run thriceStarted
      [.timer 1 1700000060000, .timer 2 1700000060000, .timer 3 1700000060000]).log =
      [1700000060000] ∧
    timerFire 1 1700000060000 thriceStarted = thriceStarted :=
  ⟨by decide, by decide, by decide,
    C13_idempotent_restart.2.2.2
      (Driver.initial true (.content defaultSettings) (.content [minuteItem])) 3 1
      1700000060000 (C13_idempotent_restart.1 _ _ _) (by decide)⟩

/-! ## C14: a restart keeps the whole map of last firings -/

/-- C14, as stated, fails: after the every-minute item with id 1 has fired at
1700000000500, saving a list that only holds the item with id 2 restarts the
reminders with that list, and the entry of id 1 is still there. -/
theorem C14_counterexample :
    (∀ x ∈ [secondMinuteItem], x.id ≠ 1) ∧
    (loadAdhkar (saveAdhkarHandler [secondMinuteItem]
      (run minuteDriver [.timer 1 1700000000500]))).1 = [secondMinuteItem] ∧
    (run minuteDriver [.timer 1 1700000000500]).lastReminderTime 1 = some 1700000000500 ∧
    (saveAdhkarHandler [secondMinuteItem]
      (run minuteDriver [.timer 1 1700000000500])).lastReminderTime 1 =
        some 1700000000500 := by
  decide

/-- C14 (amended): a restart after an item or settings change leaves
lastReminderTime as it is: after startReminders, after save-adhkar with any
list and after save-settings with any settings, the entry (or absence) of
every id, in the reloaded list or not, is the same as before. -/
theorem C14_restart_keeps_last_fired (d : Driver) :
    (startReminders d).lastReminderTime = d.lastReminderTime ∧
    (∀ adhkar : List Adhkar,
      (saveAdhkarHandler adhkar d).lastReminderTime = d.lastReminderTime) ∧
    (∀ (duplicate : Bool) (cleanedSettings : Settings),
      (saveSettingsHandler duplicate cleanedSettings d).lastReminderTime =
        d.lastReminderTime) := by
  refine ⟨(startReminders_frame d).2.1, ?_, ?_⟩
  · intro adhkar
    exact (startReminders_frame _).2.1
  · intro duplicate cleanedSettings
    unfold saveSettingsHandler
    cases duplicate with
    | true => rfl
    | false =>
      simp only [Bool.false_eq_true, if_false]
      rw [(startReminders_frame _).2.1]
      exact (loadSettings_frame d).2.1

/-! ## C15: an interval of 0 or less is not clamped -/

/-- C15, as stated, fails.  The item with interval 0 created at 1700000000000
is not fired by the tick at 1700000000000 from the empty map, while the same
item with interval 1 is.  The item with interval -1 that fired at
1700000000000 is fired again by the tick at 1700000000100, while the same item
with interval 1 is not. -/
theorem C15_counterexample :
    ({ zeroIntervalItem with reminderInterval := some 1 } : Adhkar) = minuteItem ∧
    ({ negativeIntervalItem with reminderInterval := some 1 } : Adhkar) = minuteItem ∧
    fires defaultSettings true false 1700000000000 LastReminderTime.empty zeroIntervalItem =
      false ∧
    fires defaultSettings true false 1700000000000 LastReminderTime.empty minuteItem = true ∧
    fires defaultSettings true false 1700000000100
      (Function.update LastReminderTime.empty 1 (some 1700000000000)) negativeIntervalItem =
      true ∧
    fires defaultSettings true false 1700000000100
      (Function.update LastReminderTime.empty 1 (some 1700000000000)) minuteItem = false := by
  decide

/-- C15 (amended): an interval of 0 or less is not clamped.  An item whose
configured interval is 0 minutes is never fired by the tick.  An item with a
numeric createdAt whose configured interval is -m minutes (m >= 1) is fired
exactly when now >= S = createdAt + delayMs, the cycle position
(now - S) mod (60000 * m) is below 1000, and the last firing L (-1 when unset)
satisfies L < S or now - L >= -60000 * m. -/
theorem C15_invalid_interval_not_clamped (settings : Settings) (mainWindow : Bool)
    (a : Adhkar) (now : Int) (lrt : LastReminderTime) :
    (a.reminderInterval = some 0 → fires settings mainWindow false now lrt a = false) ∧
    (∀ (m c : Int), 1 ≤ m → a.reminderInterval = some (-m) → a.createdAt = some c →
      (fires settings mainWindow false now lrt a = true ↔
        c + a.delayMs.getD 0 ≤ now ∧
        (now - (c + a.delayMs.getD 0)) % (60000 * m) < 1000 ∧
        ((lrt a.id).getD (-1) < c + a.delayMs.getD 0 ∨
          now - (lrt a.id).getD (-1) ≥ -(60000 * m)))) := by
  constructor
  · intro h0
    rw [fires_eq_due]
    cases hd : due a (lrt a.id) now with
    | false => rfl
    | true =>
      obtain ⟨_, _, _, hne, _⟩ := (due_true_iff _ _ _).mp hd
      exfalso
      apply hne
      simp [intervalMs, h0]
  · intro m c hm hint hc
    have hI : intervalMs a = -(60000 * m) := by
      unfold intervalMs
      rw [hint]
      simp only [Option.getD_some]
      ring
    rw [fires_eq_due, due_true_iff]
    constructor
    · rintro ⟨c2, hc2, hstart, _, hcyc, hlast⟩
      rw [hc] at hc2
      have hcc := Option.some.inj hc2
      subst hcc
      rw [hI, Int.tmod_neg, Int.tmod_eq_emod (by omega) (by omega)] at hcyc
      rw [hI] at hlast
      exact ⟨hstart, hcyc, hlast⟩
    · rintro ⟨hstart, hcyc, hlast⟩
      refine ⟨c, hc, hstart, by rw [hI]; omega, ?_, by rw [hI]; exact hlast⟩
      rw [hI, Int.tmod_neg, Int.tmod_eq_emod (by omega) (by omega)]
      exact hcyc

/-- C15 (amended), at the item with interval 0 created at 1700000000000 and
ticked at its creation instant from the empty map. -/
theorem C15_invalid_interval_not_clamped_witness :
    zeroIntervalItem.reminderInterval = some 0 ∧
    fires defaultSettings true false 1700000000000 LastReminderTime.empty zeroIntervalItem =
      false :=
  ⟨rfl, (C15_invalid_interval_not_clamped defaultSettings true zeroIntervalItem 1700000000000
    LastReminderTime.empty).1 rfl⟩

/-! ## C16: a negative delay is not clamped -/

/-- C16, as stated, fails: the every-minute item created at 1700000000000 with
delayMs = -30000 is fired by the tick at 1700000030000 from the empty map (one
interval after its start 1699999970000), while the same item with delayMs = 0
is not (cycle position 30000). -/
theorem C16_counterexample :
    negativeDelayItem.delayMs = some (-30000) ∧
    ({ negativeDelayItem with delayMs := some 0 } : Adhkar) = minuteItem ∧
    scheduledStartTime negativeDelayItem = some 1699999970000 ∧
    fires defaultSettings true false 1700000030000 LastReminderTime.empty negativeDelayItem =
      true ∧
    fires defaultSettings true false 1700000030000 LastReminderTime.empty minuteItem =
      false := by
  decide

/-- C16 (amended): a negative delay is not clamped: for every item, also one
with delayMs < 0, and every now and lastReminderTime, the fire decision of the
tick equals the decision for the same item with createdAt replaced by
createdAt + delayMs and delayMs = 0; the schedule is anchored at
createdAt + delayMs, which is before createdAt when the delay is negative. -/
theorem C16_negative_delay_not_clamped (settings : Settings) (mainWindow isPaused : Bool)
    (a : Adhkar) (now : Int) (lrt : LastReminderTime) :
    fires settings mainWindow isPaused now lrt a =
      fires settings mainWindow isPaused now lrt
        { a with createdAt := scheduledStartTime a, delayMs := some 0 } := by
  cases isPaused with
  | true => rw [fires_paused, fires_paused]
  | false =>
    rw [fires_eq_due, fires_eq_due]
    unfold due scheduledStartTime intervalMs
    cases hc : a.createdAt with
    | none => simp [jsAdd]
    | some c => simp [jsAdd]

/-! ## C17: editing restarts the schedule -/

theorem handleSubmit_edit (form : FormState) (data : FormData)
    (h : handleSubmit true form = some data) :
    data.text = jsTrim form.text ∧ data.delayMs = 0 ∧
    data.reminderInterval = orDefault form.reminderInterval 5 := by
  unfold handleSubmit at h
  split at h
  · have := Option.some.inj h
    subst this
    exact ⟨rfl, rfl, rfl⟩
  · cases h

/-- The trim of the form strips every kind of white space: the text of
`editForm`, padded with a space, a no-break space, an ideographic space and a
line feed, is submitted as "Subhan Allah", and a text of white space only is
not submitted. -/
theorem handleSubmit_trims_all_white_space :
    jsTrim editForm.text = "Subhan Allah" ∧
    handleSubmit true { editForm with text := "\u00a0 \u3000\t\ufeff" } = none ∧
    handleSubmit false { editForm with text := "\u00a0\u2028" } = none := by
  decide

/-- C17: when handleAddAdhkar runs in edit mode at time E with the data
handleSubmit produced, for an editing item whose id occurs in the stored list:
the list saved by updateAdhkar has the same length, the first item with that id
(at position index) keeps its id and category and gets createdAt = E,
delayMs = 0 and the submitted (trimmed) text and interval, every other position
is unchanged; the start of the updated item is E whatever the old createdAt
was, and when its interval is positive every tick that fires it is at a time
in [E + k * I, E + k * I + 1000) for some k >= 0. -/
theorem C17_edit_restarts_schedule (form : FormState) (data : FormData) (editingItem : Adhkar)
    (E : Int) (adhkar : List Adhkar)
    (hsub : handleSubmit true form = some data)
    (hmem : ∃ x ∈ adhkar, x.id = editingItem.id) :
    ∃ (index : Nat) (old : Adhkar),
      adhkar[index]? = some old ∧ old.id = editingItem.id ∧
      (∀ j y, j < index → adhkar[j]? = some y → y.id ≠ editingItem.id) ∧
      handleAddAdhkar (some editingItem) data E adhkar =
        some (adhkar.set index (applyUpdates old data E)) ∧
      (adhkar.set index (applyUpdates old data E)).length = adhkar.length ∧
      (adhkar.set index (applyUpdates old data E))[index]? = some (applyUpdates old data E) ∧
      (∀ j, j ≠ index → (adhkar.set index (applyUpdates old data E))[j]? = adhkar[j]?) ∧
      (applyUpdates old data E).id = editingItem.id ∧
      (applyUpdates old data E).category = old.category ∧
      (applyUpdates old data E).createdAt = some E ∧
      (applyUpdates old data E).delayMs = some 0 ∧
      (applyUpdates old data E).text = jsTrim form.text ∧
      (applyUpdates old data E).reminderInterval = some (orDefault form.reminderInterval 5) ∧
      scheduledStartTime (applyUpdates old data E) = some E ∧
      intervalMs (applyUpdates old data E) = orDefault form.reminderInterval 5 * 60 * 1000 ∧
      (∀ c : JSNum, applyUpdates { old with createdAt := c } data E = applyUpdates old data E) ∧
      (0 < intervalMs (applyUpdates old data E) →
        ∀ (settings : Settings) (mainWindow : Bool) (now : Int) (lrt : LastReminderTime),
          fires settings mainWindow false now lrt (applyUpdates old data E) = true →
          ∃ k : Int, 0 ≤ k ∧ E + k * intervalMs (applyUpdates old data E) ≤ now ∧
            now < E + k * intervalMs (applyUpdates old data E) + 1000) := by
  obtain ⟨htext, hdelay, hint⟩ := handleSubmit_edit form data hsub
  obtain ⟨x, hx, hxid⟩ := hmem
  have hex : ∃ y, y ∈ adhkar ∧ (fun a : Adhkar => decide (a.id = editingItem.id)) y = true :=
    ⟨x, hx, by simpa using hxid⟩
  have hsome := List.findIdx?_eq_some_of_exists hex
  obtain ⟨hlt, hp, hfirst⟩ := List.findIdx?_eq_some_iff_getElem.mp hsome
  have hget : adhkar[adhkar.findIdx (fun a => decide (a.id = editingItem.id))]? =
      some (adhkar[adhkar.findIdx (fun a => decide (a.id = editingItem.id))]) :=
    List.getElem?_eq_getElem hlt
  refine ⟨_, _, hget, by simpa using hp, ?_, ?_, List.length_set _ _ _, ?_, ?_, ?_, rfl, rfl,
    ?_, ?_, ?_, ?_, ?_, fun _ => rfl, ?_⟩
  · intro j y hj hy
    have hjl : j < adhkar.length := Nat.lt_trans hj hlt
    have := hfirst j hj
    rw [List.getElem?_eq_getElem hjl] at hy
    have hyy := Option.some.inj hy
    rw [← hyy]
    simpa using this
  · unfold handleAddAdhkar updateAdhkar
    simp only [hsome, hget]
  · exact List.getElem?_set_self hlt
  · intro j hj
    exact List.getElem?_set_ne (Ne.symm hj)
  · show adhkar[adhkar.findIdx _].id = editingItem.id
    simpa using hp
  · show some data.delayMs = some 0
    rw [hdelay]
  · show data.text = jsTrim form.text
    exact htext
  · show some data.reminderInterval = some (orDefault form.reminderInterval 5)
    rw [hint]
  · show jsAdd (some E) (some ((some data.delayMs).getD 0)) = some E
    rw [hdelay]
    simp [jsAdd]
  · show (some data.reminderInterval).getD 5 * 60 * 1000 = _
    rw [hint]
    rfl
  · intro hI settings mainWindow now lrt hf
    rw [fires_eq_due] at hf
    have hw := due_window (applyUpdates _ data E) E now _ rfl hI hf
    have hd0 : (applyUpdates adhkar[adhkar.findIdx (fun a => decide (a.id = editingItem.id))]
        data E).delayMs.getD 0 = 0 := by
      show (some data.delayMs).getD 0 = 0
      rw [hdelay]
      rfl
    rw [hd0] at hw
    simpa using hw

/-- C17, editing the every-minute item (id 1, second in the stored list, created
at 1700000000000) at E = 1700000500000 to repeat every 10 minutes. -/
theorem C17_edit_restarts_schedule_witness :
    handleSubmit true editForm = some editData ∧
    (∃ x ∈ [secondMinuteItem, minuteItem], x.id = minuteItem.id) ∧
    handleAddAdhkar (some minuteItem) editData 1700000500000 [secondMinuteItem, minuteItem] =
      some [secondMinuteItem,
        { id := 1, text := "Subhan Allah", reminderInterval := some 10, delayMs := some 0,
          createdAt := some 1700000500000, repeats := some 33,
          infiniteRepeat := some false }] ∧
    ∃ (index : Nat) (old : Adhkar),
      [secondMinuteItem, minuteItem][index]? = some old ∧
      scheduledStartTime (applyUpdates old editData 1700000500000) = some 1700000500000 :=
  ⟨by decide, ⟨minuteItem, by decide, rfl⟩, by decide,
    (C17_edit_restarts_schedule editForm editData minuteItem 1700000500000
      [secondMinuteItem, minuteItem] (by decide) ⟨minuteItem, by decide, rfl⟩).imp
      (fun _ h => h.imp (fun _ h2 => ⟨h2.1, h2.2.2.2.2.2.2.2.2.2.2.2.2.2.1⟩))⟩

/-! ## C18: isolation of presentation failures -/

theorem presenterEventsFaulty_none (settings : Settings) (mainWindow : Bool) (a : Adhkar) :
    presenterEventsFaulty Faults.none settings a ++
        (if mainWindow then [Event.newReminder a] else []) =
      presentEvents settings mainWindow a := by
  unfold presenterEventsFaulty presentEvents Faults.none
  by_cases hs : settings.notificationType = some "system" <;>
    by_cases hn : settings.notificationSound = some "none" <;> simp [hs, hn]

/-- Without faults the callback under faults is the callback. -/
theorem tickItemFaulty_none (settings : Settings) (mainWindow isPaused : Bool) (now : Int)
    (st : TickState) (a : Adhkar) :
    tickItemFaulty Faults.none settings mainWindow isPaused now ⟨st, false⟩ a =
      ⟨tickItem settings mainWindow isPaused now st a, false⟩ := by
  unfold tickItemFaulty tickItem
  simp only [Bool.false_eq_true, if_false]
  split
  · rfl
  · split
    · rfl
    · split
      · split
        · have hsend : (mainWindow && Faults.none.send a) = false := by
            simp [Faults.none]
          simp only [hsend, Bool.false_eq_true, if_false, presenterEventsFaulty_none]
        · rfl
      · rfl

/-- Without faults the tick under faults is the tick, and no exception leaves
it. -/
theorem tickFaulty_none (settings : Settings) (mainWindow isPaused : Bool)
    (l : List Adhkar) (now : Int) (st : TickState) :
    tickFaulty Faults.none settings mainWindow isPaused l now st =
      ⟨tick settings mainWindow isPaused l now st, false⟩ := by
  unfold tickFaulty tick
  induction l generalizing st with
  | nil => rfl
  | cons x l ih => rw [List.foldl_cons, tickItemFaulty_none, ih, List.foldl_cons]

/-- When no send throws, no exception leaves a tick, whatever the other steps
do, and the map of last firings is the one of the tick without faults. -/
theorem tickFaulty_caught (faults : Faults) (hsend : ∀ a, faults.send a = false)
    (settings : Settings) (mainWindow isPaused : Bool) (l : List Adhkar) (now : Int)
    (st : TickState) :
    (tickFaulty faults settings mainWindow isPaused l now st).thrown = false ∧
    (tickFaulty faults settings mainWindow isPaused l now st).state.lastReminderTime =
      (tick settings mainWindow isPaused l now st).lastReminderTime := by
  unfold tickFaulty tick
  suffices h : ∀ (l : List Adhkar) (fs : FaultyTickState) (st2 : TickState),
      fs.thrown = false → fs.state.lastReminderTime = st2.lastReminderTime →
      (l.foldl (tickItemFaulty faults settings mainWindow isPaused now) fs).thrown = false ∧
      (l.foldl (tickItemFaulty faults settings mainWindow isPaused now) fs).state.lastReminderTime =
        (l.foldl (tickItem settings mainWindow isPaused now) st2).lastReminderTime from
    h l ⟨st, false⟩ st rfl rfl
  intro l
  induction l with
  | nil => intro fs st2 h1 h2; exact ⟨h1, h2⟩
  | cons x l ih =>
    intro fs st2 h1 h2
    rw [List.foldl_cons, List.foldl_cons]
    apply ih
    · unfold tickItemFaulty
      simp only [h1, Bool.false_eq_true, if_false, hsend, Bool.and_false]
      split
      · exact h1
      · split
        · exact h1
        · split
          · split
            · rfl
            · exact h1
          · exact h1
    · unfold tickItemFaulty tickItem
      simp only [h1, Bool.false_eq_true, if_false, hsend, Bool.and_false, h2]
      split
      · exact h2
      · split
        · exact h2
        · split
          · split
            · rfl
            · exact h2
          · exact h2

/-- C18 fails on the code for the new-reminder send.  The every-minute items
with ids 1 (A) and 2 (B) are both due at the tick 1700000060000 from the empty
map, with the main window open.  When every caught step fails for A
(notification, sound path, sound playback, floating window), in system and in
custom mode, no exception leaves the tick, B is presented and both firings are
recorded.  When the send to the main window throws for A, the exception leaves
the callback: B is not presented and the firing of A is not recorded. -/
theorem C18_send_failure_aborts_tick :
    fires defaultSettings true false 1700000060000 LastReminderTime.empty minuteItem = true ∧
    fires defaultSettings true false 1700000060000 LastReminderTime.empty secondMinuteItem =
      true ∧
    (tickFaulty caughtFaults systemSettings true false [minuteItem, secondMinuteItem]
      1700000060000 ⟨LastReminderTime.empty, []⟩).thrown = false ∧
    presentedItems (tickFaulty caughtFaults systemSettings true false
      [minuteItem, secondMinuteItem] 1700000060000 ⟨LastReminderTime.empty, []⟩).state.log =
      [secondMinuteItem] ∧
    (tickFaulty caughtFaults defaultSettings true false [minuteItem, secondMinuteItem]
      1700000060000 ⟨LastReminderTime.empty, []⟩).thrown = false ∧
    presentedItems (tickFaulty caughtFaults defaultSettings true false
      [minuteItem, secondMinuteItem] 1700000060000 ⟨LastReminderTime.empty, []⟩).state.log =
      [secondMinuteItem] ∧
    (tickFaulty sendFault defaultSettings true false [minuteItem, secondMinuteItem]
      1700000060000 ⟨LastReminderTime.empty, []⟩).thrown = true ∧
    presentedItems (tickFaulty sendFault defaultSettings true false
      [minuteItem, secondMinuteItem] 1700000060000 ⟨LastReminderTime.empty, []⟩).state.log =
      [minuteItem] ∧
    (tickFaulty sendFault defaultSettings true false [minuteItem, secondMinuteItem]
      1700000060000 ⟨LastReminderTime.empty, []⟩).state.lastReminderTime 1 = none ∧
    (tickFaulty sendFault defaultSettings true false [minuteItem, secondMinuteItem]
      1700000060000 ⟨LastReminderTime.empty, []⟩).state.lastReminderTime 2 = none := by
  decide

/-! ## C19: the pending slot holds the latest occurrence -/

/-- C19, as stated, fails: from the start-up state, A is shown, B and then C
arrive while A is visible, and A closes: the occurrence shown next is C, and B
is never shown. -/
theorem C19_counterexample :
    (createNotificationWindow false "A" (Notifier.initial String)).shown = ["A"] ∧
    (notificationClosed false
      (createNotificationWindow false "C"
        (createNotificationWindow false "B"
          (createNotificationWindow false "A" (Notifier.initial String))))).shown =
      ["A", "C"] ∧
    (notificationClosed false (notificationClosed false
      (createNotificationWindow false "C"
        (createNotificationWindow false "B"
          (createNotificationWindow false "A" (Notifier.initial String)))))).shown =
      ["A", "C"] := by
  decide

/-- C19 (amended): in the state machine (notificationReady,
pendingNotification), if occurrence A is shown from a ready state and
occurrences B and then C are passed to createNotificationWindow before A
closes, then neither call replaces what is displayed, C overwrites B in the
pending slot, and when A closes the occurrence shown next is C (the latest
arrival); B is dropped. -/
theorem C19_pending_slot_latest_wins {α : Type} (n : Notifier α) (A B C : α)
    (throwsB throwsC : Bool) (hready : n.notificationReady = true) :
    (createNotificationWindow false A n).shown = n.shown ++ [A] ∧
    (createNotificationWindow throwsB B (createNotificationWindow false A n)).shown =
      n.shown ++ [A] ∧
    (createNotificationWindow throwsB B (createNotificationWindow false A n)).pendingNotification =
      some B ∧
    (createNotificationWindow throwsC C
      (createNotificationWindow throwsB B (createNotificationWindow false A n))).shown =
      n.shown ++ [A] ∧
    (createNotificationWindow throwsC C
      (createNotificationWindow throwsB B
        (createNotificationWindow false A n))).pendingNotification = some C ∧
    (notificationClosed false
      (createNotificationWindow throwsC C
        (createNotificationWindow throwsB B (createNotificationWindow false A n)))).shown =
      n.shown ++ [A, C] ∧
    (notificationClosed false
      (createNotificationWindow throwsC C
        (createNotificationWindow throwsB B
          (createNotificationWindow false A n)))).pendingNotification = none := by
  simp [createNotificationWindow, notificationClosed, hready]

/-- C19 (amended), from the start-up state with the occurrences "A", "B",
"C". -/
theorem C19_pending_slot_latest_wins_witness :
    (Notifier.initial String).notificationReady = true ∧
    (notificationClosed false
      (createNotificationWindow false "C"
        (createNotificationWindow false "B"
          (createNotificationWindow false "A" (Notifier.initial String))))).shown =
      (Notifier.initial String).shown ++ ["A", "C"] :=
  ⟨rfl, (C19_pending_slot_latest_wins (Notifier.initial String) "A" "B" "C" false false
    rfl).2.2.2.2.2.1⟩

/-! ## C20: a failing item store falls back to the defaults -/

/-- C20, as stated, fails: the driver whose interval evaluates the stored
every-minute item is restarted when the item file cannot be read; the interval
armed by the restart evaluates the five default items, not the item evaluated
before. -/
theorem C20_counterexample :
    minuteDriver.timers.map Timer.adhkar = [[minuteItem]] ∧
    (startReminders { minuteDriver with adhkarFile := .unreadable }).timers.map Timer.adhkar =
      [defaultAdhkar] ∧
    defaultAdhkar ≠ [minuteItem] := by
  decide

/-- C20 (amended): if loading the item store fails (read or parse error)
during a (re)start, from a state whose armed intervals are tracked, the one
interval armed by that restart evaluates the built-in default list
defaultAdhkar, whatever item set was evaluated before. -/
theorem C20_store_failure_uses_defaults (d : Driver) (ht : Tracked d)
    (hfail : d.adhkarFile = .unreadable) :
    (startReminders d).timers =
      [{ handle := d.nextHandle, settings := (loadSettings d).1, adhkar := defaultAdhkar }] ∧
    (startReminders d).reminderInterval = some d.nextHandle := by
  have hload : (loadAdhkar d).1 = defaultAdhkar := loadAdhkar_unreadable d hfail
  have h := (startReminders_timers d ht).1
  rw [hload] at h
  exact h (by decide)

/-- C20 (amended), at the driver of the every-minute item once its item file
has become unreadable. -/
theorem C20_store_failure_uses_defaults_witness :
    Tracked { minuteDriver with adhkarFile := .unreadable } ∧
    (startReminders { minuteDriver with adhkarFile := .unreadable }).reminderInterval =
      some 2 :=
  ⟨by unfold Tracked; decide,
    (C20_store_failure_uses_defaults { minuteDriver with adhkarFile := .unreadable }
      (by unfold Tracked; decide) rfl).2⟩

/-! ## C21: cleanup releases the scheduler and is idempotent -/

theorem clearInterval_foldl_subset (nt : List (String × Nat)) (ts : List Timer) :
    ∀ t ∈ nt.foldl (fun ts e => clearInterval e.2 ts) ts, t ∈ ts := by
  induction nt generalizing ts with
  | nil => intro t ht; exact ht
  | cons e rest ih =>
    intro t ht
    rw [List.foldl_cons] at ht
    have := ih _ t ht
    unfold clearInterval at this
    exact (List.mem_filter.mp this).1

theorem cleanup_of_cleaning (p : Process) (hp : p.isCleaningUp = true) : cleanup p = p := by
  unfold cleanup
  rw [if_pos hp]

theorem cleanup_of_not_cleaning (p : Process) (hp : p.isCleaningUp = false) :
    cleanup p =
      { driver :=
          { clearReminderInterval p.driver with
            timers := (clearReminderInterval p.driver).notificationTimers.foldl
              (fun ts e => clearInterval e.2 ts) (clearReminderInterval p.driver).timers
            notificationTimers := []
            lastReminderTime := LastReminderTime.empty
            mainWindow := false }
        isCleaningUp := true
        notificationWindow := false
        tray := false } := by
  unfold cleanup
  rw [if_neg (by rw [hp]; exact Bool.false_ne_true)]

/-- C21: the first call of cleanup leaves reminderInterval null with the
interval it held no longer armed (no interval at all when the armed intervals
were tracked), notificationTimers empty and lastReminderTime empty; and a
second call of cleanup leaves the whole state exactly as the first call left
it. -/
theorem C21_cleanup_idempotent (p : Process) :
    (p.isCleaningUp = false →
      (cleanup p).driver.reminderInterval = none ∧
      (cleanup p).driver.notificationTimers = [] ∧
      (cleanup p).driver.lastReminderTime = LastReminderTime.empty ∧
      (∀ t ∈ (cleanup p).driver.timers,
        t ∈ p.driver.timers ∧ p.driver.reminderInterval ≠ some t.handle) ∧
      (Tracked p.driver → (cleanup p).driver.timers = [])) ∧
    cleanup (cleanup p) = cleanup p := by
  constructor
  · intro hp
    have hf := clearReminderInterval_frame p.driver
    have ht := clearReminderInterval_timers p.driver
    rw [cleanup_of_not_cleaning p hp]
    refine ⟨hf.2.2.2.2, rfl, rfl, ?_, ?_⟩
    · intro t hmem
      exact ht.1 t (clearInterval_foldl_subset _ _ t hmem)
    · intro htr
      have hnil := (clearReminderInterval_tracked p.driver htr).1
      show List.foldl (fun ts e => clearInterval e.2 ts)
          (clearReminderInterval p.driver).timers
          (clearReminderInterval p.driver).notificationTimers = []
      cases hts : List.foldl (fun ts e => clearInterval e.2 ts)
          (clearReminderInterval p.driver).timers
          (clearReminderInterval p.driver).notificationTimers with
      | nil => rfl
      | cons t rest =>
        exfalso
        have hmem : t ∈ (clearReminderInterval p.driver).timers :=
          clearInterval_foldl_subset _ _ t (by rw [hts]; exact List.mem_cons_self _ _)
        rw [hnil] at hmem
        cases hmem
  · cases hp : p.isCleaningUp with
    | true => rw [cleanup_of_cleaning p hp, cleanup_of_cleaning p hp]
    | false =>
      apply cleanup_of_cleaning
      rw [cleanup_of_not_cleaning p hp]

/-- C21, at the running process of the every-minute item after one firing. -/
theorem C21_cleanup_idempotent_witness :
    minuteProcess.isCleaningUp = false ∧
    minuteProcess.driver.reminderInterval = some 1 ∧
    minuteProcess.driver.lastReminderTime 1 = some 1700000000500 ∧
    (cleanup minuteProcess).driver.reminderInterval = none ∧
    (cleanup minuteProcess).driver.timers.map Timer.handle = [] ∧
    (cleanup minuteProcess).driver.lastReminderTime 1 = none ∧
    cleanup (cleanup minuteProcess) = cleanup minuteProcess :=
  ⟨rfl, by decide, by decide,
    ((C21_cleanup_idempotent minuteProcess).1 rfl).1, by decide, by decide,
    (C21_cleanup_idempotent minuteProcess).2⟩

/-! ## C22: addAdhkar keeps the ids distinct -/

theorem foldl_max_ge (rest : List Adhkar) (m : Int) :
    m ≤ rest.foldl (fun m x => max m x.id) m ∧
    ∀ x ∈ rest, x.id ≤ rest.foldl (fun m x => max m x.id) m := by
  induction rest generalizing m with
  | nil => exact ⟨le_refl _, fun x hx => by cases hx⟩
  | cons y rest ih =>
    rw [List.foldl_cons]
    obtain ⟨h1, h2⟩ := ih (max m y.id)
    refine ⟨le_trans (le_max_left _ _) h1, ?_⟩
    intro x hx
    rcases List.mem_cons.mp hx with h | h
    · rw [h]
      exact le_trans (le_max_right _ _) h1
    · exact h2 x h

theorem le_maxId (l : List Adhkar) : ∀ x ∈ l, x.id ≤ maxId l := by
  cases l with
  | nil => intro x hx; cases hx
  | cons a rest =>
    intro x hx
    obtain ⟨h1, h2⟩ := foldl_max_ge rest a.id
    rcases List.mem_cons.mp hx with h | h
    · rw [h]
      exact h1
    · exact h2 x h

theorem foldl_max_mem (rest : List Adhkar) (m : Int) :
    rest.foldl (fun m x => max m x.id) m = m ∨
    ∃ x ∈ rest, x.id = rest.foldl (fun m x => max m x.id) m := by
  induction rest generalizing m with
  | nil => exact Or.inl rfl
  | cons y rest ih =>
    rw [List.foldl_cons]
    rcases ih (max m y.id) with h | ⟨x, hx, hxe⟩
    · rw [h]
      rcases max_choice m y.id with hm | hm
      · exact Or.inl hm
      · exact Or.inr ⟨y, List.mem_cons_self _ _, hm.symm⟩
    · exact Or.inr ⟨x, List.mem_cons_of_mem _ hx, hxe⟩

/-- C22: for every stored list, addAdhkar gives the new item the id 1 when the
list is empty and otherwise the greatest id of the list plus 1, which differs
from every id of the list; it appends the item as the last element and leaves
the existing items as they are; so a list with pairwise distinct ids has
pairwise distinct ids after the add. -/
theorem C22_add_keeps_ids_unique (text : String) (category : Option String)
    (repeats reminderInterval : Int) (infiniteRepeat : Bool) (delayMs createdAt : Int)
    (l : List Adhkar) :
    (addAdhkar text category repeats reminderInterval infiniteRepeat delayMs createdAt l).2 =
      l ++ [(addAdhkar text category repeats reminderInterval infiniteRepeat delayMs
        createdAt l).1] ∧
    (l = [] →
      (addAdhkar text category repeats reminderInterval infiniteRepeat delayMs
        createdAt l).1.id = 1) ∧
    (l ≠ [] →
      (∃ x ∈ l, (addAdhkar text category repeats reminderInterval infiniteRepeat delayMs
        createdAt l).1.id = x.id + 1) ∧
      ∀ x ∈ l, x.id + 1 ≤ (addAdhkar text category repeats reminderInterval infiniteRepeat
        delayMs createdAt l).1.id) ∧
    (∀ x ∈ l, x.id ≠ (addAdhkar text category repeats reminderInterval infiniteRepeat delayMs
      createdAt l).1.id) ∧
    (l.Pairwise (fun x y => x.id ≠ y.id) →
      (addAdhkar text category repeats reminderInterval infiniteRepeat delayMs
        createdAt l).2.Pairwise (fun x y => x.id ≠ y.id)) := by
  have hdiff : ∀ x ∈ l, x.id ≠ (addAdhkar text category repeats reminderInterval infiniteRepeat
      delayMs createdAt l).1.id := by
    intro x hx
    have hpos : l.length > 0 := List.length_pos_of_mem hx
    have hle := le_maxId l x hx
    show x.id ≠ (if l.length > 0 then maxId l + 1 else 1)
    rw [if_pos hpos]
    omega
  refine ⟨rfl, ?_, ?_, hdiff, ?_⟩
  · intro hnil
    subst hnil
    rfl
  · intro hne
    have hpos : l.length > 0 := List.length_pos.mpr hne
    have hid : (addAdhkar text category repeats reminderInterval infiniteRepeat delayMs
        createdAt l).1.id = maxId l + 1 := by
      show (if l.length > 0 then maxId l + 1 else 1) = maxId l + 1
      rw [if_pos hpos]
    rw [hid]
    constructor
    · cases l with
      | nil => exact absurd rfl hne
      | cons a rest =>
        rcases foldl_max_mem rest a.id with h | ⟨x, hx, hxe⟩
        · exact ⟨a, List.mem_cons_self _ _, by show rest.foldl _ a.id + 1 = a.id + 1; rw [h]⟩
        · exact ⟨x, List.mem_cons_of_mem _ hx, by
            show rest.foldl _ a.id + 1 = x.id + 1
            rw [hxe]⟩
    · intro x hx
      have := le_maxId l x hx
      omega
  · intro hp
    show (l ++ [_]).Pairwise _
    rw [List.pairwise_append]
    refine ⟨hp, List.pairwise_singleton _ _, ?_⟩
    intro x hx y hy
    rw [List.mem_singleton] at hy
    subst hy
    exact hdiff x hx

/-- C22, adding an item to the stored list of the items with ids 2 and 1: the
new item gets id 3 and is appended. -/
theorem C22_add_keeps_ids_unique_witness :
    [secondMinuteItem, minuteItem] ≠ [] ∧
    [secondMinuteItem, minuteItem].Pairwise (fun x y => x.id ≠ y.id) ∧
    (addAdhkar "Allahu Akbar" none 34 5 false 0 1700000500000
      [secondMinuteItem, minuteItem]).1.id = 3 ∧
    (addAdhkar "Allahu Akbar" none 34 5 false 0 1700000500000
      [secondMinuteItem, minuteItem]).2.Pairwise (fun x y => x.id ≠ y.id) :=
  ⟨by decide, by decide, by decide,
    (C22_add_keeps_ids_unique "Allahu Akbar" none 34 5 false 0 1700000500000
      [secondMinuteItem, minuteItem]).2.2.2.2 (by decide)⟩

/-! ## C28: an item without createdAt never fires -/

theorem due_no_createdAt (a : Adhkar) (h : a.createdAt = none) (last : Option Int) (now : Int) :
    due a last now = false := by
  unfold due
  rw [h]

theorem tick_no_createdAt (settings : Settings) (mainWindow isPaused : Bool) (l : List Adhkar)
    (hl : ∀ a ∈ l, a.createdAt = none) (now : Int) (st : TickState) :
    tick settings mainWindow isPaused l now st = st := by
  cases isPaused with
  | true => exact tick_paused settings mainWindow l now st
  | false =>
    unfold tick
    induction l generalizing st with
    | nil => rfl
    | cons x l ih =>
      rw [List.foldl_cons, tickItem_eq,
        due_no_createdAt x (hl x (List.mem_cons_self _ _))]
      simp only [Bool.false_eq_true, if_false]
      exact ih (fun a ha => hl a (List.mem_cons_of_mem _ ha)) st

theorem timerFire_no_createdAt (d : Driver) (hd : NoCreatedAt d) (h : Nat) (now : Int) :
    timerFire h now d = d := by
  unfold timerFire
  cases hf : d.timers.find? (fun t => decide (t.handle = h)) with
  | none => rfl
  | some t =>
    have hmem : t ∈ d.timers := List.mem_of_find?_eq_some hf
    simp only [tick_no_createdAt _ _ _ _ (hd.1 t hmem)]

theorem startReminders_timers_mem (d : Driver) :
    ∀ t ∈ (startReminders d).timers, t ∈ d.timers ∨ t.adhkar = (loadAdhkar d).1 := by
  obtain ⟨f1, _, _, f4⟩ := loads_frame d
  have hc := (clearReminderInterval_timers (loadAdhkar (loadSettings d).2).2).1
  intro t ht
  unfold startReminders at ht
  simp only at ht
  split at ht
  · rcases List.mem_append.mp ht with h | h
    · left
      rw [← f1]
      exact (hc t h).1
    · right
      rw [List.mem_singleton] at h
      rw [h]
      exact f4
  · left
    rw [← f1]
    exact (hc t ht).1

theorem startReminders_noCreatedAt (d : Driver) (hd : NoCreatedAt d) :
    NoCreatedAt (startReminders d) := by
  constructor
  · intro t ht a ha
    rcases startReminders_timers_mem d t ht with h | h
    · exact hd.1 t h a ha
    · rw [h] at ha
      exact hd.2 a ha
  · rw [startReminders_loaded]
    exact hd.2

theorem clearReminderInterval_noCreatedAt (d : Driver) (hd : NoCreatedAt d) :
    NoCreatedAt (clearReminderInterval d) := by
  constructor
  · intro t ht a ha
    exact hd.1 t ((clearReminderInterval_timers d).1 t ht).1 a ha
  · have : (clearReminderInterval d).adhkarFile = d.adhkarFile := by
      unfold clearReminderInterval
      split <;> rfl
    rw [loadAdhkar_of_file _ _ this]
    exact hd.2

theorem noCreatedAt_congr (d1 d2 : Driver) (ht : d1.timers = d2.timers)
    (hf : d1.adhkarFile = d2.adhkarFile) (hd : NoCreatedAt d2) : NoCreatedAt d1 := by
  constructor
  · rw [ht]
    exact hd.1
  · rw [loadAdhkar_of_file _ _ hf]
    exact hd.2

theorem step_noCreatedAt (d : Driver) (a : Action) (ha : a.savesNothing = true)
    (hd : NoCreatedAt d) : NoCreatedAt (step d a) ∧ (step d a).log = d.log := by
  cases a with
  | timer h now =>
    show NoCreatedAt (timerFire h now d) ∧ (timerFire h now d).log = d.log
    rw [timerFire_no_createdAt d hd h now]
    exact ⟨hd, rfl⟩
  | toggleReminder paused =>
    show NoCreatedAt (toggleReminder paused d) ∧ (toggleReminder paused d).log = d.log
    unfold toggleReminder
    have hd1 : NoCreatedAt { d with isPaused := paused } := noCreatedAt_congr _ d rfl rfl hd
    cases paused with
    | true =>
      exact ⟨clearReminderInterval_noCreatedAt _ hd1, (clearReminderInterval_frame _).1⟩
    | false =>
      exact ⟨startReminders_noCreatedAt _ hd1, (startReminders_frame _).1⟩
  | trayPauseClick =>
    show NoCreatedAt (trayPauseClick d) ∧ (trayPauseClick d).log = d.log
    unfold trayPauseClick
    simp only
    split <;> split
    · exact ⟨startReminders_noCreatedAt _ (noCreatedAt_congr _ d rfl rfl hd),
        (startReminders_frame _).1⟩
    · exact ⟨clearReminderInterval_noCreatedAt _ (noCreatedAt_congr _ d rfl rfl hd),
        (clearReminderInterval_frame _).1⟩
    · exact ⟨startReminders_noCreatedAt _ (noCreatedAt_congr _ d rfl rfl hd),
        (startReminders_frame _).1⟩
    · exact ⟨clearReminderInterval_noCreatedAt _ (noCreatedAt_congr _ d rfl rfl hd),
        (clearReminderInterval_frame _).1⟩
  | saveAdhkar adhkar => cases ha

theorem run_noCreatedAt (d : Driver) (acts : List Action)
    (hacts : ∀ a ∈ acts, a.savesNothing = true) (hd : NoCreatedAt d) :
    (run d acts).log = d.log := by
  unfold run
  induction acts generalizing d with
  | nil => rfl
  | cons a rest ih =>
    rw [List.foldl_cons]
    obtain ⟨h1, h2⟩ := step_noCreatedAt d a (hacts a (List.mem_cons_self _ _)) hd
    rw [ih _ (fun b hb => hacts b (List.mem_cons_of_mem _ hb)) h1, h2]

/-- C28: an item whose createdAt is missing or unparsable is not fired by the
tick, at any time and for any lastReminderTime; each of the five built-in
default items is such an item; and a fresh installation (no item file), after
start-up and any sequence of timer callbacks, pauses and resumes, has presented
nothing. -/
theorem C28_no_createdAt_never_fires :
    (∀ (a : Adhkar), a.createdAt = none →
      ∀ (settings : Settings) (mainWindow isPaused : Bool) (now : Int)
        (lrt : LastReminderTime), fires settings mainWindow isPaused now lrt a = false) ∧
    (∀ a ∈ defaultAdhkar, a.createdAt = none) ∧
    (∀ (mainWindow : Bool) (sf : StoreFile Settings) (acts : List Action),
      (∀ a ∈ acts, a.savesNothing = true) →
      (run (startReminders (Driver.initial mainWindow sf .missing)) acts).log = []) := by
  refine ⟨?_, by decide, ?_⟩
  · intro a ha settings mainWindow isPaused now lrt
    cases isPaused with
    | true => exact fires_paused settings mainWindow now lrt a
    | false => rw [fires_eq_due, due_no_createdAt a ha]
  · intro mainWindow sf acts hacts
    have h0 : NoCreatedAt (Driver.initial mainWindow sf .missing) := by
      constructor
      · intro t ht
        cases ht
      · show ∀ a ∈ defaultAdhkar, a.createdAt = none
        decide
    rw [run_noCreatedAt _ acts hacts (startReminders_noCreatedAt _ h0)]
    exact (startReminders_frame _).1

/-- C28, at the first default item and at a fresh installation that is ticked
at two times, paused and resumed, and ticked again. -/
theorem C28_no_createdAt_never_fires_witness :
    (∀ a ∈ [Action.timer 1 1700000000000, .timer 1 1700000300000, .toggleReminder true,
      .toggleReminder false, .timer 2 1700000600000], a.savesNothing = true) ∧
    (run (startReminders (Driver.initial true .missing .missing))
      [.timer 1 1700000000000, .timer 1 1700000300000, .toggleReminder true,
        .toggleReminder false, .timer 2 1700000600000]).log = [] ∧
    fires defaultSettings true false 1700000000000 LastReminderTime.empty
      { id := 1, text := "Subhan Allah", reminderInterval := none, delayMs := none,
        createdAt := none, category := some "general", repeats := some 33 } = false :=
  ⟨by decide,
    C28_no_createdAt_never_fires.2.2 true .missing _ (by decide),
    C28_no_createdAt_never_fires.1 _ rfl defaultSettings true false 1700000000000
      LastReminderTime.empty⟩

/-! ## C29: the delay fields of the form round-trip -/

theorem orDefault_zero (x : Option Int) : orDefault x 0 = x.getD 0 := by
  unfold orDefault
  cases x with
  | none => rfl
  | some v =>
    by_cases hv : v = 0
    · simp [hv]
    · simp [hv]

theorem handleSubmit_new_delay (form : FormState) (data : FormData)
    (h : handleSubmit false form = some data) :
    data.delayMs = form.delayHours.getD 0 * 3600000 + form.delayMinutes.getD 0 * 60000 +
      form.delaySeconds.getD 0 * 1000 := by
  unfold handleSubmit at h
  split at h
  · have := Option.some.inj h
    subst this
    simp only [Bool.false_eq_true, if_false, orDefault_zero]
  · cases h

theorem delayFields_nonneg (d : Int) (hd : 0 ≤ d) :
    delayFields d = (d / 3600000, d % 3600000 / 60000, d % 60000 / 1000) := by
  unfold delayFields
  rw [Int.tmod_eq_emod hd (by decide), Int.tmod_eq_emod hd (by decide),
    Int.fdiv_eq_ediv _ (by decide), Int.fdiv_eq_ediv _ (by decide),
    Int.fdiv_eq_ediv _ (by decide)]

/-- C29: when a new item is submitted with the delay inputs h, m, s (natural
numbers, m and s below 60), the delay handleSubmit composes,
h * 3600000 + m * 60000 + s * 1000, is decomposed by the edit-mode initialiser
into (h, m, s) again; and for every natural delay d, composing the fields the
initialiser derives from d gives d - (d mod 1000). -/
theorem C29_delay_round_trip :
    (∀ (h m s : Nat) (form : FormState) (data : FormData), m < 60 → s < 60 →
      form.delayHours = some (h : Int) → form.delayMinutes = some (m : Int) →
      form.delaySeconds = some (s : Int) → handleSubmit false form = some data →
      data.delayMs = (h : Int) * 3600000 + (m : Int) * 60000 + (s : Int) * 1000 ∧
      delayFields data.delayMs = ((h : Int), (m : Int), (s : Int))) ∧
    (∀ (d : Nat) (form : FormState) (data : FormData),
      form.delayHours = some (delayFields (d : Int)).1 →
      form.delayMinutes = some (delayFields (d : Int)).2.1 →
      form.delaySeconds = some (delayFields (d : Int)).2.2 →
      handleSubmit false form = some data →
      data.delayMs = (d : Int) - (d : Int) % 1000) := by
  constructor
  · intro h m s form data hm hs hh hmm hss hsub
    have hd := handleSubmit_new_delay form data hsub
    rw [hh, hmm, hss] at hd
    simp only [Option.getD_some] at hd
    refine ⟨hd, ?_⟩
    rw [hd, delayFields_nonneg _ (by omega)]
    refine Prod.ext ?_ (Prod.ext ?_ ?_) <;> simp only <;> omega
  · intro d form data hh hmm hss hsub
    have hd := handleSubmit_new_delay form data hsub
    rw [hh, hmm, hss, delayFields_nonneg _ (Int.ofNat_nonneg d)] at hd
    simp only [Option.getD_some] at hd
    rw [hd]
    omega

/-- C29, at the form with the delay inputs 1 h, 2 min, 3 s and at the item
whose stored delay is 3723456 ms. -/
theorem C29_delay_round_trip_witness :
    (handleSubmit false delayForm).map (fun data => delayFields data.delayMs) =
      some (1, 2, 3) ∧
    (initForm (some { minuteItem with delayMs := some 3723456 })).delaySeconds = some 3 ∧
    ∀ data, handleSubmit false delayForm = some data →
      data.delayMs = (1 : Nat) * 3600000 + (2 : Nat) * 60000 + (3 : Nat) * 1000 ∧
      delayFields data.delayMs = (((1 : Nat) : Int), ((2 : Nat) : Int), ((3 : Nat) : Int)) :=
  ⟨by decide, by decide,
    fun data hdata => C29_delay_round_trip.1 1 2 3 delayForm data (by decide) (by decide)
      rfl rfl rfl hdata⟩

/-! ## C26: the displayed next-show time -/

theorem newDate_of_range (t : Int) (h1 : -maxTimeValue ≤ t) (h2 : t ≤ maxTimeValue) :
    newDate (some t) = some t := by
  simp [newDate, h1, h2]

theorem getNextShowTime_eq (a : Adhkar) (c now : Int) (hc : a.createdAt = some c)
    (hI : 0 < intervalMs a) (hcl : -maxTimeValue ≤ c) (hcu : c ≤ maxTimeValue)
    (hS0 : 0 ≤ c + a.delayMs.getD 0) (hS : c + a.delayMs.getD 0 ≤ maxTimeValue)
    (hN : now + intervalMs a ≤ maxTimeValue) :
    getNextShowTime a now =
      if now < c + a.delayMs.getD 0 then some (c + a.delayMs.getD 0)
      else if (now - (c + a.delayMs.getD 0)) % intervalMs a = 0 then some now
      else some (now + (intervalMs a - (now - (c + a.delayMs.getD 0)) % intervalMs a)) := by
  have hI2 : a.reminderInterval.getD 5 * 60 * 1000 = intervalMs a := rfl
  have hmax : maxTimeValue = 8640000000000000 := rfl
  have hcd : newDate (some c) = some c := newDate_of_range c hcl hcu
  have hSd : newDate (some (c + a.delayMs.getD 0)) = some (c + a.delayMs.getD 0) :=
    newDate_of_range _ (by omega) hS
  unfold getNextShowTime
  simp only [hc, hcd, orDefault_zero, jsAdd, hSd, jsLt, jsSub, jsRem, hI2]
  by_cases h1 : now < c + a.delayMs.getD 0
  · simp [h1]
  · have hne : intervalMs a ≠ 0 := by omega
    have hmod : Int.tmod (now - (c + a.delayMs.getD 0)) (intervalMs a) =
        (now - (c + a.delayMs.getD 0)) % intervalMs a :=
      Int.tmod_eq_emod (by omega) (by omega)
    have hr0 := Int.emod_nonneg (now - (c + a.delayMs.getD 0)) hne
    have hrI := Int.emod_lt_of_pos (now - (c + a.delayMs.getD 0)) hI
    simp only [h1, decide_False, Bool.false_eq_true, if_false, hne, hmod, Option.some.injEq]
    by_cases h2 : (now - (c + a.delayMs.getD 0)) % intervalMs a = 0
    · simp only [h2, if_true, jsAdd, Int.add_zero]
      exact newDate_of_range now (by omega) (by omega)
    · simp only [h2, if_false, jsSub, jsAdd]
      exact newDate_of_range _ (by omega) (by omega)

/-- Beyond the largest time value the result is an invalid date: the item
created one second before it with a delay of two seconds has no valid start,
and for the every-minute item created at 1700000000000 the next boundary after
the last second of the range of `Date` is beyond it. -/
theorem getNextShowTime_invalid_date :
    getNextShowTime endOfTimeItem 1700000000000 = none ∧
    getNextShowTime minuteItem 8639999999999000 = none := by
  decide

/-- C26: for every item with positive interval I and start
S = createdAt + delayMs and every now, where the instants are dates (createdAt
within 8.64e15 ms of the epoch, S from the epoch on, S and now + I at most
8.64e15 ms), getNextShowTime returns S when now < S, and otherwise the least
instant of the form S + N * I (N >= 0) that is >= now; the result is never
earlier than now. -/
theorem C26_next_show_time (a : Adhkar) (c now : Int) (hc : a.createdAt = some c)
    (hI : 0 < intervalMs a) (hcl : -maxTimeValue ≤ c) (hcu : c ≤ maxTimeValue)
    (hS0 : 0 ≤ c + a.delayMs.getD 0) (hS : c + a.delayMs.getD 0 ≤ maxTimeValue)
    (hN : now + intervalMs a ≤ maxTimeValue) :
    (now < c + a.delayMs.getD 0 → getNextShowTime a now = some (c + a.delayMs.getD 0)) ∧
    (c + a.delayMs.getD 0 ≤ now →
      ∃ N : Int, 0 ≤ N ∧
        getNextShowTime a now = some (c + a.delayMs.getD 0 + N * intervalMs a) ∧
        now ≤ c + a.delayMs.getD 0 + N * intervalMs a ∧
        ∀ M : Int, 0 ≤ M → now ≤ c + a.delayMs.getD 0 + M * intervalMs a →
          c + a.delayMs.getD 0 + N * intervalMs a ≤ c + a.delayMs.getD 0 + M * intervalMs a) ∧
    (∃ t, getNextShowTime a now = some t ∧ now ≤ t) := by
  have heq := getNextShowTime_eq a c now hc hI hcl hcu hS0 hS hN
  have key : c + a.delayMs.getD 0 ≤ now →
      ∃ N : Int, 0 ≤ N ∧
        getNextShowTime a now = some (c + a.delayMs.getD 0 + N * intervalMs a) ∧
        now ≤ c + a.delayMs.getD 0 + N * intervalMs a ∧
        ∀ M : Int, 0 ≤ M → now ≤ c + a.delayMs.getD 0 + M * intervalMs a →
          c + a.delayMs.getD 0 + N * intervalMs a ≤
            c + a.delayMs.getD 0 + M * intervalMs a := by
    intro hge
    have hnlt : ¬ now < c + a.delayMs.getD 0 := by omega
    rw [if_neg hnlt] at heq
    have hdiv := Int.emod_add_ediv (now - (c + a.delayMs.getD 0)) (intervalMs a)
    have hr0 := Int.emod_nonneg (now - (c + a.delayMs.getD 0)) (show intervalMs a ≠ 0 by omega)
    have hrI := Int.emod_lt_of_pos (now - (c + a.delayMs.getD 0)) hI
    have hq : 0 ≤ (now - (c + a.delayMs.getD 0)) / intervalMs a :=
      Int.ediv_nonneg (by omega) (by omega)
    have hcomm : (now - (c + a.delayMs.getD 0)) / intervalMs a * intervalMs a =
        intervalMs a * ((now - (c + a.delayMs.getD 0)) / intervalMs a) := Int.mul_comm _ _
    by_cases h2 : (now - (c + a.delayMs.getD 0)) % intervalMs a = 0
    · rw [if_pos h2] at heq
      refine ⟨(now - (c + a.delayMs.getD 0)) / intervalMs a, hq, ?_, by omega, ?_⟩
      · rw [heq]
        congr 1
        omega
      · intro M _ hM
        omega
    · rw [if_neg h2] at heq
      refine ⟨(now - (c + a.delayMs.getD 0)) / intervalMs a + 1, by omega, ?_, ?_, ?_⟩
      · rw [heq]
        congr 1
        rw [Int.add_mul]
        omega
      · rw [Int.add_mul]
        omega
      · intro M _ hM
        have hlt : (now - (c + a.delayMs.getD 0)) / intervalMs a < M := by
          by_contra hcon
          have hle : M ≤ (now - (c + a.delayMs.getD 0)) / intervalMs a := by omega
          have := Int.mul_le_mul_of_nonneg_right hle (le_of_lt hI)
          omega
        have := Int.mul_le_mul_of_nonneg_right
          (show (now - (c + a.delayMs.getD 0)) / intervalMs a + 1 ≤ M by omega) (le_of_lt hI)
        omega
  refine ⟨?_, key, ?_⟩
  · intro hlt
    rw [heq, if_pos hlt]
  · by_cases hlt : now < c + a.delayMs.getD 0
    · rw [heq, if_pos hlt]
      exact ⟨_, rfl, by omega⟩
    · obtain ⟨N, _, h1, h2, _⟩ := key (by omega)
      exact ⟨_, h1, h2⟩

/-- C26, at the every-minute item created at 1700000000000, 30.5 s after its
start: the next show time is the boundary one minute after the start. -/
theorem C26_next_show_time_witness :
    minuteItem.createdAt = some 1700000000000 ∧ 0 < intervalMs minuteItem ∧
    -maxTimeValue ≤ 1700000000000 ∧ 1700000000000 ≤ maxTimeValue ∧
    0 ≤ 1700000000000 + minuteItem.delayMs.getD 0 ∧
    1700000000000 + minuteItem.delayMs.getD 0 ≤ maxTimeValue ∧
    1700000030500 + intervalMs minuteItem ≤ maxTimeValue ∧
    getNextShowTime minuteItem 1700000030500 = some 1700000060000 ∧
    ∃ t, getNextShowTime minuteItem 1700000030500 = some t ∧ 1700000030500 ≤ t :=
  ⟨rfl, by decide, by decide, by decide, by decide, by decide, by decide, by decide,
    (C26_next_show_time minuteItem 1700000000000 1700000030500 rfl (by decide) (by decide)
      (by decide) (by decide) (by decide) (by decide)).2.2⟩

/-! ## C27: the next-show time within one second after a boundary -/

/-- C27 fails on the code.  For the every-minute item created at
S = 1700000000000 and now = S + 500 the cycle position is 500, below 1000,
and the tick at that time fires the item (from the empty map); yet
getNextShowTime returns S + 60000, one interval later, not now.  Only at cycle
position 0 (now = S + 60000) does it return now. -/
theorem C27_next_show_within_second :
    scheduledStartTime minuteItem = some 1700000000000 ∧ intervalMs minuteItem = 60000 ∧
    (1700000000500 - 1700000000000 : Int) % 60000 = 500 ∧
    fires defaultSettings true false 1700000000500 LastReminderTime.empty minuteItem = true ∧
    getNextShowTime minuteItem 1700000000500 = some 1700000060000 ∧
    getNextShowTime minuteItem 1700000000500 ≠ some 1700000000500 ∧
    getNextShowTime minuteItem 1700000060000 = some 1700000060000 := by
  decide

/-! ## C23: sound path resolution degrades gracefully -/

theorem checkedPath_spec (fs : FileSystem) (p : SoundPath) :
    ((checkedPath fs p).1 = none ∧ (checkedPath fs p).2 = fs ∧ fs.fileExists p = false) ∨
    ((checkedPath fs p).1 = some p ∧ (checkedPath fs p).2 = fs ∧ fs.fileExists p = true) := by
  unfold checkedPath
  cases h : fs.fileExists p with
  | false => left; simp
  | true => right; simp

theorem checkedPath_result (fs : FileSystem) (p : SoundPath) :
    (checkedPath fs p).1 = none ∨
    ∃ q, (checkedPath fs p).1 = some q ∧ (checkedPath fs p).2.fileExists q = true ∧ q = p := by
  rcases checkedPath_spec fs p with ⟨h1, _, _⟩ | ⟨h1, h2, h3⟩
  · exact Or.inl h1
  · exact Or.inr ⟨p, h1, by rw [h2]; exact h3, rfl⟩

theorem soundResultOk_none (fs fs1 : FileSystem) : SoundResultOk fs (none, fs1) :=
  ⟨Or.inl rfl, fun _ hp => by cases hp⟩

theorem soundResultOk_checked (fs : FileSystem) (p : SoundPath) :
    SoundResultOk fs (checkedPath fs p) := by
  rcases checkedPath_spec fs p with ⟨h1, _, _⟩ | ⟨h1, h2, h3⟩
  · exact ⟨Or.inl h1, fun q hq => by rw [h1] at hq; cases hq⟩
  · refine ⟨Or.inr ⟨p, h1, by rw [h2]; exact h3⟩, fun q hq => ?_⟩
    rw [h1] at hq
    right
    rw [← Option.some.inj hq]
    exact h3

theorem soundResultOk_temp (fs fs1 : FileSystem) :
    SoundResultOk fs (checkedPath fs1 .tempCustom) := by
  rcases checkedPath_result fs1 .tempCustom with h | ⟨q, h1, h2, h3⟩
  · exact ⟨Or.inl h, fun p hp => by rw [h] at hp; cases hp⟩
  · refine ⟨Or.inr ⟨q, h1, h2⟩, fun p hp => ?_⟩
    rw [h1] at hp
    left
    rw [← Option.some.inj hp, h3]

theorem getNotificationSoundPath_ok (faults : IoFaults) (fs : FileSystem)
    (soundType : Option String) (customSoundPath : JSValue) :
    SoundResultOk fs (getNotificationSoundPath faults fs soundType customSoundPath) := by
  unfold getNotificationSoundPath
  simp only
  repeat' split
  all_goals
    first
      | exact soundResultOk_none fs _
      | exact soundResultOk_checked fs _
      | exact soundResultOk_temp fs _

/-- C23: for every sound type, every value of the custom sound reference,
every file-system state and whatever write fails, getNotificationSoundPath
returns (it has a value: every exception ends in its catch) either null or a
path that exists in the file system it leaves; a path other than the temporary
copy of a data URL exists in the file system it was called in, so a missing
sound file yields null. -/
theorem C23_sound_path_checked (faults : IoFaults) (fs : FileSystem)
    (soundType : Option String) (customSoundPath : JSValue) :
    ((getNotificationSoundPath faults fs soundType customSoundPath).1 = none ∨
      ∃ p, (getNotificationSoundPath faults fs soundType customSoundPath).1 = some p ∧
        (getNotificationSoundPath faults fs soundType customSoundPath).2.fileExists p = true) ∧
    (∀ p, (getNotificationSoundPath faults fs soundType customSoundPath).1 = some p →
      p = .tempCustom ∨ fs.fileExists p = true) :=
  getNotificationSoundPath_ok faults fs soundType customSoundPath

/-- C23, in the file system with the bundled sounds and `my.wav`: the sound type
"bell" resolves to the existing bundled file, and the custom sound reference
`missing.wav`, for which no file exists, resolves to null. -/
theorem C23_sound_path_checked_witness :
    (getNotificationSoundPath IoFaults.none soundsInstalled (some "bell") JSValue.null).1 =
      some (.bundled "notification-bell.wav") ∧
    soundsInstalled.fileExists (.customSound "missing.wav") = false ∧
    (getNotificationSoundPath IoFaults.none soundsInstalled (some "custom")
      (.string "missing.wav")).1 = none ∧
    ∀ p, (getNotificationSoundPath IoFaults.none soundsInstalled (some "bell")
        JSValue.null).1 = some p →
      p = .tempCustom ∨ soundsInstalled.fileExists p = true :=
  ⟨by decide, by decide, by decide,
    (C23_sound_path_checked IoFaults.none soundsInstalled (some "bell") JSValue.null).2⟩

/-! ## C24: the sound type "none" resolves to the default sound -/

/-- C24 fails on the code.  For the sound type "none" the read of soundMap
gives null, and `soundMap[soundType] || soundMap["default"]` replaces it by the
default file: getNotificationSoundPath returns what it returns for "default",
and in a file system where the bundled default sound exists it returns that
path, not null. -/
theorem C24_none_resolves_to_default :
    soundMap "none" = MapValue.null ∧
    (∀ (faults : IoFaults) (fs : FileSystem) (customSoundPath : JSValue),
      getNotificationSoundPath faults fs (some "none") customSoundPath =
        getNotificationSoundPath faults fs (some "default") customSoundPath) ∧
    soundsInstalled.fileExists (.bundled "notification-default.wav") = true ∧
    (getNotificationSoundPath IoFaults.none soundsInstalled (some "none") JSValue.null).1 =
      some (.bundled "notification-default.wav") := by
  refine ⟨by decide, ?_, by decide, by decide⟩
  intro faults fs customSoundPath
  unfold getNotificationSoundPath
  have h1 : ("none" = "custom") = False := by decide
  have h2 : ("default" = "custom") = False := by decide
  have h3 : (soundMap "none").truthy = false := by decide
  have h4 : (soundMap "default").truthy = true := by decide
  simp only [Option.getD_some, h1, h2, h3, h4, decide_False, Bool.false_and,
    Bool.false_eq_true, if_false, if_true]

/-! ## C25: with the sound type "none" no sound is played -/

/-- C25: with notificationSound = "none", for every item and whether the main
window exists or not, the presentation of a fired reminder makes no call of
playNotificationSound; in custom mode it is the one call of
createNotificationWindow with the sound type "none"; and the notification
content has no audio element, for every custom sound reference, file-system
state, failing write and readable file. -/
theorem C25_none_plays_no_sound (settings : Settings)
    (hnone : settings.notificationSound = some "none") :
    (∀ (mainWindow : Bool) (a : Adhkar) (sound custom : Option String),
      Event.playNotificationSound sound custom ∉ presentEvents settings mainWindow a) ∧
    (settings.notificationType ≠ some "system" → ∀ (mainWindow : Bool) (a : Adhkar),
      presentEvents settings mainWindow a =
        [Event.createNotificationWindow a (some "none") settings.customSoundPath] ++
          (if mainWindow then [Event.newReminder a] else [])) ∧
    (∀ (faults : IoFaults) (fs : FileSystem) (readable : SoundPath → Bool),
      hasAudioElement settings.notificationSound (tickSoundPath faults fs settings).1
        readable = false) := by
  refine ⟨?_, ?_, ?_⟩
  · intro mainWindow a sound custom hmem
    rcases mem_presentEvents settings mainWindow a _ hmem with h | h | h | h
    · cases h
    · unfold presentEvents at hmem
      by_cases hs : settings.notificationType = some "system" <;>
        cases mainWindow <;> simp [hs, hnone] at hmem
    · cases h
    · cases h
  · intro hs mainWindow a
    unfold presentEvents
    simp only [hs, if_false, hnone]
  · intro faults fs readable
    unfold hasAudioElement
    rw [hnone]
    simp

/-- C25, at the default settings with the sound switched off, in a file system
where the default sound exists and is readable. -/
theorem C25_none_plays_no_sound_witness :
    silentSettings.notificationSound = some "none" ∧
    (tickSoundPath IoFaults.none soundsInstalled silentSettings).1 =
      some (.bundled "notification-default.wav") ∧
    hasAudioElement silentSettings.notificationSound
      (tickSoundPath IoFaults.none soundsInstalled silentSettings).1 (fun _ => true) = false ∧
    hasAudioElement (some "default")
      (tickSoundPath IoFaults.none soundsInstalled defaultSettings).1 (fun _ => true) = true :=
  ⟨rfl, by decide,
    (C25_none_plays_no_sound silentSettings rfl).2.2 IoFaults.none soundsInstalled
      (fun _ => true),
    by decide⟩

/-! ## C30: the test-sound handler passes the volume as the custom sound -/

/-- For a sound type other than "custom" the second argument is not read, and
the test handler resolves what the tick resolves. -/
theorem testNotificationSoundPath_not_custom (faults : IoFaults) (fs : FileSystem)
    (soundType : String) (hne : soundType ≠ "custom") (volume customSoundPath : JSValue) :
    testNotificationSoundPath faults fs (some soundType) volume customSoundPath =
      getNotificationSoundPath faults fs (some soundType) customSoundPath := by
  unfold testNotificationSoundPath getNotificationSoundPath
  simp [hne]

/-- C30 fails on the code for the sound type "custom".  With the custom sound
`my.wav` present, the tick resolves the settings to that file, while the
test-notification-sound handler, called with the same sound type, the volume
0.8 and the same custom sound reference, passes the volume in the place of the
reference and gets null; with the volume 0 it gets the bundled default
sound. -/
theorem C30_test_sound_wrong_argument :
    soundsInstalled.fileExists (.customSound "my.wav") = true ∧
    (tickSoundPath IoFaults.none soundsInstalled customSoundSettings).1 =
      some (.customSound "my.wav") ∧
    (getNotificationSoundPath IoFaults.none soundsInstalled (some "custom")
      (.string "my.wav")).1 = some (.customSound "my.wav") ∧
    (testNotificationSoundPath IoFaults.none soundsInstalled (some "custom")
      (.number (4 / 5)) (.string "my.wav")).1 = none ∧
    (testNotificationSoundPath IoFaults.none soundsInstalled (some "custom")
      (.number 0) (.string "my.wav")).1 = some (.bundled "notification-default.wav") := by
  refine ⟨by decide, by decide, by decide, ?_, by decide⟩
  simp [testNotificationSoundPath, getNotificationSoundPath, JSValue.truthy]

end ZikrReminder
